import Mathlib

/-!
# Banking system: ledger operations on the account file

A shallow embedding of the ledger core of the banking server
(`server_logic.c`, `utils.c`, `bank_storage.h`) and proofs about it.

Modelling conventions.

* `accounts.dat` is a list of whole `struct CustomerAccount` records and
  `transactions.dat` a list of whole `struct Transaction` records; a byte
  offset in `accounts.dat` is `96 * index`.
* The C type `double` of balances and amounts is IEEE 754 binary64 with the
  default rounding (to nearest, ties to even), as on x86-64: sums and
  differences are rounded, and `atof` can return an infinity or a NaN.
* `int` values (`account_id`, `is_active`) are integers; the handlers only
  compare them.
* A character of a string stands for a byte.
* A handler's socket dialogue is abstracted to the values parsed from the
  lines it reads (`atoi`, `atof`): an input is `none` when the prompt could
  not be sent or `read_line` returned `<= 0` (which it also does on an empty
  line), in which case the C handler returns without a reply.
* Every system call on the two files is taken to succeed (`open`, `fcntl`,
  `read`, `write`, and `lseek` to a non-negative offset); `lseek` to a
  negative offset fails and leaves the file position where it was.
* A handler's `struct CustomerAccount` locals are uninitialised in C; their
  indeterminate initial contents are explicit arguments.
* A handler returns, next to the files and its reply, the `fcntl` calls it made
  on `accounts.dat`. Concurrent handlers are modelled by two processes that
  interleave these calls under the rules of advisory record locks.
-/

namespace BankingSystem

/-! ## The C type `double` (IEEE 754 binary64 on x86-64)

Balances and amounts are `double` in the C code. A value is modelled by its
sign, an odd integer mantissa and a binary exponent, so that equal numbers
are equal terms; the operations round to nearest, ties to even, as the
hardware does. -/

/-- A value of the C type `double`: the finite number
`(-1)^negative * mantissa * 2^exponent`, an infinity, or a NaN. A finite
value has an odd mantissa, or mantissa 0 and exponent 0 for a zero; there are
two zeros. The sign of a NaN is kept, since `printf` shows it. -/
inductive Double where
  | finite (negative : Bool) (mantissa : Nat) (exponent : Int)
  | infinite (negative : Bool)
  | nan (negative : Bool)
  deriving DecidableEq

/-- Halves an even mantissa until it is odd, at most `fuel` times. -/
def Double.strip_zeros_loop : Nat → Nat → Int → Nat × Int
  | 0, mantissa, exponent => (mantissa, exponent)
  | fuel + 1, mantissa, exponent =>
      if mantissa % 2 = 0 ∧ mantissa ≠ 0 then
        Double.strip_zeros_loop fuel (mantissa / 2) (exponent + 1)
      else (mantissa, exponent)

/-- The odd mantissa and the exponent of `mantissa * 2^exponent`, for a
mantissa below `2^64`. -/
def Double.strip_zeros (mantissa : Nat) (exponent : Int) : Nat × Int :=
  Double.strip_zeros_loop 64 mantissa exponent

/-- The number of binary digits of `n`, for `n` below `2^fuel`; it counts 64
digits at a time while there are more than 64. -/
def Double.bit_length_loop : Nat → Nat → Nat
  | 0, _ => 0
  | fuel + 1, n =>
      if n = 0 then 0
      else if 2 ^ 64 ≤ n then Double.bit_length_loop fuel (n / 2 ^ 64) + 64
      else Double.bit_length_loop fuel (n / 2) + 1

/-- The number of binary digits of `n`, for `n` below `2^2200`; the exact sum
of two doubles, as a multiple of the smaller unit, is below `2^2100`. -/
def Double.bit_length (n : Nat) : Nat := Double.bit_length_loop 2200 n

/-- The double with magnitude `mantissa * 2^exponent`, which has at most 53
significant bits and `exponent >= -1074`: an infinity when it is `2^1024` or
more. -/
def Double.normalize (negative : Bool) (mantissa : Nat) (exponent : Int) : Double :=
  if mantissa = 0 then .finite negative 0 0
  else
    let stripped := Double.strip_zeros mantissa exponent
    if ((Double.bit_length stripped.1 : Nat) : Int) + stripped.2 > 1024 then .infinite negative
    else .finite negative stripped.1 stripped.2

/-- The double nearest to `(-1)^negative * magnitude * 2^exponent`, ties to
the even mantissa: the low bits beyond 53 significant bits, or below `2^-1074`,
are rounded off. -/
def Double.round (negative : Bool) (magnitude : Nat) (exponent : Int) : Double :=
  if magnitude = 0 then .finite negative 0 0
  else
    let drop : Int :=
      max (((Double.bit_length magnitude : Nat) : Int) - 53) (-1074 - exponent)
    if drop ≤ 0 then Double.normalize negative magnitude exponent
    else
      let quotient := magnitude / 2 ^ drop.toNat
      let remainder := magnitude % 2 ^ drop.toNat
      let half := 2 ^ (drop.toNat - 1)
      let rounded :=
        if remainder < half then quotient
        else if half < remainder then quotient + 1
        else if quotient % 2 = 0 then quotient
        else quotient + 1
      Double.normalize negative rounded (exponent + drop)

/-- The double of a natural number, as a constant of the C code. -/
def Double.of_nat (n : Nat) : Double := Double.round false n 0

instance (n : Nat) : OfNat Double n := ⟨Double.of_nat n⟩

/-- The operator `-x`: the sign bit is flipped. -/
def Double.neg : Double → Double
  | .finite negative mantissa exponent => .finite (!negative) mantissa exponent
  | .infinite negative => .infinite (!negative)
  | .nan negative => .nan (!negative)

instance : Neg Double := ⟨Double.neg⟩

/-- The integer `(-1)^negative * mantissa * 2^shift`. -/
def Double.scaled (negative : Bool) (mantissa : Nat) (shift : Int) : Int :=
  if negative then -((mantissa * 2 ^ shift.toNat : Nat) : Int)
  else ((mantissa * 2 ^ shift.toNat : Nat) : Int)

/-- The operator `x + y`. An operand that is a NaN is the result, the left one
first; the sum of opposite infinities is the NaN with the sign bit set, as
SSE2 gives it. -/
def Double.add : Double → Double → Double
  | .nan negative, _ => .nan negative
  | _, .nan negative => .nan negative
  | .infinite s, .infinite t => if s = t then .infinite s else .nan true
  | .infinite s, .finite _ _ _ => .infinite s
  | .finite _ _ _, .infinite t => .infinite t
  | .finite s m e, .finite t n f =>
      let sum : Int := Double.scaled s m (e - min e f) + Double.scaled t n (f - min e f)
      if sum = 0 then .finite (s && t) 0 0
      else Double.round (decide (sum < 0)) sum.natAbs (min e f)

instance : Add Double := ⟨Double.add⟩

/-- The operator `x - y`. -/
def Double.sub : Double → Double → Double
  | .nan negative, _ => .nan negative
  | _, .nan negative => .nan negative
  | x, y => Double.add x (Double.neg y)

instance : Sub Double := ⟨Double.sub⟩

/-- The operator `x < y`: false when an operand is a NaN. -/
def Double.lt : Double → Double → Bool
  | .nan _, _ => false
  | _, .nan _ => false
  | .infinite s, .infinite t => s && !t
  | .infinite s, .finite _ _ _ => s
  | .finite _ _ _, .infinite t => !t
  | .finite s m e, .finite t n f =>
      decide (Double.scaled s m (e - min e f) < Double.scaled t n (f - min e f))

/-- The operator `x <= y`: false when an operand is a NaN. -/
def Double.le : Double → Double → Bool
  | .nan _, _ => false
  | _, .nan _ => false
  | .infinite s, .infinite t => s || !t
  | .infinite s, .finite _ _ _ => s
  | .finite _ _ _, .infinite t => !t
  | .finite s m e, .finite t n f =>
      decide (Double.scaled s m (e - min e f) ≤ Double.scaled t n (f - min e f))

instance : LT Double := ⟨fun x y => Double.lt x y = true⟩

instance : LE Double := ⟨fun x y => Double.le x y = true⟩

instance (x y : Double) : Decidable (x < y) :=
  inferInstanceAs (Decidable (Double.lt x y = true))

instance (x y : Double) : Decidable (x ≤ y) :=
  inferInstanceAs (Decidable (Double.le x y = true))

/-- The number of hundredths nearest to `mantissa * 2^exponent`, ties to
even: the digits `printf` prints with `%.2f`. -/
def round_hundredths (mantissa : Nat) (exponent : Int) : Nat :=
  let n := mantissa * 100 * 2 ^ exponent.toNat
  let den := 2 ^ (-exponent).toNat
  let q := n / den
  let r := n % den
  if 2 * r < den then q else if den < 2 * r then q + 1 else if q % 2 = 0 then q else q + 1

/-- Two decimal digits. -/
def two_digits (n : Nat) : String := if n < 10 then "0" ++ Nat.repr n else Nat.repr n

/-- What `%.2f` prints after the sign. -/
def format_magnitude : Double → String
  | .finite _ mantissa exponent =>
      Nat.repr (round_hundredths mantissa exponent / 100) ++ "." ++
        two_digits (round_hundredths mantissa exponent % 100)
  | .infinite _ => "inf"
  | .nan _ => "nan"

/-- Whether the sign bit is set. -/
def Double.sign_bit : Double → Bool
  | .finite negative _ _ => negative
  | .infinite negative => negative
  | .nan negative => negative

/-- The conversion `%.2f` of `printf`. -/
def format_2f (x : Double) : String := (if x.sign_bit then "-" else "") ++ format_magnitude x

/-- The conversion `%+.2f` of `printf`. -/
def format_plus_2f (x : Double) : String :=
  (if x.sign_bit then "-" else "+") ++ format_magnitude x

/-- Whether the double is a finite number. -/
def Double.is_finite : Double → Bool
  | .finite _ _ _ => true
  | _ => false

/-- The number a finite double stands for (and 0 for an infinity or a NaN). -/
def Double.toRat : Double → ℚ
  | .finite negative mantissa exponent =>
      (if negative then -1 else 1) * (mantissa : ℚ) * (2 : ℚ) ^ exponent
  | _ => 0

/-- Whether the term is a number of the binary64 format: finite, with at most
53 significant bits, no bit below `2^-1074` and a magnitude below `2^1024`.
Every finite value of a C `double` is one. -/
def Double.is_number : Double → Bool
  | .finite _ mantissa exponent =>
      decide (mantissa < 2 ^ 53 ∧ -1074 ≤ exponent ∧
        ((Double.bit_length mantissa : Nat) : Int) + exponent ≤ 1024)
  | _ => false
/-! ## Data model (`bank_storage.h`) -/

/-- A record of `accounts.dat` (`struct CustomerAccount`). -/
structure CustomerAccount where
  account_id : Int
  owner_name : String
  access_pin : String
  balance : Double
  is_active : Int
  deriving DecidableEq

/-- A record of `transactions.dat` (`struct Transaction`). -/
structure Transaction where
  account_id : Int
  timestamp : String
  description : String
  resulting_balance : Double
  deriving DecidableEq

/-- The two shared files the ledger operations work on. -/
structure Database where
  accounts : List CustomerAccount
  transactions : List Transaction
  deriving DecidableEq

/-- The value of `sizeof(struct CustomerAccount)` on x86-64: 4 + 50 + 20 bytes,
padded to 80 for the `double`, then 8 + 4, padded to a multiple of 8. -/
def sizeof_CustomerAccount : Int := 96

/-! ## Positioned I/O on `accounts.dat` -/

/-- An open descriptor on `accounts.dat`: the records of the file and the
current file position in bytes. -/
structure AccountFd where
  records : List CustomerAccount
  pos : Int

/-- The index of the record that starts at byte position `pos`. -/
def record_index (pos : Int) : Nat := (pos / sizeof_CustomerAccount).toNat

/-- The call `lseek(db_fd, offset, SEEK_SET)`: a negative offset is refused
(`EINVAL`) and the position stays where it was. -/
def lseek_set (fd : AccountFd) (offset : Int) : AccountFd :=
  if offset < 0 then fd else { fd with pos := offset }

/-- The call `read(db_fd, &buf, sizeof(buf))` at the current position: a whole
record is read and the position advances, or at end of file nothing is read
and the buffer keeps its contents. -/
def read_account (fd : AccountFd) (buf : CustomerAccount) : CustomerAccount × AccountFd :=
  match fd.records[record_index fd.pos]? with
  | some r => (r, { fd with pos := fd.pos + sizeof_CustomerAccount })
  | none => (buf, fd)

/-- The call `write(db_fd, &rec, sizeof(rec))` at the current position: the
record there is overwritten, or at end of file the record is appended. -/
def write_account (fd : AccountFd) (rec : CustomerAccount) : AccountFd :=
  if record_index fd.pos < fd.records.length then
    { records := fd.records.set (record_index fd.pos) rec,
      pos := fd.pos + sizeof_CustomerAccount }
  else
    { records := fd.records ++ [rec], pos := fd.pos + sizeof_CustomerAccount }

/-- The loop of `find_customer_record_offset` (`utils.c:128-135`) over the
records still to be read, `current_pos` being the offset of the first of
them: the result is the returned offset (`-1` when no record matches) and the
file position the loop leaves behind. -/
def scan_accounts (account_id : Int) : List CustomerAccount → Int → Int × Int
  | [], current_pos => (-1, current_pos)
  | temp_account :: rest, current_pos =>
      if temp_account.account_id = account_id then
        (current_pos, current_pos + sizeof_CustomerAccount)
      else
        scan_accounts account_id rest (current_pos + sizeof_CustomerAccount)

/-- The function `find_customer_record_offset` (`utils.c:124`): rewind, then
scan; returns the offset and the descriptor with its new position. -/
def find_customer_record_offset (fd : AccountFd) (account_id : Int) : Int × AccountFd :=
  ((scan_accounts account_id fd.records 0).1,
   { fd with pos := (scan_accounts account_id fd.records 0).2 })

/-! ## Formatting and the transaction log (`utils.c`) -/

/-- The function `log_transaction` (`utils.c:176`): appends one entry to
`transactions.dat`. `now` is the text `strftime` produced for the current
time; the description is `snprintf("%s: %+.2f")` into a 100-byte buffer. -/
def log_transaction (log : List Transaction) (account_id : Int) (type : String)
    (amount new_balance : Double) (now : String) : List Transaction :=
  log ++ [{ account_id := account_id,
            timestamp := now,
            description := (type ++ ": " ++ format_plus_2f amount).take 99,
            resulting_balance := new_balance }]

/-! ## Replies and record locks -/

/-- A reply sent with `send_response(client_socket, status, message)`. -/
structure Response where
  status : String
  message : String
  deriving DecidableEq

/-- A call of `fcntl` on the descriptor of `accounts.dat`; the lock always
covers `sizeof(struct CustomerAccount)` bytes from `l_start`. -/
inductive FcntlCall where
  | setlkw_wrlck (l_start : Int)
  | setlk_unlck (l_start : Int)
  deriving DecidableEq

/-- What a handler leaves behind: the files, the reply it sent (if any) and
the `fcntl` calls it made on `accounts.dat`, in order. -/
structure Outcome where
  db : Database
  response : Option Response
  fcntl : List FcntlCall
  deriving DecidableEq

/-! ## Customer operations (`server_logic.c`) -/

/-- The function `login_customer` (`server_logic.c:122`), with `accounts.dat`
present. `account₀` is the initial content of the local `account`. -/
def login_customer (accounts : List CustomerAccount) (account_id : Int) (pin : String)
    (account₀ : CustomerAccount) : Bool :=
  let found := find_customer_record_offset ⟨accounts, 0⟩ account_id
  if found.1 = -1 then false
  else
    let account := (read_account (lseek_set found.2 found.1) account₀).1
    decide (account.access_pin = pin) && decide (account.is_active ≠ 0)

/-- The function `handle_deposit` (`server_logic.c:146`). -/
def handle_deposit (db : Database) (account_id : Int) (amount_line : Option Double)
    (now : String) (account₀ : CustomerAccount) : Outcome :=
  let found := find_customer_record_offset ⟨db.accounts, 0⟩ account_id
  let offset := found.1
  if offset = -1 then ⟨db, some ⟨"ERROR", "Account not found."⟩, []⟩
  else
    match amount_line with
    | none => ⟨db, none, []⟩
    | some amount =>
      if amount ≤ 0 then ⟨db, some ⟨"ERROR", "Invalid deposit amount."⟩, []⟩
      else
        let rd := read_account (lseek_set found.2 offset) account₀
        let account := { rd.1 with balance := rd.1.balance + amount }
        let fd := write_account (lseek_set rd.2 offset) account
        ⟨⟨fd.records, log_transaction db.transactions account_id "DEPOSIT" amount account.balance now⟩,
         some ⟨"SUCCESS", "Deposit successful. New balance: " ++ format_2f account.balance⟩,
         [.setlkw_wrlck offset, .setlk_unlck offset]⟩

/-- The function `handle_withdrawal` (`server_logic.c:178`). -/
def handle_withdrawal (db : Database) (account_id : Int) (amount_line : Option Double)
    (now : String) (account₀ : CustomerAccount) : Outcome :=
  let found := find_customer_record_offset ⟨db.accounts, 0⟩ account_id
  let offset := found.1
  if offset = -1 then ⟨db, some ⟨"ERROR", "Account not found."⟩, []⟩
  else
    match amount_line with
    | none => ⟨db, none, []⟩
    | some amount =>
      if amount ≤ 0 then ⟨db, some ⟨"ERROR", "Invalid withdrawal amount."⟩, []⟩
      else
        let rd := read_account (lseek_set found.2 offset) account₀
        if rd.1.balance < amount then
          ⟨db, some ⟨"ERROR", "Insufficient funds. Current balance: " ++ format_2f rd.1.balance⟩,
           [.setlkw_wrlck offset, .setlk_unlck offset]⟩
        else
          let account := { rd.1 with balance := rd.1.balance - amount }
          let fd := write_account (lseek_set rd.2 offset) account
          ⟨⟨fd.records,
            log_transaction db.transactions account_id "WITHDRAWAL" (-amount) account.balance now⟩,
           some ⟨"SUCCESS", "Withdrawal successful. New balance: " ++ format_2f account.balance⟩,
           [.setlkw_wrlck offset, .setlk_unlck offset]⟩

/-- The function `handle_fund_transfer` (`server_logic.c:269`). `dest_line` and
`amount_line` are the two lines read; `now_out` and `now_in` the times of the
two log entries; `source_ac₀` and `dest_ac₀` the initial contents of the
locals `source_ac` and `dest_ac`. -/
def handle_fund_transfer (db : Database) (source_account_id : Int)
    (dest_line : Option Int) (amount_line : Option Double) (now_out now_in : String)
    (source_ac₀ dest_ac₀ : CustomerAccount) : Outcome :=
  match dest_line with
  | none => ⟨db, none, []⟩
  | some dest_account_id =>
    match amount_line with
    | none => ⟨db, none, []⟩
    | some amount =>
      if source_account_id = dest_account_id then
        ⟨db, some ⟨"ERROR", "Cannot transfer to the same account."⟩, []⟩
      else if amount ≤ 0 then ⟨db, some ⟨"ERROR", "Invalid transfer amount."⟩, []⟩
      else
        let found_src := find_customer_record_offset ⟨db.accounts, 0⟩ source_account_id
        let found_dest := find_customer_record_offset found_src.2 dest_account_id
        let offset_src := found_src.1
        let offset_dest := found_dest.1
        if offset_dest = -1 then ⟨db, some ⟨"ERROR", "Destination account not found."⟩, []⟩
        else
          let calls : List FcntlCall :=
            (if offset_src < offset_dest then
              [.setlkw_wrlck offset_src, .setlkw_wrlck offset_dest]
             else [.setlkw_wrlck offset_dest, .setlkw_wrlck offset_src])
            ++ [.setlk_unlck offset_src, .setlk_unlck offset_dest]
          let rd_src := read_account (lseek_set found_dest.2 offset_src) source_ac₀
          let rd_dest := read_account (lseek_set rd_src.2 offset_dest) dest_ac₀
          if rd_src.1.balance < amount then
            ⟨db, some ⟨"ERROR",
              "Insufficient funds. Current balance: " ++ format_2f rd_src.1.balance⟩, calls⟩
          else if rd_dest.1.is_active = 0 then
            ⟨db, some ⟨"ERROR", "Destination account is inactive."⟩, calls⟩
          else
            let source_ac := { rd_src.1 with balance := rd_src.1.balance - amount }
            let dest_ac := { rd_dest.1 with balance := rd_dest.1.balance + amount }
            let fd_src := write_account (lseek_set rd_dest.2 offset_src) source_ac
            let fd_dest := write_account (lseek_set fd_src offset_dest) dest_ac
            let log_out := log_transaction db.transactions source_account_id "TRANSFER_OUT"
              (-amount) source_ac.balance now_out
            let log_in := log_transaction log_out dest_account_id "TRANSFER_IN"
              amount dest_ac.balance now_in
            ⟨⟨fd_dest.records, log_in⟩,
             some ⟨"SUCCESS", "Transfer successful. New balance: " ++ format_2f source_ac.balance⟩,
             calls⟩

/-! ## Notions used to state the properties -/

/-- The record `r` is the first record of `accounts` whose id is `account_id`,
and it is the record number `i`. -/
def located_at (accounts : List CustomerAccount) (account_id : Int) (i : Nat)
    (r : CustomerAccount) : Prop :=
  accounts[i]? = some r ∧ r.account_id = account_id ∧
    ∀ x ∈ accounts.take i, x.account_id ≠ account_id

instance located_at_decidable (accounts : List CustomerAccount) (account_id : Int) (i : Nat)
    (r : CustomerAccount) : Decidable (located_at accounts account_id i r) := by
  unfold located_at; infer_instance

/-- The sum of all balances of the store, as a number; it is meant for stores
whose balances are finite. -/
def total_balance (accounts : List CustomerAccount) : ℚ :=
  (accounts.map (fun r => r.balance.toRat)).sum

/-- The `fcntl` calls of a transfer that reaches the locking step. -/
def transfer_fcntl_calls (offset_src offset_dest : Int) : List FcntlCall :=
  (if offset_src < offset_dest then
    [.setlkw_wrlck offset_src, .setlkw_wrlck offset_dest]
   else [.setlkw_wrlck offset_dest, .setlkw_wrlck offset_src])
  ++ [.setlk_unlck offset_src, .setlk_unlck offset_dest]

/-- The starts of the locks a handler asked for with `F_SETLKW`, in the order
of its calls. -/
def lock_requests : List FcntlCall → List Int
  | [] => []
  | .setlkw_wrlck l_start :: rest => l_start :: lock_requests rest
  | .setlk_unlck _ :: rest => lock_requests rest

/-- The store whose only account, 100 with balance 500.00, is inactive. -/
def inactive_db : Database := ⟨[⟨100, "Asha", "1234", 500, 0⟩], []⟩

/-! ## A concrete store -/

/-- Account 100 with balance 750.00. -/
def account_100 : CustomerAccount := ⟨100, "Asha", "1234", 750, 1⟩

/-- Account 200 with balance 0.00. -/
def account_200 : CustomerAccount := ⟨200, "Bram", "4321", 0, 1⟩

/-- Some contents for an uninitialised local. -/
def stack_junk : CustomerAccount := ⟨-7, "", "", 1000, 5⟩

/-- The store with accounts 100 and 200 and an empty log. -/
def scenario_db : Database := ⟨[account_100, account_200], []⟩

/-- The store in which account 100 has 750.00 and account 200 has 1e16. -/
def rounding_db : Database :=
  ⟨[⟨100, "Asha", "1234", 750, 1⟩, ⟨200, "Bram", "4321", 10000000000000000, 1⟩], []⟩

/-- The double `atof` returns for "750.01". -/
def amount_750_01 : Double := .finite false 3298578863793111 (-42)

/-! ## Two processes and the record locks of `accounts.dat`

A process that runs a handler makes the handler's `fcntl` calls in order.
`F_SETLKW` with `F_WRLCK` waits while another process holds a lock on the
record, and fails at once (`EINVAL`) for a negative start; unlocking never
waits. Records do not overlap, so two locks conflict when they start at the
same offset. -/

/-- The record locks a process holds after one more `fcntl` call returned. -/
def apply_call (held : List Int) : FcntlCall → List Int
  | .setlkw_wrlck l_start => if l_start < 0 then held else l_start :: held
  | .setlk_unlck l_start => held.filter (fun o => o ≠ l_start)

/-- Whether a call has to wait, given the locks the other process holds. -/
def blocked : FcntlCall → List Int → Bool
  | .setlkw_wrlck l_start, others => decide (0 ≤ l_start) && decide (l_start ∈ others)
  | .setlk_unlck _, _ => false

/-- A process: the `fcntl` calls it still has to make and the locks it holds. -/
structure LockProcess where
  todo : List FcntlCall
  held : List Int
  deriving DecidableEq

/-- The process makes its next call, unless it has finished or has to wait. -/
def LockProcess.step (me : LockProcess) (others : List Int) : Option LockProcess :=
  match me.todo with
  | [] => none
  | call :: rest => if blocked call others then none else some ⟨rest, apply_call me.held call⟩

/-- Two processes working on the same `accounts.dat`. -/
structure TwoProcesses where
  first : LockProcess
  second : LockProcess
  deriving DecidableEq

/-- One step of the system: one of the two processes makes its next call. -/
inductive TwoProcesses.Step : TwoProcesses → TwoProcesses → Prop where
  | first (s : TwoProcesses) (p : LockProcess) :
      s.first.step s.second.held = some p → TwoProcesses.Step s ⟨p, s.second⟩
  | second (s : TwoProcesses) (q : LockProcess) :
      s.second.step s.first.held = some q → TwoProcesses.Step s ⟨s.first, q⟩

/-- The states the system can be in after `n` steps from `init`. -/
inductive TwoProcesses.Run (init : TwoProcesses) : Nat → TwoProcesses → Prop where
  | start : TwoProcesses.Run init 0 init
  | next (n : Nat) (s s' : TwoProcesses) :
      TwoProcesses.Run init n s → TwoProcesses.Step s s' → TwoProcesses.Run init (n + 1) s'

/-- Two processes about to run the given calls, holding no lock. -/
def TwoProcesses.start_with (calls_first calls_second : List FcntlCall) : TwoProcesses :=
  ⟨⟨calls_first, []⟩, ⟨calls_second, []⟩⟩

/-- The locks held after all of `calls` returned. -/
def held_after (calls : List FcntlCall) : List Int := calls.foldl apply_call []

/-- The process that has made the first `k` of `calls`. -/
def state_at (calls : List FcntlCall) (k : Nat) : LockProcess :=
  ⟨calls.drop k, held_after (calls.take k)⟩

/-! ## Loans (`bank_storage.h`, `server_logic.c`)

`loans.dat` is a list of whole `struct LoanApplication` records, present but
possibly empty; `loan_id.dat` holds one `struct IDCounter` or is absent or
empty. The loan handlers read and write a loan record right after an `lseek`
to the offset they found, so the two calls are modelled together. Their
prompts and their record locks are left out; `responses` lists the replies
that are not prompts, in the order they are sent. -/

/-- A record of `loans.dat` (`struct LoanApplication`). -/
structure LoanApplication where
  loan_id : Int
  customer_account_id : Int
  amount : Double
  status : Int
  assigned_to_employee_id : Int
  deriving DecidableEq

/-- All files of the bank: the account file and the log, `loans.dat`, and
the value stored in `loan_id.dat` (`none` when the file is absent or empty). -/
structure Bank where
  db : Database
  loans : List LoanApplication
  loan_counter : Option Int
  deriving DecidableEq

/-- What a loan handler leaves behind: the files and its replies. -/
structure LoanOutcome where
  bank : Bank
  responses : List Response
  deriving DecidableEq

/-- The value of `sizeof(struct LoanApplication)`: 4 + 4 + 8 + 4 + 4 bytes. -/
def sizeof_LoanApplication : Int := 24

/-- A 32-bit `int` after an arithmetic operation: the result wraps around. -/
def int_wrap (n : Int) : Int := (n + 2147483648) % 4294967296 - 2147483648

/-- The loop of `find_loan_record_offset` (`utils.c:162-169`) over the records
still to be read, `current_pos` being the offset of the first of them. -/
def scan_loans (loan_id : Int) : List LoanApplication → Int → Int
  | [], _ => -1
  | temp_loan :: rest, current_pos =>
      if temp_loan.loan_id = loan_id then current_pos
      else scan_loans loan_id rest (current_pos + sizeof_LoanApplication)

/-- The function `find_loan_record_offset` (`utils.c:158`). -/
def find_loan_record_offset (loans : List LoanApplication) (loan_id : Int) : Int :=
  scan_loans loan_id loans 0

/-- The calls `lseek(loan_fd, offset, SEEK_SET); read(loan_fd, &loan, sizeof(loan))`:
`buf` is what the variable held before. -/
def read_loan_at (loans : List LoanApplication) (offset : Int) (buf : LoanApplication) :
    LoanApplication :=
  match loans[(offset / sizeof_LoanApplication).toNat]? with
  | some r => r
  | none => buf

/-- The calls `lseek(loan_fd, offset, SEEK_SET); write(loan_fd, &loan, sizeof(loan))`. -/
def write_loan_at (loans : List LoanApplication) (offset : Int) (rec : LoanApplication) :
    List LoanApplication :=
  if (offset / sizeof_LoanApplication).toNat < loans.length then
    loans.set (offset / sizeof_LoanApplication).toNat rec
  else loans ++ [rec]

/-- The function `handle_loan_request` (`server_logic.c:328`). -/
def handle_loan_request (bank : Bank) (account_id : Int) (amount_line : Option Double) :
    LoanOutcome :=
  match amount_line with
  | none => ⟨bank, []⟩
  | some amount =>
    if amount ≤ 0 then ⟨bank, [⟨"ERROR", "Invalid loan amount."⟩]⟩
    else
      let next_loan_id : Int :=
        match bank.loan_counter with
        | some n => n
        | none => 1
      let loan : LoanApplication := ⟨next_loan_id, account_id, amount, 0, -1⟩
      ⟨{ bank with loans := bank.loans ++ [loan],
                   loan_counter := some (int_wrap (next_loan_id + 1)) },
       [⟨"SUCCESS",
         "Loan request #" ++ toString next_loan_id ++ " for " ++ format_2f amount ++
           " submitted."⟩]⟩

/-- The list of unassigned loans that `handle_assign_loan` builds in
`g_write_buffer` (`server_logic.c:896-906`), `buffer` being its content so
far. The protocol's line break is the two characters backslash and n. -/
def loan_listing_from (buffer : String) : List LoanApplication → String
  | [] => buffer
  | loan :: rest =>
      if loan.status = 0 then
        let line := ("-> Loan #" ++ toString loan.loan_id ++ " | Acct: " ++
          toString loan.customer_account_id ++ " | Amount: " ++ format_2f loan.amount ++
          "\\n").take 99
        loan_listing_from
          (if buffer.length + line.length < 1024 - 50 then buffer ++ line else buffer) rest
      else loan_listing_from buffer rest

/-- The function `handle_assign_loan` (`server_logic.c:883`). `loan₀` is what
the local `loan` holds after the listing loop. -/
def handle_assign_loan (bank : Bank) (loan_id_line employee_id_line : Option Int)
    (loan₀ : LoanApplication) : LoanOutcome :=
  if bank.loans.all (fun loan => decide (loan.status ≠ 0)) then
    ⟨bank, [⟨"SUCCESS", "No unassigned loans found."⟩]⟩
  else
    let listing : Response :=
      ⟨"SUCCESS", loan_listing_from "Unassigned Loan Requests (Status 0):\\n" bank.loans⟩
    match loan_id_line with
    | none => ⟨bank, [listing]⟩
    | some loan_id =>
      match employee_id_line with
      | none => ⟨bank, [listing]⟩
      | some employee_id =>
        let offset := find_loan_record_offset bank.loans loan_id
        if offset = -1 then ⟨bank, [listing, ⟨"ERROR", "Loan ID not found."⟩]⟩
        else
          let loan := read_loan_at bank.loans offset loan₀
          if loan.status ≠ 0 then
            ⟨bank, [listing, ⟨"ERROR", "Loan was already assigned or processed."⟩]⟩
          else
            ⟨{ bank with
                loans := write_loan_at bank.loans offset
                  { loan with status := 1, assigned_to_employee_id := employee_id } },
             [listing,
              ⟨"SUCCESS",
               "Loan #" ++ toString loan_id ++ " assigned to Employee #" ++
                 toString employee_id ++ "."⟩]⟩

/-- The function `handle_process_loan` (`server_logic.c:611`). `loan_id_line`
and `choice_line` are the two lines read, `now` the time of the log entry,
`loan₀` and `account₀` the initial contents of the locals. -/
def handle_process_loan (bank : Bank) (employee_id : Int)
    (loan_id_line choice_line : Option Int) (now : String) (loan₀ : LoanApplication)
    (account₀ : CustomerAccount) : LoanOutcome :=
  match loan_id_line with
  | none => ⟨bank, []⟩
  | some loan_id =>
    let offset_loan := find_loan_record_offset bank.loans loan_id
    if offset_loan = -1 then ⟨bank, [⟨"ERROR", "Loan ID not found."⟩]⟩
    else
      let loan_first := read_loan_at bank.loans offset_loan loan₀
      if loan_first.assigned_to_employee_id ≠ employee_id then
        ⟨bank, [⟨"ERROR", "This loan is not assigned to you."⟩]⟩
      else if loan_first.status ≠ 1 then
        ⟨bank, [⟨"ERROR", "This loan is not pending processing."⟩]⟩
      else
        let found_acct :=
          find_customer_record_offset ⟨bank.db.accounts, 0⟩ loan_first.customer_account_id
        let offset_acct := found_acct.1
        if offset_acct = -1 then
          ⟨bank, [⟨"ERROR", "CRITICAL: Customer account for this loan not found."⟩]⟩
        else
          let loan := read_loan_at bank.loans offset_loan loan_first
          let rd := read_account (lseek_set found_acct.2 offset_acct) account₀
          if loan.status ≠ 1 then
            ⟨bank, [⟨"ERROR", "Loan status changed before processing. Aborting."⟩]⟩
          else
            match choice_line with
            | none => ⟨bank, []⟩
            | some choice =>
              if choice = 1 then
                let account := { rd.1 with balance := rd.1.balance + loan.amount }
                let fd := write_account (lseek_set rd.2 offset_acct) account
                ⟨{ bank with
                    db := ⟨fd.records,
                      log_transaction bank.db.transactions account.account_id "LOAN_APPROVED"
                        loan.amount account.balance now⟩,
                    loans := write_loan_at bank.loans offset_loan { loan with status := 2 } },
                 [⟨"SUCCESS", "Loan Approved."⟩]⟩
              else if choice = 2 then
                ⟨{ bank with
                    loans := write_loan_at bank.loans offset_loan { loan with status := 3 } },
                 [⟨"SUCCESS", "Loan Rejected."⟩]⟩
              else ⟨bank, [⟨"ERROR", "Invalid choice. No action taken."⟩]⟩

/-- One call of a loan operation with everything it reads from its
environment. -/
inductive LoanCall where
  | create (account_id : Int) (amount_line : Option Double)
  | assign (loan_id_line employee_id_line : Option Int) (loan₀ : LoanApplication)
  | process (employee_id : Int) (loan_id_line choice_line : Option Int) (now : String)
      (loan₀ : LoanApplication) (account₀ : CustomerAccount)

/-- The files after one loan call. -/
def LoanCall.apply (bank : Bank) : LoanCall → Bank
  | .create account_id amount_line => (handle_loan_request bank account_id amount_line).bank
  | .assign loan_id_line employee_id_line loan₀ =>
      (handle_assign_loan bank loan_id_line employee_id_line loan₀).bank
  | .process employee_id loan_id_line choice_line now loan₀ account₀ =>
      (handle_process_loan bank employee_id loan_id_line choice_line now loan₀ account₀).bank

/-- The files after running the loan calls one after the other. -/
def run_loan_calls (bank : Bank) : List LoanCall → Bank
  | [] => bank
  | call :: calls => run_loan_calls (call.apply bank) calls

/-- Whether the call is a loan creation. -/
def LoanCall.is_create : LoanCall → Bool
  | .create _ _ => true
  | _ => false

/-- Whether the call is an assignment given the staff id `-1`. -/
def LoanCall.assigns_absent : LoanCall → Bool
  | .assign _ (some employee_id) _ => decide (employee_id = -1)
  | _ => false

/-- The record `r` is the first record of `loans` whose id is `loan_id`, and it
is the record number `k`. -/
def loan_located_at (loans : List LoanApplication) (loan_id : Int) (k : Nat)
    (r : LoanApplication) : Prop :=
  loans[k]? = some r ∧ r.loan_id = loan_id ∧ ∀ x ∈ loans.take k, x.loan_id ≠ loan_id

instance loan_located_at_decidable (loans : List LoanApplication) (loan_id : Int) (k : Nat)
    (r : LoanApplication) : Decidable (loan_located_at loans loan_id k r) := by
  unfold loan_located_at; infer_instance

/-- The bank with the two accounts of the scenario, no loan and no counter. -/
def fresh_bank : Bank := ⟨scenario_db, [], none⟩

/-- The bank after account 100 asked for a loan of 500.00 and account 200 for
one of 20.00. -/
def two_loans_bank : Bank :=
  ⟨scenario_db, [⟨1, 100, 500, 0, -1⟩, ⟨2, 200, 20, 0, -1⟩], some 3⟩

/-- The bank in which loan 2 has been assigned to employee 7. -/
def assigned_bank : Bank :=
  ⟨scenario_db, [⟨1, 100, 500, 0, -1⟩, ⟨2, 200, 20, 1, 7⟩], some 3⟩

/-- Some contents for an uninitialised `struct LoanApplication`. -/
def loan_junk : LoanApplication := ⟨0, 0, 0, 9, 9⟩

/-- The bank whose account 200 has the balance 1e16 and whose loan 1, of 1.00
for account 200, is assigned to employee 7. -/
def rounding_bank : Bank := ⟨rounding_db, [⟨1, 200, 1, 1, 7⟩], some 2⟩

/-- Whether the call is an assignment. -/
def LoanCall.is_assign : LoanCall → Bool
  | .assign _ _ _ => true
  | _ => false

/-- Whether the call is the processing of a loan. -/
def LoanCall.is_process : LoanCall → Bool
  | .process _ _ _ _ _ _ => true
  | _ => false

/-- The changes of one loan record that the workflow allows in one call:
none, Requested to Assigned by an assignment, or Assigned to Approved or
Rejected by processing, no other field changing but the assignee on
assignment. -/
def loan_step_allowed (call : LoanCall) (l l' : LoanApplication) : Prop :=
  l' = l ∨
  (call.is_assign = true ∧ l.status = 0 ∧
    ∃ e, l' = { l with status := 1, assigned_to_employee_id := e }) ∨
  (call.is_process = true ∧ l.status = 1 ∧
    (l' = { l with status := 2 } ∨ l' = { l with status := 3 }))

/-! ## Session locks (`utils.c`, `server_logic.c`)

The named POSIX semaphores are modelled by the values of all semaphores ever
created and the table of names. A semaphore lives on after `sem_unlink`
while a process has it open, but `sem_open` no longer finds it; `sem_close`
does not change a value, it ends the use of the handle in the process that
calls it. `sem_open` is taken to succeed. -/

/-- The named semaphores of the machine. -/
structure Semaphores where
  values : List Nat
  names : List (String × Nat)
  deriving DecidableEq

/-- The call `sem_open(name, O_CREAT, 0644, 1)`: the semaphore of that name,
created with value 1 when there is none. -/
def sem_open (sems : Semaphores) (name : String) : Nat × Semaphores :=
  match sems.names.lookup name with
  | some sem => (sem, sems)
  | none =>
      (sems.values.length,
       ⟨sems.values ++ [1], (name, sems.values.length) :: sems.names⟩)

/-- The call `sem_trywait(sem)`: `true` when the value was positive and has
been decremented, `false` for `EAGAIN`. -/
def sem_trywait (sems : Semaphores) (sem : Nat) : Bool × Semaphores :=
  match sems.values[sem]? with
  | some (value + 1) => (true, { sems with values := sems.values.set sem value })
  | _ => (false, sems)

/-- The call `sem_post(sem)`. -/
def sem_post (sems : Semaphores) (sem : Nat) : Semaphores :=
  match sems.values[sem]? with
  | some value => { sems with values := sems.values.set sem (value + 1) }
  | none => sems

/-- The call `sem_close(sem)` in a process with the open handles `handles`. -/
def sem_close (handles : List Nat) (sem : Nat) : List Nat := handles.erase sem

/-- The call `sem_unlink(name)`. -/
def sem_unlink (sems : Semaphores) (name : String) : Semaphores :=
  { sems with names := sems.names.filter (fun entry => entry.1 ≠ name) }

/-- The name `snprintf` builds from `"/bms_sem_%d"`. -/
def session_sem_name (session_id : Int) : String := "/bms_sem_" ++ toString session_id

/-- The static variables `g_session_id` and `g_session_sem` of a process
(`utils.c:54-55`); `none` is `NULL`. -/
structure SessionGlobals where
  g_session_id : Int
  g_session_sem : Option Nat
  deriving DecidableEq

/-- The function `create_session_lock` (`utils.c:60`): the semaphore it
returns, the semaphores and the globals of the process afterwards. -/
def create_session_lock (sems : Semaphores) (session_id : Int) :
    Nat × Semaphores × SessionGlobals :=
  let opened := sem_open sems (session_sem_name session_id)
  (opened.1, opened.2, ⟨session_id, some opened.1⟩)

/-- The function `release_session_lock` (`utils.c:95`). -/
def release_session_lock (sems : Semaphores) (globals : SessionGlobals) (session_id : Int)
    (session_sem : Option Nat) : Semaphores × SessionGlobals :=
  match session_sem with
  | none => (sems, globals)
  | some sem =>
      if session_id = -1 then (sems, globals)
      else (sem_unlink (sem_post sems sem) (session_sem_name session_id), ⟨-1, none⟩)

/-- How one pass through the login loop of `handle_customer_session`
(`server_logic.c:37-73`; the staff and manager sessions have the same loop)
ends. -/
inductive LoginResult where
  | skipped
  | already_logged_in
  | invalid_credentials
  | logged_in (session_sem : Nat)
  deriving DecidableEq

/-- The first half of a pass through the login loop (`server_logic.c:46-61`):
`create_session_lock`, then `sem_trywait`, and `sem_close` on `EAGAIN`.
Returns whether the lock was taken and the semaphore. -/
def try_acquire (sems : Semaphores) (session_id : Int) :
    Bool × Nat × Semaphores × SessionGlobals :=
  let created := create_session_lock sems session_id
  let tried := sem_trywait created.2.1 created.1
  (tried.1, created.1, tried.2, created.2.2)

/-- One pass through the login loop run without interruption, for an id and
the outcome `login_ok` of `login_customer` or `login_staff`. -/
def login_attempt (sems : Semaphores) (globals : SessionGlobals) (session_id : Int)
    (login_ok : Bool) : LoginResult × Semaphores × SessionGlobals :=
  if session_id ≤ 0 then (.skipped, sems, globals)
  else
    let acquired := try_acquire sems session_id
    if acquired.1 = false then (.already_logged_in, acquired.2.2.1, acquired.2.2.2)
    else if login_ok then (.logged_in acquired.2.1, acquired.2.2.1, acquired.2.2.2)
    else
      let released :=
        release_session_lock acquired.2.2.1 acquired.2.2.2 session_id (some acquired.2.1)
      (.invalid_credentials, released.1, released.2)

/-! ### Processes logging in concurrently -/

/-- Where a connection-handling process stands in the login protocol. -/
inductive SessionPc where
  | idle
  | opened (session_id : Int) (session_sem : Nat) (login_ok : Bool)
  | acquired (session_id : Int) (session_sem : Nat) (login_ok : Bool)
  | active (session_id : Int) (session_sem : Nat)
  deriving DecidableEq

/-- A connection-handling process: where it stands, its globals, and the
semaphores it has open, from `sem_open` to `sem_close`. -/
structure SessionProcess where
  pc : SessionPc
  globals : SessionGlobals
  handles : List Nat
  deriving DecidableEq

/-- The semaphores and the processes of the server. -/
structure SessionSystem where
  sems : Semaphores
  procs : List SessionProcess
  deriving DecidableEq

/-- What happens next in the system: an idle process `p` reads an id and a
password (which `login_ok` says to be right or wrong) and calls
`create_session_lock`, or process `p` makes the next move of its protocol. -/
inductive SessionEvent where
  | start (p : Nat) (session_id : Int) (login_ok : Bool)
  | advance (p : Nat)
  deriving DecidableEq

/-- The next move of a process that is past `create_session_lock`:
`sem_trywait` (and `sem_close` on `EAGAIN`), then the credential check (and
`release_session_lock` when it fails), then, from an active session, logout
with `release_session_lock`. -/
def SessionProcess.advance (sems : Semaphores) (proc : SessionProcess) :
    Semaphores × SessionProcess :=
  match proc.pc with
  | .idle => (sems, proc)
  | .opened session_id session_sem login_ok =>
      if (sem_trywait sems session_sem).1 then
        ((sem_trywait sems session_sem).2,
         { proc with pc := .acquired session_id session_sem login_ok })
      else (sems, { proc with pc := .idle, handles := sem_close proc.handles session_sem })
  | .acquired session_id session_sem login_ok =>
      if login_ok then (sems, { proc with pc := .active session_id session_sem })
      else
        ((release_session_lock sems proc.globals session_id (some session_sem)).1,
         ⟨.idle, (release_session_lock sems proc.globals session_id (some session_sem)).2,
          sem_close proc.handles session_sem⟩)
  | .active session_id session_sem =>
      ((release_session_lock sems proc.globals session_id (some session_sem)).1,
       ⟨.idle, (release_session_lock sems proc.globals session_id (some session_sem)).2,
        sem_close proc.handles session_sem⟩)

/-- One event of the system; an event that cannot happen leaves the system
as it is. -/
def SessionSystem.step (s : SessionSystem) : SessionEvent → SessionSystem
  | .start p session_id login_ok =>
      match s.procs[p]? with
      | some proc =>
          if proc.pc = .idle ∧ 0 < session_id then
            ⟨(create_session_lock s.sems session_id).2.1,
             s.procs.set p
               ⟨.opened session_id (create_session_lock s.sems session_id).1 login_ok,
                (create_session_lock s.sems session_id).2.2,
                (create_session_lock s.sems session_id).1 :: proc.handles⟩⟩
          else s
      | none => s
  | .advance p =>
      match s.procs[p]? with
      | some proc => ⟨(proc.advance s.sems).1, s.procs.set p (proc.advance s.sems).2⟩
      | none => s

/-- The system after the events, in order. -/
def SessionSystem.run (s : SessionSystem) : List SessionEvent → SessionSystem
  | [] => s
  | event :: events => SessionSystem.run (s.step event) events

/-- The processes that hold an active session for the identity. -/
def SessionSystem.active_sessions (s : SessionSystem) (session_id : Int) : List Nat :=
  (List.range s.procs.length).filter (fun p =>
    match s.procs[p]? with
    | some proc =>
        (match proc.pc with
         | .active id _ => decide (id = session_id)
         | _ => false)
    | none => false)

/-- Three processes in the login loop and no semaphore. -/
def three_idle_processes : SessionSystem :=
  ⟨⟨[], []⟩, [⟨.idle, ⟨-1, none⟩, []⟩, ⟨.idle, ⟨-1, none⟩, []⟩, ⟨.idle, ⟨-1, none⟩, []⟩]⟩

/-- An interleaving of three login attempts for identity 5: process 0 (wrong
password) and process 1 (right password) both open the semaphore; process 0
takes it, fails the credential check and releases, which unlinks the name;
process 1 then takes the semaphore it had opened and logs in; process 2
(right password) opens the name anew, takes the fresh semaphore and logs
in. -/
def double_login_events : List SessionEvent :=
  [.start 0 5 false, .start 1 5 true, .advance 0, .advance 0, .advance 1, .advance 1,
   .start 2 5 true, .advance 2, .advance 2]
/-! ## Concurrent deposits and withdrawals on one account

Each caller is a process inside `handle_deposit` or `handle_withdrawal`,
past the amount check, working on the record of the one account. Its moves
are the calls of the handler in order: `fcntl(F_SETLKW)` on the record (which
waits while another process holds the lock), the `read` into its local
`account`, the update with the `write` (or, for a withdrawal without funds,
the refusal), and the `fcntl` that unlocks. The log is left out. -/

/-- The operation of a caller with its amount. -/
inductive TellerOp where
  | deposit (amount : Double)
  | withdrawal (amount : Double)
  deriving DecidableEq

/-- The amount of the operation. -/
def TellerOp.amount : TellerOp → Double
  | .deposit amount => amount
  | .withdrawal amount => amount

/-- Where a caller stands: before the lock, holding the lock, having read the
record, having written (`ok`) or refused (`¬ ok`), and after the unlock. -/
inductive TellerPc where
  | start
  | locked
  | loaded (account : CustomerAccount)
  | stored (ok : Bool)
  | done (ok : Bool)
  deriving DecidableEq

/-- A caller. -/
structure Teller where
  op : TellerOp
  pc : TellerPc
  deriving DecidableEq

/-- The record of the account in `accounts.dat`, the process that holds its
lock, the callers, and the callers that have passed the update of the record
(the `write`, or the refusal of a withdrawal), in the order in which they
passed it. -/
structure TellerSystem where
  account : CustomerAccount
  holder : Option Nat
  tellers : List Teller
  updates : List Nat
  deriving DecidableEq

/-- The next move of caller `i`, if it has one and does not have to wait:
`fcntl(F_SETLKW)` (`server_logic.c:165`, `:197`), `read` (`:167`, `:199`),
the update with the `write` (`:168-169`, `:201-210`), and the unlocking
`fcntl` (`:170`, `:212`). -/
def TellerSystem.step (s : TellerSystem) (i : Nat) : Option TellerSystem :=
  match s.tellers[i]? with
  | none => none
  | some t =>
    match t.pc with
    | .start =>
        if s.holder = none then
          some { s with holder := some i, tellers := s.tellers.set i { t with pc := .locked } }
        else none
    | .locked => some { s with tellers := s.tellers.set i { t with pc := .loaded s.account } }
    | .loaded account =>
        match t.op with
        | .deposit amount =>
            some { s with
              account := { account with balance := account.balance + amount },
              tellers := s.tellers.set i { t with pc := .stored true },
              updates := s.updates ++ [i] }
        | .withdrawal amount =>
            if account.balance < amount then
              some { s with
                tellers := s.tellers.set i { t with pc := .stored false },
                updates := s.updates ++ [i] }
            else
              some { s with
                account := { account with balance := account.balance - amount },
                tellers := s.tellers.set i { t with pc := .stored true },
                updates := s.updates ++ [i] }
    | .stored ok =>
        some { s with holder := none, tellers := s.tellers.set i { t with pc := .done ok } }
    | .done _ => none

/-- The states the callers reach from `init` by interleaving `n` moves. -/
inductive TellerSystem.ReachableIn (init : TellerSystem) : Nat → TellerSystem → Prop where
  | start : TellerSystem.ReachableIn init 0 init
  | next (n : Nat) (s s' : TellerSystem) (i : Nat) :
      TellerSystem.ReachableIn init n s → s.step i = some s' →
      TellerSystem.ReachableIn init (n + 1) s'

/-- The moves a caller has still to make. -/
def TellerPc.remaining : TellerPc → Nat
  | .start => 4
  | .locked => 3
  | .loaded _ => 2
  | .stored _ => 1
  | .done _ => 0

/-- The moves the callers have still to make. -/
def TellerSystem.remaining (s : TellerSystem) : Nat :=
  (s.tellers.map (fun t => t.pc.remaining)).sum

/-- Whether the caller is between its lock and its unlock. -/
def TellerPc.in_critical : TellerPc → Bool
  | .locked => true
  | .loaded _ => true
  | .stored _ => true
  | _ => false

/-- Whether the caller has passed the update of the record. -/
def TellerPc.updated : TellerPc → Bool
  | .stored _ => true
  | .done _ => true
  | _ => false

/-- The callers with the given operations, none of which has started, on an
unlocked record. -/
def TellerSystem.initial (account : CustomerAccount) (ops : List TellerOp) : TellerSystem :=
  ⟨account, none, ops.map (fun op => ⟨op, .start⟩), []⟩

/-- The system after the moves of the callers named in `schedule`, in order;
a caller that cannot move is passed over. -/
def TellerSystem.run (s : TellerSystem) : List Nat → TellerSystem
  | [] => s
  | i :: schedule =>
      match s.step i with
      | some s' => TellerSystem.run s' schedule
      | none => TellerSystem.run s schedule

/-- The number of moves made in `TellerSystem.run`. -/
def TellerSystem.moves (s : TellerSystem) : List Nat → Nat
  | [] => 0
  | i :: schedule =>
      match s.step i with
      | some s' => TellerSystem.moves s' schedule + 1
      | none => TellerSystem.moves s schedule

/-- The handler of a caller's operation, called for `account_id` with the
amount typed at its prompt. -/
def TellerOp.handler (op : TellerOp) (db : Database) (account_id : Int) (now : String)
    (account₀ : CustomerAccount) : Outcome :=
  match op with
  | .deposit amount => handle_deposit db account_id (some amount) now account₀
  | .withdrawal amount => handle_withdrawal db account_id (some amount) now account₀

/-- The database after the handlers of `ops` have run for `account_id` one
after the other, each from start to return. -/
def run_handlers (db : Database) (account_id : Int) (now : String) (account₀ : CustomerAccount) :
    List TellerOp → Database
  | [] => db
  | op :: ops => run_handlers (op.handler db account_id now account₀).db account_id now account₀ ops

/-- The record that a caller leaves in the file when it has read `account`
under the lock. -/
def TellerOp.result (op : TellerOp) (account : CustomerAccount) : CustomerAccount :=
  match op with
  | .deposit amount => { account with balance := account.balance + amount }
  | .withdrawal amount =>
      if account.balance < amount then account
      else { account with balance := account.balance - amount }

/-- The account with the balance 2^53 = 9007199254740992, above which the
doubles are the even numbers. -/
def account_2_53 : CustomerAccount := ⟨100, "Asha", "1234", 9007199254740992, 1⟩

/-- What holds in every state the callers can reach from
`TellerSystem.initial account₀ ops`. -/
structure TellerInv (account₀ : CustomerAccount) (ops : List TellerOp) (s : TellerSystem) :
    Prop where
  ops_eq : s.tellers.map (fun t => t.op) = ops
  account_eq : s.account
    = (s.updates.filterMap (fun i => ops[i]?)).foldl (fun account op => op.result account) account₀
  holder_of_critical : ∀ (i : Nat) (t : Teller), s.tellers[i]? = some t → t.pc.in_critical = true →
    s.holder = some i
  critical_of_holder : ∀ (i : Nat), s.holder = some i →
    ∃ t : Teller, s.tellers[i]? = some t ∧ t.pc.in_critical = true
  loaded_current : ∀ (i : Nat) (t : Teller) (account : CustomerAccount),
    s.tellers[i]? = some t → t.pc = .loaded account →
    account = s.account
  updates_nodup : s.updates.Nodup
  mem_updates : ∀ i : Nat, i ∈ s.updates ↔ ∃ t : Teller, s.tellers[i]? = some t ∧ t.pc.updated = true

/-! ## Staff records (`bank_storage.h`, `utils.c`)

`staff.dat` is a list of whole `struct EmployeeRecord` records. -/

/-- A record of `staff.dat` (`struct EmployeeRecord`). -/
structure EmployeeRecord where
  employee_id : Int
  first_name : String
  last_name : String
  login_pass : String
  role : Int
  deriving DecidableEq

/-- The value of `sizeof(struct EmployeeRecord)`: 4 + 25 + 25 + 20 bytes,
padded to 76 for the `int`, then 4. -/
def sizeof_EmployeeRecord : Int := 80

/-- The loop of `find_staff_record_offset` (`utils.c:145-152`) over the
records still to be read, `current_pos` being the offset of the first of
them. -/
def scan_staff (employee_id : Int) : List EmployeeRecord → Int → Int
  | [], _ => -1
  | temp_staff :: rest, current_pos =>
      if temp_staff.employee_id = employee_id then current_pos
      else scan_staff employee_id rest (current_pos + sizeof_EmployeeRecord)

/-- The function `find_staff_record_offset` (`utils.c:141`). -/
def find_staff_record_offset (staff : List EmployeeRecord) (employee_id : Int) : Int :=
  scan_staff employee_id staff 0

/-- The record `r` is the first record of `staff` with the id, at index `k`. -/
def staff_located_at (staff : List EmployeeRecord) (employee_id : Int) (k : Nat)
    (r : EmployeeRecord) : Prop :=
  staff[k]? = some r ∧ r.employee_id = employee_id ∧
    ∀ x ∈ staff.take k, x.employee_id ≠ employee_id

instance staff_located_at_decidable (staff : List EmployeeRecord) (employee_id : Int) (k : Nat)
    (r : EmployeeRecord) : Decidable (staff_located_at staff employee_id k r) := by
  unfold staff_located_at; infer_instance

/-- The function `login_customer` (`server_logic.c:122`) on `accounts.dat`
that may be absent (`none`): the result and the file afterwards. When `open`
fails with `ENOENT` the file is created empty and the login fails. -/
def login_customer_file (file : Option (List CustomerAccount)) (account_id : Int)
    (pin : String) (account₀ : CustomerAccount) : Bool × Option (List CustomerAccount) :=
  match file with
  | none => (false, some [])
  | some accounts => (login_customer accounts account_id pin account₀, some accounts)

/-! ## Creating a customer account (`server_logic.c:560`)

The four lines of the dialogue come parsed, as for the ledger operations: the
id through `atoi`, the balance through `atof`, and the name and the PIN as
the text of the line. -/

/-- The call `strncpy(field, src, n)` into a field of an uninitialised record,
read back as a C string: a source shorter than `n` is copied whole (and the
field padded with NUL); of a longer one `n` bytes are copied and no NUL is
written, so that what the field held after them, `tail`, follows. A character
stands for a byte. -/
def strncpy_unterminated (src : String) (n : Nat) (tail : String) : String :=
  if src.length < n then src else ⟨src.data.take n⟩ ++ tail

/-- The loop that looks for the new id in `accounts.dat`
(`server_logic.c:590-595`): the value of `duplicate`. -/
def duplicate_scan (account_id : Int) : List CustomerAccount → Bool
  | [] => false
  | temp_account :: rest =>
      if temp_account.account_id = account_id then true
      else duplicate_scan account_id rest

/-- The function `handle_create_customer` (`server_logic.c:560`): the files
afterwards and the reply. `name_tail` and `pin_tail` are what the
uninitialised `new_account` held in the two text fields (see
`strncpy_unterminated`); the lock on the whole file is left out. -/
def handle_create_customer (db : Database) (id_line : Option Int)
    (name_line pin_line : Option String) (balance_line : Option Double) (now : String)
    (name_tail pin_tail : String) : Database × Option Response :=
  match id_line with
  | none => (db, none)
  | some account_id =>
    match name_line with
    | none => (db, none)
    | some name =>
      match pin_line with
      | none => (db, none)
      | some pin =>
        match balance_line with
        | none => (db, none)
        | some opening =>
          let balance : Double := if opening < 0 then 0 else opening
          let new_account : CustomerAccount :=
            ⟨account_id, strncpy_unterminated name 49 name_tail,
             strncpy_unterminated pin 19 pin_tail, balance, 1⟩
          if duplicate_scan account_id db.accounts then
            (db, some ⟨"ERROR", "Account ID already exists."⟩)
          else
            (⟨db.accounts ++ [new_account],
              log_transaction db.transactions account_id "OPENING_BALANCE" balance balance now⟩,
             some ⟨"SUCCESS", "Customer account created successfully."⟩)

/-! ## Reading a line and changing a secret (`utils.c:33`, `server_logic.c:239`, `:1292`)

For these two handlers the socket is modelled itself: `socket` is the list of
bytes the client has sent and sends, after which `read` returns 0. A character
stands for a byte. -/

/-- The loop of `read_line` (`utils.c:38-47`): `buffer` holds the
`total_bytes` bytes stored so far. The result is the value returned, the
bytes in the buffer and the bytes left on the socket. -/
def read_line_loop (max_len : Nat) (buffer : List Char) :
    List Char → Int × List Char × List Char
  | [] =>
      if buffer.length < max_len - 1 then (0, buffer, [])
      else (buffer.length, buffer, [])
  | ch :: rest =>
      if buffer.length < max_len - 1 then
        if ch = '\n' then (buffer.length, buffer, rest)
        else read_line_loop max_len (buffer ++ [ch]) rest
      else (buffer.length, buffer, ch :: rest)

/-- The function `read_line` (`utils.c:33`). -/
def read_line (socket : List Char) (max_len : Nat) : Int × List Char × List Char :=
  read_line_loop max_len [] socket

/-- The C string in a buffer: the bytes before the first NUL. -/
def c_string (buffer : List Char) : List Char := buffer.takeWhile (fun ch => ch ≠ Char.ofNat 0)

/-- What `handle_customer_password_change` and `handle_staff_password_change`
leave behind: the records of the file, the reply, whether the file was
opened, and the bytes left on the socket. The record lock is left out. -/
structure SecretChange (Record : Type) where
  records : List Record
  response : Option Response
  opened : Bool
  socket : List Char

/-- The function `handle_customer_password_change` (`server_logic.c:239`).
`account₀` is the initial content of the local `account`. -/
def handle_customer_password_change (accounts : List CustomerAccount) (account_id : Int)
    (socket : List Char) (account₀ : CustomerAccount) : SecretChange CustomerAccount :=
  let line := read_line socket 50
  let new_pin := c_string line.2.1
  if line.1 ≤ 0 then ⟨accounts, none, false, line.2.2⟩
  else if new_pin.length = 0 then
    ⟨accounts, some ⟨"ERROR", "PIN cannot be empty."⟩, false, line.2.2⟩
  else
    let found := find_customer_record_offset ⟨accounts, 0⟩ account_id
    let offset := found.1
    if offset = -1 then ⟨accounts, some ⟨"ERROR", "Account not found."⟩, true, line.2.2⟩
    else
      let rd := read_account (lseek_set found.2 offset) account₀
      let account := { rd.1 with access_pin := ⟨new_pin.take 19⟩ }
      let wr := write_account (lseek_set rd.2 offset) account
      ⟨wr.records, some ⟨"SUCCESS", "PIN changed successfully. You will be logged out."⟩, true,
       line.2.2⟩

/-- The calls `lseek(db_fd, offset, SEEK_SET); read(db_fd, &staff, sizeof(staff))`:
`buf` is what the variable held before. -/
def read_staff_at (staff : List EmployeeRecord) (offset : Int) (buf : EmployeeRecord) :
    EmployeeRecord :=
  match staff[(offset / sizeof_EmployeeRecord).toNat]? with
  | some r => r
  | none => buf

/-- The calls `lseek(db_fd, offset, SEEK_SET); write(db_fd, &staff, sizeof(staff))`. -/
def write_staff_at (staff : List EmployeeRecord) (offset : Int) (rec : EmployeeRecord) :
    List EmployeeRecord :=
  if (offset / sizeof_EmployeeRecord).toNat < staff.length then
    staff.set (offset / sizeof_EmployeeRecord).toNat rec
  else staff ++ [rec]

/-- The function `handle_staff_password_change` (`server_logic.c:1292`).
`staff₀` is the initial content of the local `staff`. -/
def handle_staff_password_change (staff : List EmployeeRecord) (employee_id : Int)
    (socket : List Char) (staff₀ : EmployeeRecord) : SecretChange EmployeeRecord :=
  let line := read_line socket 50
  let new_pass := c_string line.2.1
  if line.1 ≤ 0 then ⟨staff, none, false, line.2.2⟩
  else if new_pass.length = 0 then
    ⟨staff, some ⟨"ERROR", "Password cannot be empty."⟩, false, line.2.2⟩
  else
    let offset := find_staff_record_offset staff employee_id
    if offset = -1 then ⟨staff, some ⟨"ERROR", "Employee not found."⟩, true, line.2.2⟩
    else
      let record := read_staff_at staff offset staff₀
      ⟨write_staff_at staff offset { record with login_pass := ⟨new_pass.take 19⟩ },
       some ⟨"SUCCESS", "Password changed. You will be logged out."⟩, true, line.2.2⟩

/-! ## Recent transactions (`server_logic.c:370`)

`log_count` is an `int`: it wraps around at `2^31` matching entries, where
the index `log_count % MAX_LOGS`, the remainder of C, would be negative;
this is outside what the array allows and slot 0 stands for it. The array
`user_logs` is uninitialised, its initial contents are an explicit argument. -/

/-- The statements `user_logs[log_count % MAX_LOGS] = log_entry; log_count++;`
(`server_logic.c:388-389`) on the pair of `user_logs` and `log_count`. -/
def ring_insert (state : List Transaction × Int) (log_entry : Transaction) :
    List Transaction × Int :=
  (state.1.set (Int.tmod state.2 10).toNat log_entry, int_wrap (state.2 + 1))

/-- The loop that reads `transactions.dat` (`server_logic.c:386-391`) over the
entries still to be read. -/
def scan_log (account_id : Int) :
    List Transaction → List Transaction × Int → List Transaction × Int
  | [], state => state
  | log_entry :: rest, state =>
      if log_entry.account_id = account_id then
        scan_log account_id rest (ring_insert state log_entry)
      else scan_log account_id rest state

/-- The entries the print loop (`server_logic.c:401-405`) goes through, in
order: `user_logs[(start + i) % MAX_LOGS]` for `i < num_to_print`. -/
def entries_to_print (user_logs : List Transaction) (log_count : Int) : List Transaction :=
  let start : Int := if log_count < 10 then 0 else Int.tmod log_count 10
  let num_to_print : Int := if log_count < 10 then log_count else 10
  (List.range num_to_print.toNat).filterMap
    (fun (i : Nat) => user_logs[(Int.tmod (start + (i : Int)) 10).toNat]?)

/-- The text `snprintf` puts into `line[200]` for an entry
(`server_logic.c:407`). -/
def format_log_line (entry : Transaction) : String :=
  ⟨("[" ++ entry.timestamp ++ "] " ++ entry.description ++ " | Balance: " ++
      format_2f entry.resulting_balance ++ "\\n").data.take 199⟩

/-- The body of the print loop (`server_logic.c:409-413`): a line is appended
while it fits into the 1024 bytes of `g_write_buffer`; the first that does not
ends the loop. -/
def append_log_lines (buffer : String) : List Transaction → String
  | [] => buffer
  | entry :: rest =>
      if buffer.length + (format_log_line entry).length < 1023 then
        append_log_lines (buffer ++ format_log_line entry) rest
      else buffer

/-- The function `handle_view_transactions` (`server_logic.c:370`): its
reply. A log file that does not exist is the empty log. -/
def handle_view_transactions (log : List Transaction) (account_id : Int)
    (user_logs₀ : List Transaction) : Response :=
  let scanned := scan_log account_id log (user_logs₀, 0)
  if scanned.2 = 0 then ⟨"SUCCESS", "No transactions found."⟩
  else
    ⟨"SUCCESS",
     append_log_lines "Last Transactions:\\n" (entries_to_print scanned.1 scanned.2)⟩

/-- Some contents for an uninitialised `struct Transaction`. -/
def log_junk : Transaction := ⟨-3, "", "", 0⟩

/-- A log with fifteen entries of account 100, numbered by their balance, and
two entries of account 200 among them. -/
def fifteen_entries_log : List Transaction :=
  [⟨100, "t1", "DEPOSIT: +1.00", 1⟩, ⟨100, "t2", "DEPOSIT: +1.00", 2⟩,
   ⟨100, "t3", "DEPOSIT: +1.00", 3⟩, ⟨200, "u3", "DEPOSIT: +5.00", 15⟩,
   ⟨100, "t4", "DEPOSIT: +1.00", 4⟩, ⟨100, "t5", "DEPOSIT: +1.00", 5⟩,
   ⟨100, "t6", "DEPOSIT: +1.00", 6⟩, ⟨100, "t7", "DEPOSIT: +1.00", 7⟩,
   ⟨100, "t8", "DEPOSIT: +1.00", 8⟩, ⟨100, "t9", "DEPOSIT: +1.00", 9⟩,
   ⟨100, "t10", "DEPOSIT: +1.00", 10⟩, ⟨100, "t11", "DEPOSIT: +1.00", 11⟩,
   ⟨100, "t12", "DEPOSIT: +1.00", 12⟩, ⟨200, "u12", "DEPOSIT: +5.00", 60⟩,
   ⟨100, "t13", "DEPOSIT: +1.00", 13⟩, ⟨100, "t14", "DEPOSIT: +1.00", 14⟩,
   ⟨100, "t15", "DEPOSIT: +1.00", 15⟩]

/-! ### The login loops of the three roles -/

/-- The session a process runs: `handle_customer_session`,
`handle_staff_session` or `handle_manager_session`. -/
inductive SessionRole where
  | customer
  | employee
  | manager
  deriving DecidableEq

/-- The message a role's login loop sends when `sem_trywait` fails with
`EAGAIN` (`server_logic.c:54`, `:468`, `:770`). -/
def already_logged_in_message : SessionRole → String
  | .customer => "This account is already logged in elsewhere."
  | .employee => "This ID is already logged in elsewhere."
  | .manager => "This ID is already logged in elsewhere."

/-- The reply at the end of one pass through a role's login loop. -/
def login_reply (role : SessionRole) : LoginResult → Option Response
  | .skipped => none
  | .already_logged_in => some ⟨"ERROR", already_logged_in_message role⟩
  | .invalid_credentials =>
      some ⟨"ERROR",
        match role with
        | .customer => "Invalid ID, PIN, or inactive account."
        | .employee => "Invalid ID, password, or role."
        | .manager => "Invalid ID, password, or role."⟩
  | .logged_in _ => some ⟨"SUCCESS", "Login successful."⟩

/-- One pass through the login loop of a role's session, run without
interruption: the three loops differ in their messages and in the credential
check, whose outcome is `login_ok`. -/
def session_login_pass (role : SessionRole) (sems : Semaphores) (globals : SessionGlobals)
    (session_id : Int) (login_ok : Bool) :
    Option Response × LoginResult × Semaphores × SessionGlobals :=
  (login_reply role (login_attempt sems globals session_id login_ok).1,
   login_attempt sems globals session_id login_ok)

/-- The number a list of decimal digits writes. -/
def digits_value (digits : List Char) : Nat :=
  digits.foldl (fun acc c => 10 * acc + (c.toNat - 48)) 0
/-! ### A connection-handling process and the disconnect handler

A connection-handling process runs one session after another
(`handle_client_connection`, `server.c:134`). The calls `signal(SIGINT, ...)`
and `signal(SIGPIPE, ...)` after a successful login (`server_logic.c:66-67`)
stay in force for the rest of the process; before them a signal does not
reach `handle_unexpected_disconnect`. -/

/-- The function `handle_unexpected_disconnect` (`utils.c:78`) up to its
`exit(1)`, in a process with the open handles `handles`: the semaphores
afterwards, or `none` when `g_session_sem` is a handle that the process has
closed with `sem_close`, on which `sem_post` is undefined (on Linux the
process ends in `sem_post`, before `sem_unlink`). -/
def handle_unexpected_disconnect (sems : Semaphores) (globals : SessionGlobals)
    (handles : List Nat) : Option Semaphores :=
  match globals.g_session_sem with
  | none => some sems
  | some sem =>
      if globals.g_session_id ≠ -1 then
        if sem ∈ handles then
          some (sem_unlink (sem_post sems sem) (session_sem_name globals.g_session_id))
        else none
      else some sems

/-- A connection-handling process: where it stands in the login protocol, its
globals, the semaphores it has open, whether `handle_unexpected_disconnect`
has been installed, and whether it has ended. -/
structure Connection where
  pc : SessionPc
  globals : SessionGlobals
  handles : List Nat
  handler_installed : Bool
  exited : Bool
  deriving DecidableEq

/-- What happens next to the process: it reads an id and a password and calls
`create_session_lock`, it makes the next move of the protocol, or `SIGINT` or
`SIGPIPE` arrives. -/
inductive ConnectionEvent where
  | start (session_id : Int) (login_ok : Bool)
  | advance
  | signal
  deriving DecidableEq

/-- One event of the process; an event that cannot happen leaves everything
as it is. The moves of the protocol are those of `SessionProcess.advance`,
and the handler is installed by the move that ends in an active session. A
signal that reaches the handler ends the process; where the handler is
undefined the semaphores are left as they are. -/
def Connection.step (sems : Semaphores) (conn : Connection) :
    ConnectionEvent → Semaphores × Connection
  | .start session_id login_ok =>
      if conn.exited = false ∧ conn.pc = .idle ∧ 0 < session_id then
        ((create_session_lock sems session_id).2.1,
         { conn with
           pc := .opened session_id (create_session_lock sems session_id).1 login_ok,
           globals := (create_session_lock sems session_id).2.2,
           handles := (create_session_lock sems session_id).1 :: conn.handles })
      else (sems, conn)
  | .advance =>
      if conn.exited then (sems, conn)
      else
        ((SessionProcess.advance sems ⟨conn.pc, conn.globals, conn.handles⟩).1,
         { conn with
           pc := (SessionProcess.advance sems ⟨conn.pc, conn.globals, conn.handles⟩).2.pc,
           globals :=
             (SessionProcess.advance sems ⟨conn.pc, conn.globals, conn.handles⟩).2.globals,
           handles :=
             (SessionProcess.advance sems ⟨conn.pc, conn.globals, conn.handles⟩).2.handles,
           handler_installed :=
             conn.handler_installed ||
               (match (SessionProcess.advance sems
                  ⟨conn.pc, conn.globals, conn.handles⟩).2.pc with
                | .active _ _ => true
                | _ => false) })
  | .signal =>
      if conn.exited = false ∧ conn.handler_installed = true then
        ((handle_unexpected_disconnect sems conn.globals conn.handles).getD sems,
         { conn with exited := true })
      else (sems, conn)

/-- The semaphores and the process after the events, in order. -/
def Connection.run (sems : Semaphores) (conn : Connection) :
    List ConnectionEvent → Semaphores × Connection
  | [] => (sems, conn)
  | event :: events =>
      Connection.run (Connection.step sems conn event).1 (Connection.step sems conn event).2
        events

/-- The lock the process has taken with `sem_trywait` and not yet released:
the identity and the semaphore. -/
def Connection.holds (conn : Connection) : Option (Int × Nat) :=
  match conn.pc with
  | .acquired session_id session_sem _ => some (session_id, session_sem)
  | .active session_id session_sem => some (session_id, session_sem)
  | _ => none

/-- The semaphores when another process holds the session lock of identity 7:
the semaphore named for 7 has the value 0. -/
def identity_7_held : Semaphores := ⟨[0], [(session_sem_name 7, 0)]⟩

/-- A process that has just been forked. -/
def fresh_connection : Connection := ⟨.idle, ⟨-1, none⟩, [], false, false⟩

/-- A process logs in as identity 3 and logs out, which leaves the handler
installed; back at the main menu it starts a login as identity 7 and calls
`create_session_lock`. -/
def relogin_events : List ConnectionEvent :=
  [.start 3 true, .advance, .advance, .advance, .start 7 true]

set_option maxRecDepth 8000

/-! # Lemmas -/

/-! ## Locating a record -/

theorem located_at_cons_self (r : CustomerAccount) (rest : List CustomerAccount) :
    located_at (r :: rest) r.account_id 0 r := by
  simp [located_at]

theorem located_at_cons_ne {x : CustomerAccount} {rest : List CustomerAccount} {id : Int}
    {i : Nat} {r : CustomerAccount} (hx : x.account_id ≠ id) (h : located_at rest id i r) :
    located_at (x :: rest) id (i + 1) r := by
  obtain ⟨h1, h2, h3⟩ := h
  refine ⟨by simpa using h1, h2, ?_⟩
  intro y hy
  simp only [List.take_succ_cons, List.mem_cons] at hy
  rcases hy with rfl | hy
  · exact hx
  · exact h3 y hy

theorem located_at_lt {accounts : List CustomerAccount} {id : Int} {i : Nat}
    {r : CustomerAccount} (h : located_at accounts id i r) : i < accounts.length := by
  have := h.1
  by_contra hc
  rw [List.getElem?_eq_none (by omega)] at this
  cases this

theorem located_at_mem {accounts : List CustomerAccount} {id : Int} {i : Nat}
    {r : CustomerAccount} (h : located_at accounts id i r) : r ∈ accounts :=
  List.getElem?_mem h.1

/-- Every id either occurs in no record or has a first record. -/
theorem located_at_or_absent (accounts : List CustomerAccount) (id : Int) :
    (∀ x ∈ accounts, x.account_id ≠ id) ∨ ∃ i r, located_at accounts id i r := by
  induction accounts with
  | nil => left; simp
  | cons x rest ih =>
    by_cases hx : x.account_id = id
    · right; exact ⟨0, x, hx ▸ located_at_cons_self x rest⟩
    · rcases ih with h | ⟨i, r, h⟩
      · left
        intro y hy
        rcases List.mem_cons.1 hy with rfl | hy
        · exact hx
        · exact h y hy
      · right; exact ⟨i + 1, r, located_at_cons_ne hx h⟩

theorem located_at_of_mem {accounts : List CustomerAccount} {id : Int}
    (h : id ∈ accounts.map (fun r => r.account_id)) : ∃ i r, located_at accounts id i r := by
  rcases located_at_or_absent accounts id with hn | hs
  · obtain ⟨x, hx, hxid⟩ := List.mem_map.1 h
    exact absurd hxid (hn x hx)
  · exact hs

theorem scan_accounts_located {id : Int} {accounts : List CustomerAccount} {i : Nat}
    {r : CustomerAccount} (h : located_at accounts id i r) (cur : Int) :
    scan_accounts id accounts cur
      = (cur + sizeof_CustomerAccount * i, cur + sizeof_CustomerAccount * i + sizeof_CustomerAccount) := by
  induction accounts generalizing i cur with
  | nil => exact absurd (located_at_lt h) (by simp)
  | cons x rest ih =>
    obtain ⟨h1, h2, h3⟩ := h
    cases i with
    | zero =>
      simp only [List.getElem?_cons_zero, Option.some.injEq] at h1
      subst h1
      simp [scan_accounts, h2]
    | succ k =>
      have hx : x.account_id ≠ id := h3 x (by simp)
      have hk : located_at rest id k r := by
        refine ⟨by simpa using h1, h2, ?_⟩
        intro y hy
        exact h3 y (by simp [hy])
      simp only [scan_accounts, hx, if_false]
      rw [ih hk]
      simp only [sizeof_CustomerAccount, Nat.cast_add, Nat.cast_one, Prod.mk.injEq]
      constructor <;> ring

theorem scan_accounts_absent {id : Int} {accounts : List CustomerAccount}
    (h : ∀ x ∈ accounts, x.account_id ≠ id) (cur : Int) :
    scan_accounts id accounts cur = (-1, cur + sizeof_CustomerAccount * accounts.length) := by
  induction accounts generalizing cur with
  | nil => simp [scan_accounts]
  | cons x rest ih =>
    have hx : x.account_id ≠ id := h x (by simp)
    simp only [scan_accounts, hx, if_false]
    rw [ih (fun y hy => h y (by simp [hy]))]
    simp only [sizeof_CustomerAccount, List.length_cons, Nat.cast_add, Nat.cast_one, Prod.mk.injEq,
      true_and]
    ring

theorem find_located (fd : AccountFd) {id : Int} {i : Nat} {r : CustomerAccount}
    (h : located_at fd.records id i r) :
    find_customer_record_offset fd id
      = (sizeof_CustomerAccount * i,
         { fd with pos := sizeof_CustomerAccount * i + sizeof_CustomerAccount }) := by
  simp [find_customer_record_offset, scan_accounts_located h]

theorem find_absent (fd : AccountFd) {id : Int} (h : ∀ x ∈ fd.records, x.account_id ≠ id) :
    find_customer_record_offset fd id
      = (-1, { fd with pos := sizeof_CustomerAccount * fd.records.length }) := by
  simp [find_customer_record_offset, scan_accounts_absent h]

theorem offset_ne_neg_one (i : Nat) : sizeof_CustomerAccount * (i : Int) ≠ -1 := by
  simp only [sizeof_CustomerAccount]; omega

theorem record_index_offset (i : Nat) : record_index (sizeof_CustomerAccount * i) = i := by
  simp [record_index, sizeof_CustomerAccount]

theorem record_index_offset_succ (i : Nat) :
    record_index (sizeof_CustomerAccount * i + sizeof_CustomerAccount) = i + 1 := by
  have : sizeof_CustomerAccount * (i : Int) + sizeof_CustomerAccount
      = sizeof_CustomerAccount * ((i + 1 : Nat) : Int) := by
    push_cast; ring
  rw [this, record_index_offset]

theorem lseek_set_offset (fd : AccountFd) (i : Nat) :
    lseek_set fd (sizeof_CustomerAccount * i) = { fd with pos := sizeof_CustomerAccount * i } := by
  have : ¬ sizeof_CustomerAccount * (i : Int) < 0 := by
    simp only [sizeof_CustomerAccount]; omega
  simp [lseek_set, this]

theorem lseek_set_neg_one (fd : AccountFd) : lseek_set fd (-1) = fd := by
  simp [lseek_set]

theorem read_account_at {records : List CustomerAccount} {i : Nat} {r : CustomerAccount}
    (h : records[i]? = some r) (buf : CustomerAccount) :
    read_account ⟨records, sizeof_CustomerAccount * i⟩ buf
      = (r, ⟨records, sizeof_CustomerAccount * i + sizeof_CustomerAccount⟩) := by
  simp [read_account, record_index_offset, h]

theorem write_account_at {records : List CustomerAccount} {i : Nat} (h : i < records.length)
    (rec : CustomerAccount) :
    write_account ⟨records, sizeof_CustomerAccount * i⟩ rec
      = ⟨records.set i rec, sizeof_CustomerAccount * i + sizeof_CustomerAccount⟩ := by
  simp [write_account, record_index_offset, h]

/-! ## Comparisons of doubles -/

theorem Double.zero_def : (0 : Double) = .finite false 0 0 := rfl

theorem Double.lt_def (x y : Double) : x < y ↔ Double.lt x y = true := Iff.rfl

theorem Double.le_def (x y : Double) : x ≤ y ↔ Double.le x y = true := Iff.rfl

/-- A NaN compares false with everything. -/
theorem Double.nan_not_le (negative : Bool) (y : Double) :
    ¬ Double.nan negative ≤ y ∧ ¬ y ≤ Double.nan negative ∧
    ¬ Double.nan negative < y ∧ ¬ y < Double.nan negative := by
  cases y <;> simp [Double.le_def, Double.lt_def, Double.le, Double.lt]

/-- When `x <= y` holds, `y < x` does not. -/
theorem Double.not_lt_of_le {x y : Double} (h : x ≤ y) : ¬ y < x := by
  rw [Double.le_def] at h
  rw [Double.lt_def]
  cases x with
  | nan s => simp [Double.le] at h
  | infinite s =>
    cases y with
    | nan t => simp [Double.le] at h
    | infinite t => cases s <;> cases t <;> simp_all [Double.le, Double.lt]
    | finite t n f => cases s <;> simp_all [Double.le, Double.lt]
  | finite s m e =>
    cases y with
    | nan t => simp [Double.le] at h
    | infinite t => cases t <;> simp_all [Double.le, Double.lt]
    | finite t n f =>
      simp only [Double.le, decide_eq_true_eq] at h
      simp only [Double.lt, decide_eq_true_eq, not_lt, min_comm f e]
      exact h

/-- When `x < y` holds, `y <= x` does not. -/
theorem Double.not_le_of_lt {x y : Double} (h : x < y) : ¬ y ≤ x := by
  rw [Double.lt_def] at h
  rw [Double.le_def]
  cases x with
  | nan s => simp [Double.lt] at h
  | infinite s =>
    cases y with
    | nan t => simp [Double.lt] at h
    | infinite t => cases s <;> cases t <;> simp_all [Double.le, Double.lt]
    | finite t n f => cases s <;> simp_all [Double.le, Double.lt]
  | finite s m e =>
    cases y with
    | nan t => simp [Double.lt] at h
    | infinite t => cases t <;> simp_all [Double.le, Double.lt]
    | finite t n f =>
      simp only [Double.lt, decide_eq_true_eq] at h
      simp only [Double.le, decide_eq_true_eq, not_le, min_comm f e]
      exact h

/-- When `x < y` holds, so does `x <= y`. -/
theorem Double.le_of_lt {x y : Double} (h : x < y) : x ≤ y := by
  rw [Double.lt_def] at h
  rw [Double.le_def]
  cases x with
  | nan s => simp [Double.lt] at h
  | infinite s =>
    cases y with
    | nan t => simp [Double.lt] at h
    | infinite t => cases s <;> cases t <;> simp_all [Double.le, Double.lt]
    | finite t n f => cases s <;> simp_all [Double.le, Double.lt]
  | finite s m e =>
    cases y with
    | nan t => simp [Double.lt] at h
    | infinite t => cases t <;> simp_all [Double.le, Double.lt]
    | finite t n f =>
      simp only [Double.lt, decide_eq_true_eq] at h
      simp only [Double.le, decide_eq_true_eq]
      exact h.le

/-- The difference of a finite double and itself is `+0`. -/
theorem Double.sub_self_finite (negative : Bool) (mantissa : Nat) (exponent : Int) :
    Double.sub (.finite negative mantissa exponent) (.finite negative mantissa exponent) = 0 := by
  have h : Double.scaled negative mantissa (exponent - min exponent exponent)
      + Double.scaled (!negative) mantissa (exponent - min exponent exponent) = 0 := by
    cases negative <;> simp [Double.scaled]
  simp only [Double.sub, Double.neg, Double.add, h, if_true, Double.zero_def]
  cases negative <;> rfl
/-! ## Sums of doubles that are exact -/

theorem Double.bit_length_loop_zero (fuel : Nat) : Double.bit_length_loop fuel 0 = 0 := by
  cases fuel <;> simp [Double.bit_length_loop]

/-- The loop counts the binary digits of a positive number below `2^fuel`. -/
theorem Double.bit_length_loop_spec (fuel : Nat) :
    ∀ n : Nat, 0 < n → n < 2 ^ fuel →
      0 < Double.bit_length_loop fuel n ∧
      2 ^ (Double.bit_length_loop fuel n - 1) ≤ n ∧ n < 2 ^ Double.bit_length_loop fuel n := by
  induction fuel with
  | zero => intro n h0 h1; simp at h1; omega
  | succ fuel ih =>
    intro n h0 h1
    have hn : n ≠ 0 := by omega
    unfold Double.bit_length_loop
    rw [if_neg hn]
    by_cases hbig : 2 ^ 64 ≤ n
    · rw [if_pos hbig]
      have hf : 64 ≤ fuel := by
        by_contra hc
        have : 2 ^ (fuel + 1) ≤ 2 ^ 64 := Nat.pow_le_pow_right (by decide) (by omega)
        omega
      have hq0 : 0 < n / 2 ^ 64 := Nat.div_pos hbig (by positivity)
      have hq1 : n / 2 ^ 64 < 2 ^ fuel := by
        rw [Nat.div_lt_iff_lt_mul (by positivity)]
        calc n < 2 ^ (fuel + 1) := h1
          _ ≤ 2 ^ (fuel + 64) := Nat.pow_le_pow_right (by decide) (by omega)
          _ = 2 ^ fuel * 2 ^ 64 := by rw [pow_add]
      obtain ⟨hl, hlo, hhi⟩ := ih (n / 2 ^ 64) hq0 hq1
      refine ⟨by omega, ?_, ?_⟩
      · have e : Double.bit_length_loop fuel (n / 2 ^ 64) + 64 - 1
            = (Double.bit_length_loop fuel (n / 2 ^ 64) - 1) + 64 := by omega
        rw [e, pow_add]
        calc 2 ^ (Double.bit_length_loop fuel (n / 2 ^ 64) - 1) * 2 ^ 64
            ≤ n / 2 ^ 64 * 2 ^ 64 := Nat.mul_le_mul_right _ hlo
          _ ≤ n := Nat.div_mul_le_self n (2 ^ 64)
      · rw [pow_add]
        exact Nat.lt_mul_of_div_lt hhi (by positivity : 0 < 2 ^ 64)
    · rw [if_neg hbig]
      by_cases hq : n / 2 = 0
      · have h1' : n = 1 := by omega
        subst h1'
        rw [show 1 / 2 = 0 by rfl, Double.bit_length_loop_zero]
        exact ⟨by decide, by decide, by decide⟩
      · have hq0 : 0 < n / 2 := Nat.pos_of_ne_zero hq
        have hq1 : n / 2 < 2 ^ fuel := by
          rw [pow_succ] at h1
          omega
        obtain ⟨hl, hlo, hhi⟩ := ih (n / 2) hq0 hq1
        refine ⟨by omega, ?_, ?_⟩
        · have e : Double.bit_length_loop fuel (n / 2) + 1 - 1
              = (Double.bit_length_loop fuel (n / 2) - 1) + 1 := by omega
          rw [e, pow_succ]
          omega
        · rw [pow_succ]
          omega

/-- Halving an even mantissa keeps the number. -/
theorem Double.strip_zeros_loop_value (fuel : Nat) :
    ∀ (mantissa : Nat) (exponent : Int),
      ((Double.strip_zeros_loop fuel mantissa exponent).1 : ℚ)
          * (2 : ℚ) ^ (Double.strip_zeros_loop fuel mantissa exponent).2
        = (mantissa : ℚ) * (2 : ℚ) ^ exponent ∧
      (Double.strip_zeros_loop fuel mantissa exponent).1 ≤ mantissa ∧
      exponent ≤ (Double.strip_zeros_loop fuel mantissa exponent).2 := by
  induction fuel with
  | zero => intro m e; exact ⟨rfl, le_refl _, le_refl _⟩
  | succ fuel ih =>
    intro m e
    unfold Double.strip_zeros_loop
    by_cases h : m % 2 = 0 ∧ m ≠ 0
    · rw [if_pos h]
      obtain ⟨hv, hle, hex⟩ := ih (m / 2) (e + 1)
      refine ⟨?_, le_trans hle (Nat.div_le_self m 2), by omega⟩
      rw [hv, zpow_add₀ (by norm_num : (2 : ℚ) ≠ 0), zpow_one]
      have hm : m = 2 * (m / 2) := by omega
      have hq : (m : ℚ) = 2 * ((m / 2 : Nat) : ℚ) := by
        conv_lhs => rw [hm]
        push_cast
        ring
      rw [hq]
      ring
    · rw [if_neg h]
      exact ⟨rfl, le_refl _, le_refl _⟩
theorem Double.bit_length_spec {n : Nat} (h0 : 0 < n) (h1 : n < 2 ^ 2200) :
    0 < Double.bit_length n ∧ 2 ^ (Double.bit_length n - 1) ≤ n ∧ n < 2 ^ Double.bit_length n :=
  Double.bit_length_loop_spec 2200 n h0 h1

theorem two_zpow_pos (e : Int) : (0 : ℚ) < (2 : ℚ) ^ e := zpow_pos (by norm_num) e

theorem two_zpow_le {a b : Int} (h : a ≤ b) : (2 : ℚ) ^ a ≤ (2 : ℚ) ^ b :=
  zpow_le_zpow_right₀ (by norm_num) h

theorem two_zpow_lt_iff {a b : Int} : (2 : ℚ) ^ a < (2 : ℚ) ^ b ↔ a < b :=
  zpow_lt_zpow_iff_right₀ (by norm_num)

theorem Double.zero_is_number (negative : Bool) :
    (Double.finite negative 0 0).is_number = true := by
  show decide ((0 : Nat) < 2 ^ 53 ∧ (-1074 : Int) ≤ 0 ∧
    ((Double.bit_length_loop 2200 0 : Nat) : Int) + 0 ≤ 1024) = true
  rw [Double.bit_length_loop_zero]
  decide

/-- A magnitude below `2^1024` is normalised to a finite double of the same
value, which is a number of the format when the magnitude has at most 53
bits and none below `2^-1074`. -/
theorem Double.normalize_value (negative : Bool) (m : Nat) (e : Int) (hm : m < 2 ^ 2200)
    (hlt : (m : ℚ) * (2 : ℚ) ^ e < (2 : ℚ) ^ (1024 : Int)) :
    ∃ (m' : Nat) (e' : Int), Double.normalize negative m e = .finite negative m' e' ∧
      (m' : ℚ) * (2 : ℚ) ^ e' = (m : ℚ) * (2 : ℚ) ^ e ∧
      (m < 2 ^ 53 → -1074 ≤ e → (Double.finite negative m' e').is_number = true) := by
  unfold Double.normalize
  by_cases h0 : m = 0
  · rw [if_pos h0]
    exact ⟨0, 0, rfl, by simp [h0], fun _ _ => Double.zero_is_number negative⟩
  · rw [if_neg h0]
    obtain ⟨hv, hle, hex⟩ := Double.strip_zeros_loop_value 64 m e
    have hv' : ((Double.strip_zeros m e).1 : ℚ) * (2 : ℚ) ^ (Double.strip_zeros m e).2
        = (m : ℚ) * (2 : ℚ) ^ e := hv
    have hle' : (Double.strip_zeros m e).1 ≤ m := hle
    have hex' : e ≤ (Double.strip_zeros m e).2 := hex
    have hpos : 0 < (Double.strip_zeros m e).1 := by
      rcases Nat.eq_zero_or_pos (Double.strip_zeros m e).1 with hz | hp
      · have hmq : (m : ℚ) ≠ 0 := by exact_mod_cast h0
        have hne : (m : ℚ) * (2 : ℚ) ^ e ≠ 0 := mul_ne_zero hmq (ne_of_gt (two_zpow_pos e))
        rw [hz, Nat.cast_zero, zero_mul] at hv'
        exact absurd hv'.symm hne
      · exact hp
    obtain ⟨hl, hlo, _⟩ := Double.bit_length_spec hpos (lt_of_le_of_lt hle' hm)
    have hno : ¬ (((Double.bit_length (Double.strip_zeros m e).1 : Nat) : Int)
        + (Double.strip_zeros m e).2 > 1024) := by
      intro hc
      have h1 : (2 : ℚ) ^ (1024 : Int)
          ≤ (2 : ℚ) ^ ((((Double.bit_length (Double.strip_zeros m e).1 - 1 : Nat)) : Int)
              + (Double.strip_zeros m e).2) := by
        apply two_zpow_le
        omega
      rw [zpow_add₀ (by norm_num : (2 : ℚ) ≠ 0), zpow_natCast] at h1
      have h2 : ((2 : ℚ) ^ (Double.bit_length (Double.strip_zeros m e).1 - 1))
          ≤ ((Double.strip_zeros m e).1 : ℚ) := by
        exact_mod_cast hlo
      have h3 := mul_le_mul_of_nonneg_right h2 (two_zpow_pos (Double.strip_zeros m e).2).le
      rw [hv'] at h3
      exact absurd (lt_of_le_of_lt (le_trans h1 h3) hlt) (lt_irrefl _)
    simp only
    rw [if_neg hno]
    refine ⟨_, _, rfl, hv', fun hm53 he => ?_⟩
    show decide ((Double.strip_zeros m e).1 < 2 ^ 53 ∧ -1074 ≤ (Double.strip_zeros m e).2 ∧
      ((Double.bit_length (Double.strip_zeros m e).1 : Nat) : Int) + (Double.strip_zeros m e).2
        ≤ 1024) = true
    rw [decide_eq_true_eq]
    exact ⟨lt_of_le_of_lt hle' hm53, le_trans he hex', not_lt.1 hno⟩

/-- A magnitude that is a number of the format is its own rounding. -/
theorem Double.round_value (negative : Bool) (A : Nat) (e₀ : Int) (hA0 : 0 < A)
    (hA : A < 2 ^ 2200) (k : Nat) (g : Int) (hk : k < 2 ^ 53) (hg : -1074 ≤ g)
    (hg' : (k : ℚ) * (2 : ℚ) ^ g < (2 : ℚ) ^ (1024 : Int))
    (h : (A : ℚ) * (2 : ℚ) ^ e₀ = (k : ℚ) * (2 : ℚ) ^ g) :
    ∃ (m' : Nat) (e' : Int), Double.round negative A e₀ = .finite negative m' e' ∧
      (m' : ℚ) * (2 : ℚ) ^ e' = (A : ℚ) * (2 : ℚ) ^ e₀ ∧
      (Double.finite negative m' e').is_number = true := by
  have h2 : (2 : ℚ) ≠ 0 := by norm_num
  obtain ⟨hl, hlo, hhi⟩ := Double.bit_length_spec hA0 hA
  have hkq : (k : ℚ) < (2 : ℚ) ^ (53 : Int) := by
    have e : (2 : ℚ) ^ (53 : Int) = (2 : ℚ) ^ (53 : Nat) := by norm_num
    rw [e]
    exact_mod_cast hk
  have hlt : (A : ℚ) * (2 : ℚ) ^ e₀ < (2 : ℚ) ^ (1024 : Int) := by
    rw [h]
    exact hg'
  have hAk : (A : ℚ) = (k : ℚ) * (2 : ℚ) ^ (g - e₀) := by
    rw [zpow_sub₀ h2, ← mul_div_assoc, ← h, mul_div_assoc, div_self (ne_of_gt (two_zpow_pos e₀)),
      mul_one]
  have hj : ((Double.bit_length A : Nat) : Int) - 53 ≤ g - e₀ := by
    by_contra hc
    have hc' : 53 + (g - e₀) ≤ ((Double.bit_length A - 1 : Nat) : Int) := by omega
    have h1 : (A : ℚ) < (2 : ℚ) ^ (53 + (g - e₀)) := by
      rw [hAk, zpow_add₀ h2]
      exact mul_lt_mul_of_pos_right hkq (two_zpow_pos _)
    have h3 : (2 : ℚ) ^ (53 + (g - e₀)) ≤ (2 : ℚ) ^ ((Double.bit_length A - 1 : Nat) : Int) :=
      two_zpow_le hc'
    rw [zpow_natCast] at h3
    have h4 : ((2 : ℚ) ^ (Double.bit_length A - 1)) ≤ (A : ℚ) := by exact_mod_cast hlo
    exact absurd (lt_of_lt_of_le h1 (le_trans h3 h4)) (lt_irrefl _)
  unfold Double.round
  rw [if_neg (by omega : ¬ A = 0)]
  simp only
  by_cases hd : max (((Double.bit_length A : Nat) : Int) - 53) (-1074 - e₀) ≤ 0
  · rw [if_pos hd]
    obtain ⟨m', e', hn, hv, hnum⟩ := Double.normalize_value negative A e₀ hA hlt
    have hA53 : A < 2 ^ 53 :=
      lt_of_lt_of_le hhi (pow_le_pow_right₀ (by norm_num) (by omega))
    exact ⟨m', e', hn, hv, hnum hA53 (by omega)⟩
  · rw [if_neg hd]
    have hdj : max (((Double.bit_length A : Nat) : Int) - 53) (-1074 - e₀) ≤ g - e₀ :=
      max_le hj (by omega)
    obtain ⟨d, hdn⟩ : ∃ d : Nat,
        max (((Double.bit_length A : Nat) : Int) - 53) (-1074 - e₀) = (d : Int) :=
      ⟨_, (Int.toNat_of_nonneg (by omega)).symm⟩
    rw [hdn] at hd hdj ⊢
    rw [Int.toNat_ofNat]
    have hd0 : 0 < d := by omega
    obtain ⟨j, hjn⟩ : ∃ j : Nat, g - e₀ = (j : Int) := ⟨_, (Int.toNat_of_nonneg (by omega)).symm⟩
    have hdj' : d ≤ j := by omega
    have hAn : A = k * 2 ^ j := by
      have : (A : ℚ) = ((k * 2 ^ j : Nat) : ℚ) := by
        rw [hAk, hjn, zpow_natCast]
        push_cast
        ring
      exact_mod_cast this
    have hdvd : 2 ^ d ∣ A := by
      rw [hAn]
      exact Dvd.dvd.mul_left (pow_dvd_pow 2 hdj') k
    have hrem : A % 2 ^ d = 0 := Nat.mod_eq_zero_of_dvd hdvd
    have hhalf : A % 2 ^ d < 2 ^ (d - 1) := by
      rw [hrem]
      positivity
    rw [if_pos hhalf]
    have hq : A / 2 ^ d * 2 ^ d = A := Nat.div_mul_cancel hdvd
    have hval : ((A / 2 ^ d : Nat) : ℚ) * (2 : ℚ) ^ (e₀ + (d : Int))
        = (A : ℚ) * (2 : ℚ) ^ e₀ := by
      have hq' : (A : ℚ) = ((A / 2 ^ d : Nat) : ℚ) * (2 : ℚ) ^ d := by
        conv_lhs => rw [← hq]
        push_cast
        ring
      rw [zpow_add₀ h2, zpow_natCast]
      conv_rhs => rw [hq']
      ring
    obtain ⟨m', e', hn, hv, hnum⟩ := Double.normalize_value negative (A / 2 ^ d)
      (e₀ + (d : Int)) (lt_of_le_of_lt (Nat.div_le_self _ _) hA) (by rw [hval]; exact hlt)
    have hq53 : A / 2 ^ d < 2 ^ 53 := by
      rw [Nat.div_lt_iff_lt_mul (pow_pos (by norm_num) d), ← pow_add]
      exact lt_of_lt_of_le hhi (pow_le_pow_right₀ (by norm_num) (by omega))
    exact ⟨m', e', hn, hv.trans hval, hnum hq53 (by omega)⟩
theorem Double.scaled_value (negative : Bool) (mantissa : Nat) {shift : Int} (h : 0 ≤ shift) :
    ((Double.scaled negative mantissa shift : Int) : ℚ)
      = (if negative then -1 else 1) * (mantissa : ℚ) * (2 : ℚ) ^ shift := by
  obtain ⟨j, rfl⟩ : ∃ j : Nat, shift = (j : Int) := ⟨_, (Int.toNat_of_nonneg h).symm⟩
  unfold Double.scaled
  rw [Int.toNat_ofNat, zpow_natCast]
  cases negative
  · simp
  · simp

theorem Double.scaled_natAbs (negative : Bool) (mantissa : Nat) (shift : Int) :
    (Double.scaled negative mantissa shift).natAbs = mantissa * 2 ^ shift.toNat := by
  unfold Double.scaled
  cases negative
  · simp only [Bool.false_eq_true, if_false, Int.natAbs_ofNat]
  · simp only [if_true, Int.natAbs_neg, Int.natAbs_ofNat]

theorem Double.nat_lt_bit_length {n : Nat} (h : n < 2 ^ 2200) : n < 2 ^ Double.bit_length n := by
  rcases Nat.eq_zero_or_pos n with h0 | h0
  · rw [h0]
    exact pow_pos (by norm_num) _
  · exact (Double.bit_length_spec h0 h).2.2

theorem Double.bit_length_le_53 {n : Nat} (h : n < 2 ^ 53) : Double.bit_length n ≤ 53 := by
  rcases Nat.eq_zero_or_pos n with h0 | h0
  · rw [h0]
    show Double.bit_length_loop 2200 0 ≤ 53
    rw [Double.bit_length_loop_zero]
    exact Nat.zero_le _
  · have hn : n < 2 ^ 2200 := lt_of_lt_of_le h (pow_le_pow_right₀ (by norm_num) (by norm_num))
    obtain ⟨hl, hlo, _⟩ := Double.bit_length_spec h0 hn
    have h1 : 2 ^ (Double.bit_length n - 1) < 2 ^ 53 := lt_of_le_of_lt hlo h
    have h3 := (pow_lt_pow_iff_right₀ (by norm_num : (1 : Nat) < 2)).1 h1
    omega

theorem Double.mantissa_lt {mantissa : Nat} (h : mantissa < 2 ^ 53) : mantissa < 2 ^ 2200 :=
  lt_of_lt_of_le h (pow_le_pow_right₀ (by norm_num) (by norm_num))

/-- A number of the format is below `2^1024`. -/
theorem Double.number_lt {mantissa : Nat} {exponent : Int} (hm : mantissa < 2 ^ 53)
    (he : ((Double.bit_length mantissa : Nat) : Int) + exponent ≤ 1024) :
    (mantissa : ℚ) * (2 : ℚ) ^ exponent < (2 : ℚ) ^ (1024 : Int) := by
  have h1 : (mantissa : ℚ) < (2 : ℚ) ^ ((Double.bit_length mantissa : Nat) : Int) := by
    rw [zpow_natCast]
    exact_mod_cast Double.nat_lt_bit_length (Double.mantissa_lt hm)
  calc (mantissa : ℚ) * (2 : ℚ) ^ exponent
      < (2 : ℚ) ^ ((Double.bit_length mantissa : Nat) : Int) * (2 : ℚ) ^ exponent :=
        mul_lt_mul_of_pos_right h1 (two_zpow_pos exponent)
    _ = (2 : ℚ) ^ (((Double.bit_length mantissa : Nat) : Int) + exponent) := by
        rw [zpow_add₀ (by norm_num : (2 : ℚ) ≠ 0)]
    _ ≤ (2 : ℚ) ^ (1024 : Int) := two_zpow_le he

theorem Double.scaled_bound {mantissa : Nat} {exponent shift : Int} (negative : Bool)
    (hm : mantissa < 2 ^ 53)
    (he : ((Double.bit_length mantissa : Nat) : Int) + exponent ≤ 1024)
    (hs : shift ≤ exponent + 1074) :
    (Double.scaled negative mantissa shift).natAbs < 2 ^ 2098 := by
  rw [Double.scaled_natAbs]
  have h1 := Double.nat_lt_bit_length (Double.mantissa_lt hm)
  have h0 := Double.bit_length_le_53 hm
  have h3 : Double.bit_length mantissa + shift.toNat ≤ 2098 := by omega
  calc mantissa * 2 ^ shift.toNat
      < 2 ^ Double.bit_length mantissa * 2 ^ shift.toNat :=
        Nat.mul_lt_mul_of_pos_right h1 (pow_pos (by norm_num) _)
    _ = 2 ^ (Double.bit_length mantissa + shift.toNat) := (pow_add 2 _ _).symm
    _ ≤ 2 ^ 2098 := pow_le_pow_right₀ (by norm_num) h3

theorem Double.abs_toRat_finite (negative : Bool) (mantissa : Nat) (exponent : Int) :
    |(Double.finite negative mantissa exponent).toRat| = (mantissa : ℚ) * (2 : ℚ) ^ exponent := by
  have hp : (0 : ℚ) ≤ (mantissa : ℚ) * (2 : ℚ) ^ exponent :=
    mul_nonneg (Nat.cast_nonneg _) (two_zpow_pos exponent).le
  unfold Double.toRat
  cases negative
  · simp only [Bool.false_eq_true, if_false, one_mul]
    exact abs_of_nonneg hp
  · simp only [if_true, neg_mul, one_mul, abs_neg]
    exact abs_of_nonneg hp

/-- The sum of two numbers of the format is exact when the exact sum is a
number of the format. -/
theorem Double.add_exact (x y z : Double) (hx : x.is_number = true) (hy : y.is_number = true)
    (hz : z.is_number = true) (h : z.toRat = x.toRat + y.toRat) :
    (Double.add x y).is_number = true ∧ (Double.add x y).toRat = x.toRat + y.toRat := by
  cases x with
  | infinite _ => cases hx
  | nan _ => cases hx
  | finite s m e =>
  cases y with
  | infinite _ => cases hy
  | nan _ => cases hy
  | finite t n f =>
  cases z with
  | infinite _ => cases hz
  | nan _ => cases hz
  | finite u k g =>
  simp only [Double.is_number, decide_eq_true_eq] at hx hy hz
  have h2 : (2 : ℚ) ≠ 0 := by norm_num
  have he : 0 ≤ e - min e f := by omega
  have hf : 0 ≤ f - min e f := by omega
  have hS : (((Double.scaled s m (e - min e f) + Double.scaled t n (f - min e f) : Int)) : ℚ)
      * (2 : ℚ) ^ (min e f)
      = (Double.finite s m e).toRat + (Double.finite t n f).toRat := by
    rw [Int.cast_add, Double.scaled_value s m he, Double.scaled_value t n hf, add_mul]
    have e1 : (2 : ℚ) ^ (e - min e f) * (2 : ℚ) ^ (min e f) = (2 : ℚ) ^ e := by
      rw [← zpow_add₀ h2]; congr 1; omega
    have e2 : (2 : ℚ) ^ (f - min e f) * (2 : ℚ) ^ (min e f) = (2 : ℚ) ^ f := by
      rw [← zpow_add₀ h2]; congr 1; omega
    rw [mul_assoc, e1, mul_assoc _ _ ((2 : ℚ) ^ (min e f)), e2]
    rfl
  have hadd : Double.add (.finite s m e) (.finite t n f)
      = if Double.scaled s m (e - min e f) + Double.scaled t n (f - min e f) = 0 then
          .finite (s && t) 0 0
        else
          Double.round
            (decide (Double.scaled s m (e - min e f) + Double.scaled t n (f - min e f) < 0))
            (Double.scaled s m (e - min e f) + Double.scaled t n (f - min e f)).natAbs
            (min e f) := rfl
  rw [hadd]
  have hA : (Double.scaled s m (e - min e f) + Double.scaled t n (f - min e f)).natAbs
      < 2 ^ 2200 := by
    have h1 := Double.scaled_bound s hx.1 hx.2.2 (by omega : e - min e f ≤ e + 1074)
    have h3 := Double.scaled_bound t hy.1 hy.2.2 (by omega : f - min e f ≤ f + 1074)
    have h4 := Int.natAbs_add_le (Double.scaled s m (e - min e f))
      (Double.scaled t n (f - min e f))
    have h5 : 2 ^ 2098 + 2 ^ 2098 ≤ 2 ^ 2200 :=
      calc 2 ^ 2098 + 2 ^ 2098 = 2 ^ 2098 * 2 := (mul_two _).symm
        _ = 2 ^ (2098 + 1) := (pow_succ 2 2098).symm
        _ ≤ 2 ^ 2200 := pow_le_pow_right₀ (by norm_num) (by norm_num)
    exact lt_of_lt_of_le (lt_of_le_of_lt h4 (Nat.add_lt_add h1 h3)) h5
  generalize Double.scaled s m (e - min e f) + Double.scaled t n (f - min e f) = S at hS hA ⊢
  by_cases hS0 : S = 0
  · rw [if_pos hS0]
    refine ⟨Double.zero_is_number _, ?_⟩
    rw [← hS, hS0]
    simp [Double.toRat]
  · rw [if_neg hS0]
    have hA0 : 0 < S.natAbs := Int.natAbs_pos.2 hS0
    have habs : ((S.natAbs : Nat) : ℚ) = |(S : ℚ)| := by
      rw [Nat.cast_natAbs, Int.cast_abs]
    have hk : ((S.natAbs : Nat) : ℚ) * (2 : ℚ) ^ (min e f) = (k : ℚ) * (2 : ℚ) ^ g := by
      rw [← Double.abs_toRat_finite u k g, h, ← hS, abs_mul, abs_of_pos (two_zpow_pos _), habs]
    obtain ⟨m', e', hr, hv, hnum⟩ := Double.round_value (decide (S < 0)) S.natAbs (min e f) hA0
      hA k g hz.1 hz.2.1 (Double.number_lt hz.1 hz.2.2) hk
    rw [hr]
    refine ⟨hnum, ?_⟩
    rw [← hS]
    show (if decide (S < 0) = true then -1 else 1) * (m' : ℚ) * (2 : ℚ) ^ e' = _
    rw [mul_assoc, hv, habs]
    by_cases hneg : S < 0
    · have hq : (S : ℚ) < 0 := by exact_mod_cast hneg
      simp only [hneg, decide_True, if_true, abs_of_neg hq]
      ring
    · have hq : (0 : ℚ) ≤ (S : ℚ) := by exact_mod_cast not_lt.1 hneg
      simp only [hneg, decide_False, Bool.false_eq_true, if_false, abs_of_nonneg hq]
      ring

theorem Double.neg_is_number (y : Double) : (Double.neg y).is_number = y.is_number := by
  cases y <;> rfl

theorem Double.neg_toRat (y : Double) : (Double.neg y).toRat = -y.toRat := by
  cases y with
  | finite negative mantissa exponent =>
    cases negative <;> simp [Double.neg, Double.toRat]
  | infinite _ => simp [Double.neg, Double.toRat]
  | nan _ => simp [Double.neg, Double.toRat]

/-- The difference of two numbers of the format is exact when the exact
difference is a number of the format. -/
theorem Double.sub_exact (x y z : Double) (hx : x.is_number = true) (hy : y.is_number = true)
    (hz : z.is_number = true) (h : z.toRat = x.toRat - y.toRat) :
    (Double.sub x y).is_number = true ∧ (Double.sub x y).toRat = x.toRat - y.toRat := by
  have hsub : Double.sub x y = Double.add x (Double.neg y) := by
    cases x with
    | infinite _ => cases hx
    | nan _ => cases hx
    | finite s m e =>
      cases y with
      | infinite _ => cases hy
      | nan _ => cases hy
      | finite t n f => rfl
  rw [hsub, sub_eq_add_neg, ← Double.neg_toRat]
  refine Double.add_exact x (Double.neg y) z hx ?_ hz ?_
  · rw [Double.neg_is_number]; exact hy
  · rw [h, sub_eq_add_neg, Double.neg_toRat]
/-! ## The handlers on located records -/

theorem handle_deposit_located {db : Database} {account_id : Int} {i : Nat} {s : CustomerAccount}
    (h : located_at db.accounts account_id i s) {amount : Double} (ha : ¬ amount ≤ 0)
    (now : String) (account₀ : CustomerAccount) :
    handle_deposit db account_id (some amount) now account₀
      = ⟨⟨db.accounts.set i { s with balance := s.balance + amount },
          log_transaction db.transactions account_id "DEPOSIT" amount (s.balance + amount) now⟩,
         some ⟨"SUCCESS", "Deposit successful. New balance: " ++ format_2f (s.balance + amount)⟩,
         [.setlkw_wrlck (sizeof_CustomerAccount * i), .setlk_unlck (sizeof_CustomerAccount * i)]⟩ := by
  have hf := find_located ⟨db.accounts, 0⟩ h
  simp only [handle_deposit, hf, offset_ne_neg_one, if_false, ha, lseek_set_offset,
    read_account_at h.1, write_account_at (located_at_lt h)]

theorem handle_withdrawal_located {db : Database} {account_id : Int} {i : Nat}
    {s : CustomerAccount} (h : located_at db.accounts account_id i s) {amount : Double}
    (ha : ¬ amount ≤ 0) (now : String) (account₀ : CustomerAccount) :
    handle_withdrawal db account_id (some amount) now account₀
      = if s.balance < amount then
          ⟨db, some ⟨"ERROR", "Insufficient funds. Current balance: " ++ format_2f s.balance⟩,
           [.setlkw_wrlck (sizeof_CustomerAccount * i), .setlk_unlck (sizeof_CustomerAccount * i)]⟩
        else
          ⟨⟨db.accounts.set i { s with balance := s.balance - amount },
            log_transaction db.transactions account_id "WITHDRAWAL" (-amount)
              (s.balance - amount) now⟩,
           some ⟨"SUCCESS",
             "Withdrawal successful. New balance: " ++ format_2f (s.balance - amount)⟩,
           [.setlkw_wrlck (sizeof_CustomerAccount * i),
            .setlk_unlck (sizeof_CustomerAccount * i)]⟩ := by
  have hf := find_located ⟨db.accounts, 0⟩ h
  simp only [handle_withdrawal, hf, offset_ne_neg_one, if_false, ha, lseek_set_offset,
    read_account_at h.1, write_account_at (located_at_lt h)]

theorem located_at_index_ne {accounts : List CustomerAccount} {a b : Int} {i j : Nat}
    {s d : CustomerAccount} (hs : located_at accounts a i s) (hd : located_at accounts b j d)
    (hab : a ≠ b) : i ≠ j := by
  rintro rfl
  have : s = d := Option.some.inj (hs.1.symm.trans hd.1)
  exact hab (by rw [← hs.2.1, ← hd.2.1, this])

theorem handle_fund_transfer_located {db : Database} {src dest : Int} {i j : Nat}
    {s d : CustomerAccount} (hs : located_at db.accounts src i s)
    (hd : located_at db.accounts dest j d) (hne : src ≠ dest) {amount : Double} (ha : ¬ amount ≤ 0)
    (now_out now_in : String) (source_ac₀ dest_ac₀ : CustomerAccount) :
    handle_fund_transfer db src (some dest) (some amount) now_out now_in source_ac₀ dest_ac₀
      = if s.balance < amount then
          ⟨db, some ⟨"ERROR", "Insufficient funds. Current balance: " ++ format_2f s.balance⟩,
           transfer_fcntl_calls (sizeof_CustomerAccount * i) (sizeof_CustomerAccount * j)⟩
        else if d.is_active = 0 then
          ⟨db, some ⟨"ERROR", "Destination account is inactive."⟩,
           transfer_fcntl_calls (sizeof_CustomerAccount * i) (sizeof_CustomerAccount * j)⟩
        else
          ⟨⟨(db.accounts.set i { s with balance := s.balance - amount }).set j
              { d with balance := d.balance + amount },
            log_transaction
              (log_transaction db.transactions src "TRANSFER_OUT" (-amount)
                (s.balance - amount) now_out)
              dest "TRANSFER_IN" amount (d.balance + amount) now_in⟩,
           some ⟨"SUCCESS", "Transfer successful. New balance: " ++ format_2f (s.balance - amount)⟩,
           transfer_fcntl_calls (sizeof_CustomerAccount * i) (sizeof_CustomerAccount * j)⟩ := by
  have hfs := find_located ⟨db.accounts, 0⟩ hs
  have hfd := find_located
    ⟨db.accounts, sizeof_CustomerAccount * i + sizeof_CustomerAccount⟩ hd
  have hj : j < (db.accounts.set i { s with balance := s.balance - amount }).length := by
    simpa using located_at_lt hd
  simp only [handle_fund_transfer, hne, if_false, ha, hfs, hfd, offset_ne_neg_one,
    lseek_set_offset, read_account_at hs.1, read_account_at hd.1,
    write_account_at (located_at_lt hs), write_account_at hj, transfer_fcntl_calls]

theorem map_account_id_set {accounts : List CustomerAccount} {i : Nat} {r : CustomerAccount}
    (h : accounts[i]? = some r) (r' : CustomerAccount) (hid : r'.account_id = r.account_id) :
    (accounts.set i r').map (fun x => x.account_id) = accounts.map (fun x => x.account_id) := by
  induction accounts generalizing i with
  | nil => simp
  | cons x rest ih =>
    cases i with
    | zero =>
      simp only [List.getElem?_cons_zero, Option.some.injEq] at h
      subst h
      simp [hid]
    | succ k =>
      have hk : rest[k]? = some r := by simpa using h
      simp only [List.set_cons_succ, List.map_cons, ih hk]

@[simp] theorem lseek_set_records (fd : AccountFd) (offset : Int) :
    (lseek_set fd offset).records = fd.records := by
  unfold lseek_set; split <;> rfl

@[simp] theorem read_account_records (fd : AccountFd) (buf : CustomerAccount) :
    (read_account fd buf).2.records = fd.records := by
  unfold read_account; split <;> rfl

@[simp] theorem find_records (fd : AccountFd) (id : Int) :
    (find_customer_record_offset fd id).2.records = fd.records := rfl

theorem find_fst (fd : AccountFd) (id : Int) :
    (find_customer_record_offset fd id).1 = (scan_accounts id fd.records 0).1 := rfl

/-! ## Login and lock requests -/

theorem login_customer_located {accounts : List CustomerAccount} {account_id : Int} {i : Nat}
    {s : CustomerAccount} (h : located_at accounts account_id i s) (pin : String)
    (account₀ : CustomerAccount) :
    login_customer accounts account_id pin account₀
      = (decide (s.access_pin = pin) && decide (s.is_active ≠ 0)) := by
  have hf := find_located ⟨accounts, 0⟩ h
  simp only [login_customer, hf, offset_ne_neg_one, if_false, lseek_set_offset,
    read_account_at h.1]

theorem find_fst_eq (fd fd' : AccountFd) (h : fd.records = fd'.records) (id : Int) :
    (find_customer_record_offset fd id).1 = (find_customer_record_offset fd' id).1 := by
  rw [find_fst, find_fst, h]

theorem lock_requests_transfer_fcntl_calls (offset_src offset_dest : Int) :
    lock_requests (transfer_fcntl_calls offset_src offset_dest)
      = [min offset_src offset_dest, max offset_src offset_dest] := by
  unfold transfer_fcntl_calls
  by_cases h : offset_src < offset_dest
  · simp [h, lock_requests, min_eq_left h.le, max_eq_right h.le]
  · simp [h, lock_requests, min_eq_right (not_lt.mp h), max_eq_left (not_lt.mp h)]

/-- The `fcntl` calls of a transfer: none, or those of the locking step at the
two offsets the scans return. -/
theorem handle_fund_transfer_fcntl (db : Database) (src : Int) (dest_line : Option Int)
    (amount_line : Option Double) (now_out now_in : String) (source_ac₀ dest_ac₀ : CustomerAccount) :
    (handle_fund_transfer db src dest_line amount_line now_out now_in source_ac₀ dest_ac₀).fcntl
      = match dest_line, amount_line with
        | some dest, some amount =>
          if src ≠ dest ∧ ¬ amount ≤ 0 ∧
              (find_customer_record_offset ⟨db.accounts, 0⟩ dest).1 ≠ -1 then
            transfer_fcntl_calls (find_customer_record_offset ⟨db.accounts, 0⟩ src).1
              (find_customer_record_offset ⟨db.accounts, 0⟩ dest).1
          else []
        | _, _ => [] := by
  cases dest_line with
  | none => rfl
  | some dest =>
    cases amount_line with
    | none => rfl
    | some amount =>
      have e : (find_customer_record_offset
          (find_customer_record_offset ⟨db.accounts, 0⟩ src).2 dest).1
          = (find_customer_record_offset ⟨db.accounts, 0⟩ dest).1 :=
        find_fst_eq _ _ rfl dest
      by_cases hne : src = dest
      · simp [handle_fund_transfer, hne]
      by_cases ha : amount ≤ 0
      · simp [handle_fund_transfer, hne, ha]
      by_cases hd : (find_customer_record_offset ⟨db.accounts, 0⟩ dest).1 = -1
      · simp [handle_fund_transfer, hne, ha, e, hd]
      · unfold handle_fund_transfer
        simp only [hne, ha, e, hd, if_false, apply_ite Outcome.fcntl, ite_self, ne_eq,
          not_false_eq_true, and_self, if_true, transfer_fcntl_calls]

/-! ## Interleavings of two lock sequences -/

theorem scan_accounts_ids {l₁ l₂ : List CustomerAccount}
    (h : l₁.map (fun r => r.account_id) = l₂.map (fun r => r.account_id)) (id : Int)
    (cur : Int) : scan_accounts id l₁ cur = scan_accounts id l₂ cur := by
  induction l₁ generalizing l₂ cur with
  | nil =>
    cases l₂ with
    | nil => rfl
    | cons y l₂ => simp at h
  | cons x l₁ ih =>
    cases l₂ with
    | nil => simp at h
    | cons y l₂ =>
      simp only [List.map_cons, List.cons.injEq] at h
      simp only [scan_accounts, h.1, ih h.2]

theorem find_fst_ids {l₁ l₂ : List CustomerAccount}
    (h : l₁.map (fun r => r.account_id) = l₂.map (fun r => r.account_id)) (id : Int) :
    (find_customer_record_offset ⟨l₁, 0⟩ id).1 = (find_customer_record_offset ⟨l₂, 0⟩ id).1 := by
  rw [find_fst, find_fst, scan_accounts_ids h]

theorem find_fst_nonneg (accounts : List CustomerAccount) (id : Int)
    (h : (find_customer_record_offset ⟨accounts, 0⟩ id).1 ≠ -1) :
    0 ≤ (find_customer_record_offset ⟨accounts, 0⟩ id).1 := by
  rcases located_at_or_absent accounts id with habs | ⟨i, r, hr⟩
  · exact absurd (by rw [find_absent ⟨accounts, 0⟩ habs]) h
  · rw [find_located ⟨accounts, 0⟩ hr]
    simp only [sizeof_CustomerAccount]; omega

theorem find_fst_injective (accounts : List CustomerAccount) {a b : Int} (hab : a ≠ b)
    (ha : (find_customer_record_offset ⟨accounts, 0⟩ a).1 ≠ -1)
    (hb : (find_customer_record_offset ⟨accounts, 0⟩ b).1 ≠ -1) :
    (find_customer_record_offset ⟨accounts, 0⟩ a).1
      ≠ (find_customer_record_offset ⟨accounts, 0⟩ b).1 := by
  rcases located_at_or_absent accounts a with habs | ⟨i, r, hr⟩
  · exact absurd (by rw [find_absent ⟨accounts, 0⟩ habs]) ha
  rcases located_at_or_absent accounts b with habs | ⟨j, t, ht⟩
  · exact absurd (by rw [find_absent ⟨accounts, 0⟩ habs]) hb
  rw [find_located ⟨accounts, 0⟩ hr, find_located ⟨accounts, 0⟩ ht]
  have hij := located_at_index_ne hr ht hab
  simp only [sizeof_CustomerAccount, ne_eq]
  omega

theorem held_after_take_succ (calls : List FcntlCall) (k : Nat) (hk : k < calls.length) :
    held_after (calls.take (k + 1)) = apply_call (held_after (calls.take k)) calls[k] := by
  unfold held_after
  rw [List.take_succ, List.foldl_append, List.getElem?_eq_getElem hk]
  rfl

theorem step_state_at {calls : List FcntlCall} {k : Nat} {others : List Int} {p : LockProcess}
    (h : (state_at calls k).step others = some p) :
    k < calls.length ∧ p = state_at calls (k + 1) := by
  by_cases hk : k < calls.length
  · refine ⟨hk, ?_⟩
    have hd : calls.drop k = calls[k] :: calls.drop (k + 1) := (List.getElem_cons_drop _ _ hk).symm
    simp only [LockProcess.step, state_at, hd] at h
    split_ifs at h
    simp only [Option.some.injEq] at h
    rw [← h, state_at, held_after_take_succ calls k hk]
  · have hd : calls.drop k = [] := List.drop_eq_nil_of_le (not_lt.mp hk)
    simp [LockProcess.step, state_at, hd] at h

/-- Every state of a run is given by how many calls each process has made. -/
theorem run_state_at {tp tq : List FcntlCall} {n : Nat} {s : TwoProcesses}
    (h : TwoProcesses.Run (TwoProcesses.start_with tp tq) n s) :
    ∃ kp kq, kp + kq = n ∧ kp ≤ tp.length ∧ kq ≤ tq.length ∧
      s = ⟨state_at tp kp, state_at tq kq⟩ := by
  induction h with
  | start => exact ⟨0, 0, rfl, Nat.zero_le _, Nat.zero_le _, by
      simp [TwoProcesses.start_with, state_at, held_after]⟩
  | next n s s' _ hstep ih =>
    obtain ⟨kp, kq, hn, hp, hq, rfl⟩ := ih
    cases hstep with
    | first p hp' =>
      obtain ⟨hlt, rfl⟩ := step_state_at hp'
      exact ⟨kp + 1, kq, by omega, hlt, hq, rfl⟩
    | second q hq' =>
      obtain ⟨hlt, rfl⟩ := step_state_at hq'
      exact ⟨kp, kq + 1, by omega, hp, hlt, rfl⟩

theorem mem_apply_call {held : List Int} {call : FcntlCall} {o : Int}
    (h : o ∈ apply_call held call) : o ∈ held ∨ (call = .setlkw_wrlck o ∧ 0 ≤ o) := by
  cases call with
  | setlkw_wrlck l =>
    simp only [apply_call] at h
    split_ifs at h with hl
    · exact Or.inl h
    · rcases List.mem_cons.1 h with rfl | h
      · exact Or.inr ⟨rfl, not_lt.mp hl⟩
      · exact Or.inl h
  | setlk_unlck l =>
    simp only [apply_call] at h
    exact Or.inl (List.mem_filter.1 h).1

theorem step_held {me p : LockProcess} {others : List Int} (h : me.step others = some p)
    {o : Int} (ho : o ∈ p.held) : o ∈ me.held ∨ o ∉ others := by
  unfold LockProcess.step at h
  split at h
  · cases h
  · rename_i call rest _
    split_ifs at h with hb
    simp only [Option.some.injEq] at h
    subst h
    rcases mem_apply_call ho with hm | ⟨rfl, hnn⟩
    · exact Or.inl hm
    · right
      intro hmem
      exact hb (by simp [blocked, hnn, hmem])

/-- Mutual exclusion: in no state of a run do both processes hold the lock of
the same record. -/
theorem run_exclusive {tp tq : List FcntlCall} {n : Nat} {s : TwoProcesses}
    (h : TwoProcesses.Run (TwoProcesses.start_with tp tq) n s) :
    ∀ o ∈ s.first.held, o ∉ s.second.held := by
  induction h with
  | start => simp [TwoProcesses.start_with]
  | next n s s' _ hstep ih =>
    cases hstep with
    | first p hp =>
      intro o ho
      rcases step_held hp ho with hm | hm
      · exact ih o hm
      · exact hm
    | second q hq =>
      intro o ho ho'
      rcases step_held hq ho' with hm | hm
      · exact ih o ho hm
      · exact hm ho

theorem transfer_fcntl_calls_length (x y : Int) : (transfer_fcntl_calls x y).length = 4 := by
  unfold transfer_fcntl_calls; split_ifs <;> rfl

theorem held_after_transfer_fcntl_calls (x y : Int) :
    held_after (transfer_fcntl_calls x y) = [] := by
  unfold transfer_fcntl_calls held_after
  by_cases hxy : x = y
  · subst hxy
    by_cases hx : x < 0 <;> simp [apply_call, hx]
  · have hyx : ¬ y = x := fun h => hxy h.symm
    by_cases hlt : x < y <;> by_cases hx : x < 0 <;> by_cases hy : y < 0 <;>
      simp [apply_call, hlt, hx, hy, hxy, hyx, List.filter_cons]

/-- Progress for two opposite transfers between two different records: in a
state where the processes hold no lock in common, both have finished or one of
them can make its next call. -/
theorem opposite_transfers_progress {x y : Int} (hxy : x ≠ y) (hx : 0 ≤ x) (hy : 0 ≤ y)
    {kp kq : Nat} (hp : kp ≤ 4) (hq : kq ≤ 4)
    (hex : ∀ o ∈ (state_at (transfer_fcntl_calls x y) kp).held,
      o ∉ (state_at (transfer_fcntl_calls y x) kq).held) :
    (kp = 4 ∧ kq = 4) ∨
    (∃ p, (state_at (transfer_fcntl_calls x y) kp).step
        (state_at (transfer_fcntl_calls y x) kq).held = some p) ∨
    (∃ q, (state_at (transfer_fcntl_calls y x) kq).step
        (state_at (transfer_fcntl_calls x y) kp).held = some q) := by
  have hyx : y ≠ x := hxy.symm
  have hx' : ¬ x < 0 := not_lt.mpr hx
  have hy' : ¬ y < 0 := not_lt.mpr hy
  rcases lt_or_gt_of_ne hxy with hlt | hgt
  · have hnlt : ¬ y < x := not_lt.mpr hlt.le
    simp only [transfer_fcntl_calls, hlt, hnlt, if_true, if_false, List.cons_append,
      List.nil_append] at hex ⊢
    interval_cases kp <;> interval_cases kq <;>
      simp [state_at, held_after, apply_call, LockProcess.step, blocked, hx, hy, hx', hy',
        hxy, hyx, List.filter_cons] at hex ⊢
  · have hnlt : ¬ x < y := not_lt.mpr (le_of_lt hgt)
    simp only [transfer_fcntl_calls, hgt, hnlt, if_true, if_false, List.cons_append,
      List.nil_append] at hex ⊢
    interval_cases kp <;> interval_cases kq <;>
      simp [state_at, held_after, apply_call, LockProcess.step, blocked, hx, hy, hx', hy',
        hxy, hyx, List.filter_cons] at hex ⊢

theorem state_at_length (calls : List FcntlCall) :
    state_at calls calls.length = ⟨[], held_after calls⟩ := by
  simp [state_at]

theorem state_at_todo_length (calls : List FcntlCall) (k : Nat) :
    (state_at calls k).todo.length = calls.length - k := by
  simp [state_at]

theorem step_alone {calls : List FcntlCall} {k : Nat} (hk : k < calls.length) :
    ∃ p, (state_at calls k).step [] = some p := by
  have hd : calls.drop k = calls[k] :: calls.drop (k + 1) := (List.getElem_cons_drop _ _ hk).symm
  have hb : blocked calls[k] [] = false := by
    cases calls[k] <;> simp [blocked]
  exact ⟨_, by simp only [LockProcess.step, state_at, hd, hb]; rfl⟩

/-- The calls of a transfer are none or those of the locking step, the
destination then being another account than the source and in the store. -/
theorem handle_fund_transfer_fcntl_cases (db : Database) (src dest : Int)
    (amount_line : Option Double) (now_out now_in : String) (source_ac₀ dest_ac₀ : CustomerAccount) :
    (handle_fund_transfer db src (some dest) amount_line now_out now_in source_ac₀
        dest_ac₀).fcntl = [] ∨
    (src ≠ dest ∧ (find_customer_record_offset ⟨db.accounts, 0⟩ dest).1 ≠ -1 ∧
      (handle_fund_transfer db src (some dest) amount_line now_out now_in source_ac₀
        dest_ac₀).fcntl
        = transfer_fcntl_calls (find_customer_record_offset ⟨db.accounts, 0⟩ src).1
            (find_customer_record_offset ⟨db.accounts, 0⟩ dest).1) := by
  rw [handle_fund_transfer_fcntl]
  cases amount_line with
  | none => left; rfl
  | some amount =>
    simp only
    split_ifs with h
    · right; exact ⟨h.1, h.2.2, rfl⟩
    · left; rfl

theorem held_after_nil_of_cases {calls : List FcntlCall}
    (h : calls = [] ∨ ∃ x y, calls = transfer_fcntl_calls x y) : held_after calls = [] := by
  rcases h with rfl | ⟨x, y, rfl⟩
  · rfl
  · exact held_after_transfer_fcntl_calls x y

/-- When one of the two processes makes no call, the other one is never kept
waiting. -/
theorem progress_alone {calls : List FcntlCall} {k : Nat} (hk : k ≤ calls.length)
    (hc : calls = [] ∨ ∃ x y, calls = transfer_fcntl_calls x y) :
    state_at calls k = ⟨[], []⟩ ∨ ∃ p, (state_at calls k).step [] = some p := by
  rcases Nat.lt_or_ge k calls.length with hlt | hge
  · exact Or.inr (step_alone hlt)
  · left
    have : k = calls.length := le_antisymm hk hge
    rw [this, state_at_length, held_after_nil_of_cases hc]

/-! ## Claims about the ledger operations -/

/-- C1 fails on the code, on stores with distinct ids. The checks
`amount <= 0` and `balance < amount` are both false for a NaN, so a transfer
of the amount "nan" from account 100 to account 200 is carried out and leaves
both balances NaN. And a transfer of 1.00 from account 100 (750.00) to
account 200 with balance 1e16 debits 1.00 and credits nothing, because
1e16 + 1 is rounded to 1e16: the sum of the balances drops from
10000000000000750 to 10000000000000749. -/
theorem transfer_total_not_conserved :
    (scenario_db.accounts.map (fun r => r.account_id)).Nodup ∧
    (rounding_db.accounts.map (fun r => r.account_id)).Nodup ∧
    handle_fund_transfer scenario_db 100 (some 200) (some (.nan false)) "t1" "t2" stack_junk
        stack_junk
      = ⟨⟨[⟨100, "Asha", "1234", .nan false, 1⟩, ⟨200, "Bram", "4321", .nan false, 1⟩],
          [⟨100, "t1", "TRANSFER_OUT: -nan", .nan false⟩,
           ⟨200, "t2", "TRANSFER_IN: +nan", .nan false⟩]⟩,
         some ⟨"SUCCESS", "Transfer successful. New balance: nan"⟩,
         [.setlkw_wrlck 0, .setlkw_wrlck 96, .setlk_unlck 0, .setlk_unlck 96]⟩ ∧
    (handle_fund_transfer rounding_db 100 (some 200) (some 1) "t1" "t2" stack_junk
        stack_junk).db.accounts
      = [⟨100, "Asha", "1234", 749, 1⟩, ⟨200, "Bram", "4321", 10000000000000000, 1⟩] ∧
    total_balance rounding_db.accounts = 10000000000000750 ∧
    total_balance
        (handle_fund_transfer rounding_db 100 (some 200) (some 1) "t1" "t2" stack_junk
          stack_junk).db.accounts = 10000000000000749 := by
  have h : (handle_fund_transfer rounding_db 100 (some 200) (some 1) "t1" "t2" stack_junk
        stack_junk).db.accounts
      = [⟨100, "Asha", "1234", 749, 1⟩, ⟨200, "Bram", "4321", 10000000000000000, 1⟩] := by
    decide
  have e1 : (750 : Double) = .finite false 375 1 := by decide
  have e2 : (749 : Double) = .finite false 749 0 := by decide
  have e3 : (10000000000000000 : Double) = .finite false 152587890625 16 := by decide
  refine ⟨by decide, by decide, by decide, h, ?_, ?_⟩
  · simp only [rounding_db, total_balance, List.map_cons, List.map_nil, List.sum_cons,
      List.sum_nil, e1, e3, Double.toRat]
    norm_num
  · rw [h]
    simp only [total_balance, List.map_cons, List.map_nil, List.sum_cons, List.sum_nil, e2, e3,
      Double.toRat]
    norm_num

/-- C2, as stated, fails: a transfer of 1.00 from account 100 (750.00) to
account 200 with balance 1e16, which is active, leaves the balance of account
200 at 1e16 and not at 1e16 + 1, which is no double. -/
theorem transfer_credit_rounded_counterexample :
    located_at rounding_db.accounts 100 0 ⟨100, "Asha", "1234", 750, 1⟩ ∧
    located_at rounding_db.accounts 200 1 ⟨200, "Bram", "4321", 10000000000000000, 1⟩ ∧
    (0 : Double) < 1 ∧ (1 : Double) ≤ 750 ∧
    (handle_fund_transfer rounding_db 100 (some 200) (some 1) "t1" "t2" stack_junk
        stack_junk).db.accounts[1]?
      = some ⟨200, "Bram", "4321", 10000000000000000, 1⟩ ∧
    (10000000000000000 : Double).toRat + (1 : Double).toRat
      ≠ (10000000000000000 : Double).toRat := by
  have e1 : (1 : Double) = .finite false 1 0 := by decide
  have e3 : (10000000000000000 : Double) = .finite false 152587890625 16 := by decide
  refine ⟨by decide, by decide, by decide, by decide, by decide, ?_⟩
  simp only [e1, e3, Double.toRat]
  norm_num

/-- C2, amended. Successful transfer: for distinct ids whose first records are
`s` (at index `i`) and `d` (at index `j`), with `d` active and
`0 < amount <= s.balance`, `handle_fund_transfer` replaces `s` by `s` with
the balance `s.balance - amount` and `d` by `d` with the balance
`d.balance + amount`, difference and sum being those of doubles, rounded to
the nearest double, and exact whenever the exact difference, respectively
sum, is a number of the format; it leaves every other record as it was,
appends exactly the `TRANSFER_OUT` entry of the source and the `TRANSFER_IN`
entry of the destination, each with the new balance, and replies success. -/
theorem transfer_success_postcondition (db : Database) (src dest : Int) (i j : Nat)
    (s d : CustomerAccount) (amount : Double) (now_out now_in : String)
    (source_ac₀ dest_ac₀ : CustomerAccount)
    (hs : located_at db.accounts src i s) (hd : located_at db.accounts dest j d)
    (hne : src ≠ dest) (hactive : d.is_active ≠ 0) (hpos : 0 < amount)
    (hfunds : amount ≤ s.balance) :
    (handle_fund_transfer db src (some dest) (some amount) now_out now_in source_ac₀
        dest_ac₀).db.accounts
      = (db.accounts.set i { s with balance := Double.sub s.balance amount }).set j
          { d with balance := Double.add d.balance amount } ∧
    (handle_fund_transfer db src (some dest) (some amount) now_out now_in source_ac₀
        dest_ac₀).db.accounts[i]? = some { s with balance := Double.sub s.balance amount } ∧
    (handle_fund_transfer db src (some dest) (some amount) now_out now_in source_ac₀
        dest_ac₀).db.accounts[j]? = some { d with balance := Double.add d.balance amount } ∧
    (∀ k, k ≠ i → k ≠ j →
      (handle_fund_transfer db src (some dest) (some amount) now_out now_in source_ac₀
        dest_ac₀).db.accounts[k]? = db.accounts[k]?) ∧
    (handle_fund_transfer db src (some dest) (some amount) now_out now_in source_ac₀
        dest_ac₀).db.transactions
      = db.transactions ++
          [⟨src, now_out, ("TRANSFER_OUT" ++ ": " ++ format_plus_2f (-amount)).take 99,
              Double.sub s.balance amount⟩,
           ⟨dest, now_in, ("TRANSFER_IN" ++ ": " ++ format_plus_2f amount).take 99,
              Double.add d.balance amount⟩] ∧
    (handle_fund_transfer db src (some dest) (some amount) now_out now_in source_ac₀
        dest_ac₀).response
      = some ⟨"SUCCESS",
          "Transfer successful. New balance: " ++ format_2f (Double.sub s.balance amount)⟩ ∧
    (∀ z : Double, s.balance.is_number = true → amount.is_number = true →
      z.is_number = true → z.toRat = s.balance.toRat - amount.toRat →
      (Double.sub s.balance amount).is_number = true ∧
      (Double.sub s.balance amount).toRat = s.balance.toRat - amount.toRat) ∧
    (∀ z : Double, d.balance.is_number = true → amount.is_number = true →
      z.is_number = true → z.toRat = d.balance.toRat + amount.toRat →
      (Double.add d.balance amount).is_number = true ∧
      (Double.add d.balance amount).toRat = d.balance.toRat + amount.toRat) := by
  have hij := located_at_index_ne hs hd hne
  have hi := located_at_lt hs
  have hj := located_at_lt hd
  rw [handle_fund_transfer_located hs hd hne (Double.not_le_of_lt hpos),
    if_neg (Double.not_lt_of_le hfunds), if_neg hactive]
  refine ⟨rfl, ?_, ?_, ?_, ?_, rfl,
    fun z h1 h2 h3 h4 => Double.sub_exact _ _ z h1 h2 h3 h4,
    fun z h1 h2 h3 h4 => Double.add_exact _ _ z h1 h2 h3 h4⟩
  · rw [List.getElem?_set_ne (Ne.symm hij), List.getElem?_set_self hi]
    rfl
  · exact List.getElem?_set_self (by simpa using hj)
  · intro k hki hkj
    rw [List.getElem?_set_ne (Ne.symm hkj), List.getElem?_set_ne (Ne.symm hki)]
  · simp only [log_transaction, List.append_assoc, List.singleton_append]
    rfl

/-- C2, amended, at the scenario of the specification: 300.00 from account 100
(750.00) to account 200 (0.00) gives 450.00 and 300.00 and two log entries;
450 and 300 are numbers of the format, so difference and sum are exact. -/
theorem transfer_success_postcondition_witness :
    (handle_fund_transfer scenario_db 100 (some 200) (some 300) "t1" "t2" stack_junk
        stack_junk).db.accounts
      = [⟨100, "Asha", "1234", 450, 1⟩, ⟨200, "Bram", "4321", 300, 1⟩] ∧
    (handle_fund_transfer scenario_db 100 (some 200) (some 300) "t1" "t2" stack_junk
        stack_junk).db.transactions
      = [⟨100, "t1", "TRANSFER_OUT: -300.00", 450⟩, ⟨200, "t2", "TRANSFER_IN: +300.00", 300⟩] ∧
    (Double.sub 750 300).toRat = (750 : Double).toRat - (300 : Double).toRat ∧
    (Double.add 0 300).toRat = (0 : Double).toRat + (300 : Double).toRat := by
  have h := transfer_success_postcondition scenario_db 100 200 0 1 account_100 account_200 300
      "t1" "t2" stack_junk stack_junk (by decide) (by decide) (by decide) (by decide)
      (by decide) (by decide)
  have e0 : (0 : Double) = .finite false 0 0 := by decide
  have e1 : (300 : Double) = .finite false 75 2 := by decide
  have e2 : (450 : Double) = .finite false 225 1 := by decide
  have e3 : (750 : Double) = .finite false 375 1 := by decide
  refine ⟨h.1.trans (by decide), h.2.2.2.2.1.trans (by decide),
    (h.2.2.2.2.2.2.1 450 (by decide) (by decide) (by decide) ?_).2,
    (h.2.2.2.2.2.2.2 300 (by decide) (by decide) (by decide) ?_).2⟩
  · show (450 : Double).toRat = (750 : Double).toRat - (300 : Double).toRat
    simp only [e1, e2, e3, Double.toRat]
    norm_num
  · show (300 : Double).toRat = (0 : Double).toRat + (300 : Double).toRat
    simp only [e0, e1, Double.toRat]
    norm_num

/-- C3. Failed transfer is atomic: when the first records of source and
destination are `s` and `d` and `s.balance < amount` or `d` is inactive,
`handle_fund_transfer` replies with an error and leaves the account file and
the log as they were. For a request that passed validation (distinct ids,
positive amount) the error is "Insufficient funds" when `s.balance < amount`,
and "Destination account is inactive" when the funds suffice and `d` is
inactive; its `fcntl` calls end with the two unlocks. -/
theorem failed_transfer_is_atomic (db : Database) (src dest : Int) (i j : Nat)
    (s d : CustomerAccount) (amount : Double) (now_out now_in : String)
    (source_ac₀ dest_ac₀ : CustomerAccount)
    (hs : located_at db.accounts src i s) (hd : located_at db.accounts dest j d)
    (hfail : s.balance < amount ∨ d.is_active = 0) :
    (handle_fund_transfer db src (some dest) (some amount) now_out now_in source_ac₀
        dest_ac₀).db = db ∧
    (∃ message,
      (handle_fund_transfer db src (some dest) (some amount) now_out now_in source_ac₀
        dest_ac₀).response = some ⟨"ERROR", message⟩) ∧
    (src ≠ dest → 0 < amount → s.balance < amount →
      handle_fund_transfer db src (some dest) (some amount) now_out now_in source_ac₀ dest_ac₀
        = ⟨db, some ⟨"ERROR", "Insufficient funds. Current balance: " ++ format_2f s.balance⟩,
           transfer_fcntl_calls (sizeof_CustomerAccount * i) (sizeof_CustomerAccount * j)⟩) ∧
    (src ≠ dest → 0 < amount → ¬ s.balance < amount → d.is_active = 0 →
      handle_fund_transfer db src (some dest) (some amount) now_out now_in source_ac₀ dest_ac₀
        = ⟨db, some ⟨"ERROR", "Destination account is inactive."⟩,
           transfer_fcntl_calls (sizeof_CustomerAccount * i) (sizeof_CustomerAccount * j)⟩) := by
  have key : src ≠ dest → ¬ amount ≤ 0 →
      handle_fund_transfer db src (some dest) (some amount) now_out now_in source_ac₀ dest_ac₀
        = if s.balance < amount then
            ⟨db, some ⟨"ERROR", "Insufficient funds. Current balance: " ++ format_2f s.balance⟩,
             transfer_fcntl_calls (sizeof_CustomerAccount * i) (sizeof_CustomerAccount * j)⟩
          else
            ⟨db, some ⟨"ERROR", "Destination account is inactive."⟩,
             transfer_fcntl_calls (sizeof_CustomerAccount * i) (sizeof_CustomerAccount * j)⟩ := by
    intro hne hpos
    rw [handle_fund_transfer_located hs hd hne hpos]
    by_cases hb : s.balance < amount
    · simp [hb]
    · have hact : d.is_active = 0 := hfail.resolve_left hb
      simp [hb, hact]
  refine ⟨?_, ?_, ?_, ?_⟩
  · by_cases hne : src = dest
    · simp [handle_fund_transfer, hne]
    by_cases ha : amount ≤ 0
    · simp [handle_fund_transfer, hne, ha]
    rw [key hne ha]
    split <;> rfl
  · by_cases hne : src = dest
    · exact ⟨"Cannot transfer to the same account.", by simp [handle_fund_transfer, hne]⟩
    by_cases ha : amount ≤ 0
    · exact ⟨"Invalid transfer amount.", by simp [handle_fund_transfer, hne, ha]⟩
    rw [key hne ha]
    split
    · exact ⟨_, rfl⟩
    · exact ⟨_, rfl⟩
  · intro hne hpos hb
    rw [key hne (Double.not_le_of_lt hpos), if_pos hb]
  · intro hne hpos hb _
    rw [key hne (Double.not_le_of_lt hpos), if_neg hb]

/-- C3 at two stores: account 100 (750.00) cannot send 1000.00 to account 200,
and cannot send 300.00 to an inactive account 200. -/
theorem failed_transfer_is_atomic_witness :
    (handle_fund_transfer scenario_db 100 (some 200) (some 1000) "t1" "t2" stack_junk
        stack_junk).db = scenario_db ∧
    handle_fund_transfer ⟨[account_100, { account_200 with is_active := 0 }], []⟩ 100 (some 200)
        (some 300) "t1" "t2" stack_junk stack_junk
      = ⟨⟨[account_100, { account_200 with is_active := 0 }], []⟩,
         some ⟨"ERROR", "Destination account is inactive."⟩,
         transfer_fcntl_calls (sizeof_CustomerAccount * (0 : Nat))
           (sizeof_CustomerAccount * (1 : Nat))⟩ :=
  ⟨(failed_transfer_is_atomic scenario_db 100 200 0 1 account_100 account_200 1000 "t1" "t2"
      stack_junk stack_junk (by decide) (by decide)
      (Or.inl (by decide))).1,
   (failed_transfer_is_atomic ⟨[account_100, { account_200 with is_active := 0 }], []⟩ 100 200
      0 1 account_100 { account_200 with is_active := 0 } 300 "t1" "t2" stack_junk stack_junk
      (by decide) (by decide) (Or.inr rfl)).2.2.2 (by decide) (by decide)
      (by decide) rfl⟩

/-- C4. Withdraw never overdraws: for an existing account (first record `s`
at index `i`) and an amount `a` with `0 < a` and `s.balance < a`,
`handle_withdrawal` replies "Insufficient funds", and leaves the account file
(so the record too) and the log as they were; it only locks and unlocks the
record. -/
theorem withdrawal_never_overdraws (db : Database) (account_id : Int) (i : Nat)
    (s : CustomerAccount) (a : Double) (now : String) (account₀ : CustomerAccount)
    (hs : located_at db.accounts account_id i s) (hpos : 0 < a) (hover : s.balance < a) :
    handle_withdrawal db account_id (some a) now account₀
      = ⟨db, some ⟨"ERROR", "Insufficient funds. Current balance: " ++ format_2f s.balance⟩,
         [.setlkw_wrlck (sizeof_CustomerAccount * i),
          .setlk_unlck (sizeof_CustomerAccount * i)]⟩ := by
  rw [handle_withdrawal_located hs (Double.not_le_of_lt hpos), if_pos hover]

/-- C4 at account 100 with balance 750.00 and amount 750.01. -/
theorem withdrawal_never_overdraws_witness :
    handle_withdrawal scenario_db 100 (some amount_750_01) "t1" stack_junk
      = ⟨scenario_db,
         some ⟨"ERROR", "Insufficient funds. Current balance: " ++ format_2f account_100.balance⟩,
         [.setlkw_wrlck (sizeof_CustomerAccount * (0 : Nat)),
          .setlk_unlck (sizeof_CustomerAccount * (0 : Nat))]⟩ :=
  withdrawal_never_overdraws scenario_db 100 0 account_100 amount_750_01 "t1" stack_junk
    (by decide) (by decide) (by decide)

/-- C5, as stated, fails: a deposit of 1.00 on an account with balance 1e16
is accepted and leaves the balance at 1e16, since 1e16 + 1 is no double and
is rounded to 1e16. -/
theorem deposit_rounded_counterexample :
    (0 : Double) < 1 ∧
    handle_deposit ⟨[⟨100, "Asha", "1234", 10000000000000000, 1⟩], []⟩ 100 (some 1) "t1"
        stack_junk
      = ⟨⟨[⟨100, "Asha", "1234", 10000000000000000, 1⟩],
          [⟨100, "t1", "DEPOSIT: +1.00", 10000000000000000⟩]⟩,
         some ⟨"SUCCESS", "Deposit successful. New balance: 10000000000000000.00"⟩,
         [.setlkw_wrlck 0, .setlk_unlck 0]⟩ ∧
    (10000000000000000 : Double).toRat + (1 : Double).toRat
      ≠ (10000000000000000 : Double).toRat := by
  have e1 : (1 : Double) = .finite false 1 0 := by decide
  have e3 : (10000000000000000 : Double) = .finite false 152587890625 16 := by decide
  refine ⟨by decide, by decide, ?_⟩
  simp only [e1, e3, Double.toRat]
  norm_num

/-- C5, amended. Single-account ledger postcondition: for an existing account
(first record `s` at index `i`) and `0 < a`, `handle_deposit` replaces `s` by
`s` with the balance `s.balance + a`; for `0 < a <= s.balance`,
`handle_withdrawal` replaces `s` by `s` with the balance `s.balance - a`
(`0` when `a = s.balance` is finite). Sum and difference are those of
doubles, rounded to the nearest double, and exact whenever the exact sum,
respectively difference, is a number of the format. The id, owner name, PIN
and active flag of the record and all other records stay as they were. -/
theorem ledger_postcondition (db : Database) (account_id : Int) (i : Nat)
    (s : CustomerAccount) (a : Double) (now : String) (account₀ : CustomerAccount)
    (hs : located_at db.accounts account_id i s) (hpos : 0 < a) :
    ((handle_deposit db account_id (some a) now account₀).db.accounts
        = db.accounts.set i ⟨s.account_id, s.owner_name, s.access_pin,
            Double.add s.balance a, s.is_active⟩ ∧
      (handle_deposit db account_id (some a) now account₀).db.accounts[i]?
        = some ⟨s.account_id, s.owner_name, s.access_pin, Double.add s.balance a,
            s.is_active⟩ ∧
      ∀ k, k ≠ i →
        (handle_deposit db account_id (some a) now account₀).db.accounts[k]? = db.accounts[k]?) ∧
    (a ≤ s.balance →
      (handle_withdrawal db account_id (some a) now account₀).db.accounts
        = db.accounts.set i ⟨s.account_id, s.owner_name, s.access_pin,
            Double.sub s.balance a, s.is_active⟩ ∧
      (handle_withdrawal db account_id (some a) now account₀).db.accounts[i]?
        = some ⟨s.account_id, s.owner_name, s.access_pin, Double.sub s.balance a,
            s.is_active⟩ ∧
      (a = s.balance → a.is_finite = true →
        (handle_withdrawal db account_id (some a) now account₀).db.accounts[i]?
          = some ⟨s.account_id, s.owner_name, s.access_pin, 0, s.is_active⟩) ∧
      ∀ k, k ≠ i →
        (handle_withdrawal db account_id (some a) now account₀).db.accounts[k]?
          = db.accounts[k]?) ∧
    (∀ z : Double, s.balance.is_number = true → a.is_number = true → z.is_number = true →
      z.toRat = s.balance.toRat + a.toRat →
      (Double.add s.balance a).is_number = true ∧
      (Double.add s.balance a).toRat = s.balance.toRat + a.toRat) ∧
    (∀ z : Double, s.balance.is_number = true → a.is_number = true → z.is_number = true →
      z.toRat = s.balance.toRat - a.toRat →
      (Double.sub s.balance a).is_number = true ∧
      (Double.sub s.balance a).toRat = s.balance.toRat - a.toRat) := by
  have hi := located_at_lt hs
  refine ⟨?_, ?_, fun z h1 h2 h3 h4 => Double.add_exact _ _ z h1 h2 h3 h4,
    fun z h1 h2 h3 h4 => Double.sub_exact _ _ z h1 h2 h3 h4⟩
  · rw [handle_deposit_located hs (Double.not_le_of_lt hpos)]
    refine ⟨rfl, List.getElem?_set_self hi, ?_⟩
    intro k hk
    exact List.getElem?_set_ne (Ne.symm hk)
  · intro hle
    rw [handle_withdrawal_located hs (Double.not_le_of_lt hpos),
      if_neg (Double.not_lt_of_le hle)]
    refine ⟨rfl, List.getElem?_set_self hi, ?_, ?_⟩
    · intro he hfin
      have : s.balance - a = 0 := by
        rw [← he]
        cases a with
        | finite negative mantissa exponent =>
          exact Double.sub_self_finite negative mantissa exponent
        | infinite negative => cases hfin
        | nan negative => cases hfin
      simp only [List.getElem?_set_self hi, this]
    · intro k hk
      exact List.getElem?_set_ne (Ne.symm hk)

/-- C5, amended, at the scenario of the specification: a deposit of 250.00 on
account 100 with balance 500.00 gives 750.00, the exact sum, and a withdrawal
of all 750.00 from account 100 of the two-account store gives 0. -/
theorem ledger_postcondition_witness :
    (handle_deposit ⟨[{ account_100 with balance := 500 }], []⟩ 100 (some 250) "t1"
        stack_junk).db.accounts = [account_100] ∧
    (handle_withdrawal scenario_db 100 (some 750) "t1" stack_junk).db.accounts
      = [{ account_100 with balance := 0 }, account_200] ∧
    (Double.add 500 250).toRat = (500 : Double).toRat + (250 : Double).toRat := by
  have h := ledger_postcondition ⟨[{ account_100 with balance := 500 }], []⟩ 100 0
      { account_100 with balance := 500 } 250 "t1" stack_junk (by decide) (by decide)
  have e1 : (250 : Double) = .finite false 125 1 := by decide
  have e2 : (500 : Double) = .finite false 125 2 := by decide
  have e3 : (750 : Double) = .finite false 375 1 := by decide
  refine ⟨h.1.1.trans (by decide),
    ((ledger_postcondition scenario_db 100 0 account_100 750 "t1" stack_junk
      (by decide) (by decide)).2.1 (by decide)).1.trans (by decide),
    (h.2.2.1 750 (by decide) (by decide) (by decide) ?_).2⟩
  show (750 : Double).toRat = (500 : Double).toRat + (250 : Double).toRat
  simp only [e1, e2, e3, Double.toRat]
  norm_num

/-- C6 fails on the code: `atof` turns the line "nan" into a NaN, for which
`amount <= 0` and `balance < amount` are both false. On the store with
accounts 100 (750.00) and 200 (0.00), whose balances are `>= 0`, a withdrawal
of that amount from account 100 is carried out and leaves its balance NaN,
which is not `>= 0`, and so does a transfer to account 200, which makes both
balances NaN. With a NaN balance the funds check no longer refuses
anything: a withdrawal of 1000000.00 is then answered with success. -/
theorem nan_amount_breaks_nonnegative_balances :
    (∀ r ∈ scenario_db.accounts, (0 : Double) ≤ r.balance) ∧
    handle_withdrawal scenario_db 100 (some (.nan false)) "t1" stack_junk
      = ⟨⟨[⟨100, "Asha", "1234", .nan false, 1⟩, account_200],
          [⟨100, "t1", "WITHDRAWAL: -nan", .nan false⟩]⟩,
         some ⟨"SUCCESS", "Withdrawal successful. New balance: nan"⟩,
         [.setlkw_wrlck 0, .setlk_unlck 0]⟩ ∧
    ¬ (0 : Double) ≤ .nan false ∧
    (handle_fund_transfer scenario_db 100 (some 200) (some (.nan false)) "t1" "t2" stack_junk
        stack_junk).db.accounts
      = [⟨100, "Asha", "1234", .nan false, 1⟩, ⟨200, "Bram", "4321", .nan false, 1⟩] ∧
    (handle_withdrawal
        (handle_withdrawal scenario_db 100 (some (.nan false)) "t1" stack_junk).db 100
        (some 1000000) "t2" stack_junk).response
      = some ⟨"SUCCESS", "Withdrawal successful. New balance: nan"⟩ := by
  decide

/-- C8 fails on the code: `handle_deposit` and `handle_withdrawal` do not look
at the active flag. On the store whose only account, 100 with balance 500.00,
is inactive, a deposit of 250.00 is answered with success and leaves the
balance at 750.00, and a withdrawal of 200.00 is answered with success and
leaves it at 300.00; `login_customer` and a transfer to that account do
refuse it. -/
theorem inactive_deposit_counterexample :
    inactive_db.accounts = [⟨100, "Asha", "1234", 500, 0⟩] ∧
    handle_deposit inactive_db 100 (some 250) "t1" stack_junk
      = ⟨⟨[⟨100, "Asha", "1234", 750, 0⟩], [⟨100, "t1", "DEPOSIT: +250.00", 750⟩]⟩,
         some ⟨"SUCCESS", "Deposit successful. New balance: 750.00"⟩,
         [.setlkw_wrlck 0, .setlk_unlck 0]⟩ ∧
    handle_withdrawal inactive_db 100 (some 200) "t1" stack_junk
      = ⟨⟨[⟨100, "Asha", "1234", 300, 0⟩], [⟨100, "t1", "WITHDRAWAL: -200.00", 300⟩]⟩,
         some ⟨"SUCCESS", "Withdrawal successful. New balance: 300.00"⟩,
         [.setlkw_wrlck 0, .setlk_unlck 0]⟩ ∧
    login_customer inactive_db.accounts 100 "1234" stack_junk = false ∧
    handle_fund_transfer
        ⟨[⟨200, "Bram", "4321", 300, 1⟩, ⟨100, "Asha", "1234", 500, 0⟩], []⟩ 200 (some 100)
        (some 50) "t1" "t2" stack_junk stack_junk
      = ⟨⟨[⟨200, "Bram", "4321", 300, 1⟩, ⟨100, "Asha", "1234", 500, 0⟩], []⟩,
         some ⟨"ERROR", "Destination account is inactive."⟩,
         [.setlkw_wrlck 0, .setlkw_wrlck 96, .setlk_unlck 0, .setlk_unlck 96]⟩ := by
  decide

/-- C7. Invalid input is rejected without effect: for every amount `≤ 0`,
`handle_deposit` and `handle_withdrawal` on an existing account reply with
their invalid-amount error and `handle_fund_transfer` replies with an
input error, which is its invalid-amount error unless the destination is the
source itself; whenever the destination id equals the source id
`handle_fund_transfer` replies with the same-account error, whatever the
amount. In all these cases the account file and the log stay as they were
and no lock is requested. -/
theorem invalid_input_rejected_without_effect (db : Database) (account_id : Int) (i : Nat)
    (s : CustomerAccount) (amount : Double) (now now_in : String)
    (account₀ dest_ac₀ : CustomerAccount) (hs : located_at db.accounts account_id i s) :
    (amount ≤ 0 →
      handle_deposit db account_id (some amount) now account₀
        = ⟨db, some ⟨"ERROR", "Invalid deposit amount."⟩, []⟩ ∧
      handle_withdrawal db account_id (some amount) now account₀
        = ⟨db, some ⟨"ERROR", "Invalid withdrawal amount."⟩, []⟩ ∧
      ∀ dest,
        handle_fund_transfer db account_id (some dest) (some amount) now now_in account₀ dest_ac₀
          = ⟨db,
             some ⟨"ERROR",
               if dest = account_id then "Cannot transfer to the same account."
               else "Invalid transfer amount."⟩,
             []⟩) ∧
    handle_fund_transfer db account_id (some account_id) (some amount) now now_in account₀
        dest_ac₀
      = ⟨db, some ⟨"ERROR", "Cannot transfer to the same account."⟩, []⟩ := by
  have hf := find_located ⟨db.accounts, 0⟩ hs
  refine ⟨fun ha => ⟨?_, ?_, ?_⟩, ?_⟩
  · simp [handle_deposit, hf, offset_ne_neg_one, ha]
  · simp [handle_withdrawal, hf, offset_ne_neg_one, ha]
  · intro dest
    by_cases hne : dest = account_id
    · simp [handle_fund_transfer, hne]
    · simp [handle_fund_transfer, hne, Ne.symm hne, ha]
  · simp [handle_fund_transfer]

/-- C7 at account 100 with amount -5: a deposit, a transfer to account 200 and
a transfer to account 100 itself. -/
theorem invalid_input_rejected_without_effect_witness :
    handle_deposit scenario_db 100 (some (-5)) "t1" stack_junk
      = ⟨scenario_db, some ⟨"ERROR", "Invalid deposit amount."⟩, []⟩ ∧
    handle_fund_transfer scenario_db 100 (some 200) (some (-5)) "t1" "t2" stack_junk stack_junk
      = ⟨scenario_db, some ⟨"ERROR", "Invalid transfer amount."⟩, []⟩ ∧
    handle_fund_transfer scenario_db 100 (some 100) (some (-5)) "t1" "t2" stack_junk stack_junk
      = ⟨scenario_db, some ⟨"ERROR", "Cannot transfer to the same account."⟩, []⟩ := by
  have h := invalid_input_rejected_without_effect scenario_db 100 0 account_100 (-5) "t1" "t2"
    stack_junk stack_junk (by decide)
  have h1 := h.1 (by decide)
  refine ⟨h1.1, ?_, h.2⟩
  have h2 := h1.2.2 200
  simpa using h2

/-- C9. Ascending lock order: a transfer that gets as far as locking (distinct
ids, positive amount, destination found) requests its first record lock at
the smaller and its second at the larger of the two offsets, so a transfer
from A to B and a transfer from B to A request the two locks in the same
order; and in no execution at all is a lock requested before one at a lower
offset. -/
theorem transfer_locks_ascending (db : Database) (a b : Int) (amount amount' : Double)
    (now_out now_in : String) (source_ac₀ dest_ac₀ : CustomerAccount)
    (hne : a ≠ b) (hpos : 0 < amount) (hpos' : 0 < amount')
    (hb : (find_customer_record_offset ⟨db.accounts, 0⟩ b).1 ≠ -1) :
    lock_requests
        (handle_fund_transfer db a (some b) (some amount) now_out now_in source_ac₀
          dest_ac₀).fcntl
      = [min (find_customer_record_offset ⟨db.accounts, 0⟩ a).1
            (find_customer_record_offset ⟨db.accounts, 0⟩ b).1,
         max (find_customer_record_offset ⟨db.accounts, 0⟩ a).1
            (find_customer_record_offset ⟨db.accounts, 0⟩ b).1] ∧
    ((find_customer_record_offset ⟨db.accounts, 0⟩ a).1 ≠ -1 →
      lock_requests
          (handle_fund_transfer db b (some a) (some amount') now_out now_in source_ac₀
            dest_ac₀).fcntl
        = lock_requests
          (handle_fund_transfer db a (some b) (some amount) now_out now_in source_ac₀
            dest_ac₀).fcntl) ∧
    (∀ (src : Int) (dest_line : Option Int) (amount_line : Option Double),
      (lock_requests
        (handle_fund_transfer db src dest_line amount_line now_out now_in source_ac₀
          dest_ac₀).fcntl).Pairwise (· ≤ ·)) := by
  refine ⟨?_, ?_, ?_⟩
  · rw [handle_fund_transfer_fcntl]
    simp only [ne_eq, hne, not_false_eq_true, Double.not_le_of_lt hpos, hb, and_self, if_true,
      lock_requests_transfer_fcntl_calls]
  · intro ha
    rw [handle_fund_transfer_fcntl, handle_fund_transfer_fcntl]
    simp only [ne_eq, hne, Ne.symm hne, not_false_eq_true, Double.not_le_of_lt hpos,
      Double.not_le_of_lt hpos', ha, hb, and_self, if_true,
      lock_requests_transfer_fcntl_calls]
    rw [min_comm, max_comm]
  · intro src dest_line amount_line
    rw [handle_fund_transfer_fcntl]
    cases dest_line with
    | none => simp [lock_requests]
    | some dest =>
      cases amount_line with
      | none => simp [lock_requests]
      | some amt =>
        simp only
        split_ifs
        · rw [lock_requests_transfer_fcntl_calls]
          simp
        · simp [lock_requests]

/-- C9 at the store with account 100 at offset 0 and account 200 at offset 96:
both directions request offset 0 first and offset 96 second. -/
theorem transfer_locks_ascending_witness :
    lock_requests
        (handle_fund_transfer scenario_db 200 (some 100) (some 5) "t1" "t2" stack_junk
          stack_junk).fcntl
      = [min (find_customer_record_offset ⟨scenario_db.accounts, 0⟩ 200).1
            (find_customer_record_offset ⟨scenario_db.accounts, 0⟩ 100).1,
         max (find_customer_record_offset ⟨scenario_db.accounts, 0⟩ 200).1
            (find_customer_record_offset ⟨scenario_db.accounts, 0⟩ 100).1] ∧
    lock_requests
        (handle_fund_transfer scenario_db 100 (some 200) (some 7) "t1" "t2" stack_junk
          stack_junk).fcntl
      = lock_requests
        (handle_fund_transfer scenario_db 200 (some 100) (some 5) "t1" "t2" stack_junk
          stack_junk).fcntl :=
  ⟨(transfer_locks_ascending scenario_db 200 100 5 7 "t1" "t2" stack_junk stack_junk
      (by decide) (by decide) (by decide) (by decide)).1,
   (transfer_locks_ascending scenario_db 200 100 5 7 "t1" "t2" stack_junk stack_junk
      (by decide) (by decide) (by decide) (by decide)).2.1 (by decide)⟩

/-- C10. Deadlock freedom: let one process run a transfer from A to B and
another a transfer from B to A, with any amounts, on account files with the
same ids. In every state the two can reach by interleaving their `fcntl`
calls, they hold no record lock in common, and either both have made all
their calls and hold no lock, or one of them can make its next call: no state
has each waiting for the other. Every step uses up one call, so after as many
steps as there are calls both have completed. -/
theorem opposite_transfers_deadlock_free (db_p db_q : Database) (a b : Int)
    (amount_p amount_q : Option Double) (now_out now_in now_out' now_in' : String)
    (source_ac₀ dest_ac₀ source_ac₁ dest_ac₁ : CustomerAccount) (n : Nat) (s : TwoProcesses)
    (hids : db_p.accounts.map (fun r => r.account_id)
      = db_q.accounts.map (fun r => r.account_id))
    (hrun : TwoProcesses.Run
      (TwoProcesses.start_with
        (handle_fund_transfer db_p a (some b) amount_p now_out now_in source_ac₀ dest_ac₀).fcntl
        (handle_fund_transfer db_q b (some a) amount_q now_out' now_in' source_ac₁
          dest_ac₁).fcntl) n s) :
    n + s.first.todo.length + s.second.todo.length
      = (handle_fund_transfer db_p a (some b) amount_p now_out now_in source_ac₀
          dest_ac₀).fcntl.length
        + (handle_fund_transfer db_q b (some a) amount_q now_out' now_in' source_ac₁
          dest_ac₁).fcntl.length ∧
    (∀ o ∈ s.first.held, o ∉ s.second.held) ∧
    ((s.first = ⟨[], []⟩ ∧ s.second = ⟨[], []⟩) ∨ ∃ s', TwoProcesses.Step s s') := by
  have hex := run_exclusive hrun
  obtain ⟨kp, kq, hn, hp, hq, rfl⟩ := run_state_at hrun
  refine ⟨?_, hex, ?_⟩
  · simp only [state_at_todo_length]
    omega
  · have hcp := handle_fund_transfer_fcntl_cases db_p a b amount_p now_out now_in source_ac₀
      dest_ac₀
    have hcq := handle_fund_transfer_fcntl_cases db_q b a amount_q now_out' now_in' source_ac₁
      dest_ac₁
    have hcp' : (handle_fund_transfer db_p a (some b) amount_p now_out now_in source_ac₀
        dest_ac₀).fcntl = [] ∨ ∃ x y,
        (handle_fund_transfer db_p a (some b) amount_p now_out now_in source_ac₀
          dest_ac₀).fcntl = transfer_fcntl_calls x y := by
      rcases hcp with h | ⟨_, _, h⟩
      · exact Or.inl h
      · exact Or.inr ⟨_, _, h⟩
    have hcq' : (handle_fund_transfer db_q b (some a) amount_q now_out' now_in' source_ac₁
        dest_ac₁).fcntl = [] ∨ ∃ x y,
        (handle_fund_transfer db_q b (some a) amount_q now_out' now_in' source_ac₁
          dest_ac₁).fcntl = transfer_fcntl_calls x y := by
      rcases hcq with h | ⟨_, _, h⟩
      · exact Or.inl h
      · exact Or.inr ⟨_, _, h⟩
    rcases hcp with hpe | ⟨hab, hbp, hpt⟩
    · -- the first process makes no call
      have hkp : kp = 0 := by rw [hpe] at hp; simpa using hp
      have hfirst : state_at (handle_fund_transfer db_p a (some b) amount_p now_out now_in
          source_ac₀ dest_ac₀).fcntl kp = ⟨[], []⟩ := by
        rw [hpe, hkp]; rfl
      rcases progress_alone hq hcq' with hfin | ⟨q, hstep⟩
      · exact Or.inl ⟨hfirst, hfin⟩
      · right
        refine ⟨_, TwoProcesses.Step.second _ q ?_⟩
        simp only [hfirst]
        exact hstep
    rcases hcq with hqe | ⟨_, haq, hqt⟩
    · -- the second process makes no call
      have hkq : kq = 0 := by rw [hqe] at hq; simpa using hq
      have hsecond : state_at (handle_fund_transfer db_q b (some a) amount_q now_out' now_in'
          source_ac₁ dest_ac₁).fcntl kq = ⟨[], []⟩ := by
        rw [hqe, hkq]; rfl
      rcases progress_alone hp hcp' with hfin | ⟨p, hstep⟩
      · exact Or.inl ⟨hfin, hsecond⟩
      · right
        refine ⟨_, TwoProcesses.Step.first _ p ?_⟩
        simp only [hsecond]
        exact hstep
    · -- both processes lock the two records
      have ea := find_fst_ids hids a
      have eb := find_fst_ids hids b
      rw [← ea, ← eb] at hqt
      rw [← ea] at haq
      have hne := find_fst_injective db_p.accounts hab haq hbp
      have hxa := find_fst_nonneg db_p.accounts a haq
      have hxb := find_fst_nonneg db_p.accounts b hbp
      simp only [hpt, hqt] at hex hp hq ⊢
      rw [transfer_fcntl_calls_length] at hp hq
      rcases opposite_transfers_progress hne hxa hxb hp hq hex with ⟨rfl, rfl⟩ | ⟨p, h⟩ | ⟨q, h⟩
      · left
        have e1 := state_at_length (transfer_fcntl_calls
          (find_customer_record_offset ⟨db_p.accounts, 0⟩ a).1
          (find_customer_record_offset ⟨db_p.accounts, 0⟩ b).1)
        have e2 := state_at_length (transfer_fcntl_calls
          (find_customer_record_offset ⟨db_p.accounts, 0⟩ b).1
          (find_customer_record_offset ⟨db_p.accounts, 0⟩ a).1)
        rw [transfer_fcntl_calls_length, held_after_transfer_fcntl_calls] at e1 e2
        exact ⟨e1, e2⟩
      · exact Or.inr ⟨_, TwoProcesses.Step.first _ p h⟩
      · exact Or.inr ⟨_, TwoProcesses.Step.second _ q h⟩

/-- C10 at the store with accounts 100 (offset 0) and 200 (offset 96), 300.00
from 100 to 200 against 50.00 from 200 to 100, after four steps: the first
process has locked both records and unlocked the first, and holds the record
at 96; the second has locked the record at 0 and now asks for the record at
96. Each holds one lock and the second waits for the first, but the first does
not wait: it can make its next call. -/
theorem opposite_transfers_deadlock_free_witness :
    (handle_fund_transfer scenario_db 100 (some 200) (some 300) "t1" "t2" stack_junk
        stack_junk).fcntl
      = [.setlkw_wrlck 0, .setlkw_wrlck 96, .setlk_unlck 0, .setlk_unlck 96] ∧
    (handle_fund_transfer scenario_db 200 (some 100) (some 50) "t3" "t4" stack_junk
        stack_junk).fcntl
      = [.setlkw_wrlck 0, .setlkw_wrlck 96, .setlk_unlck 96, .setlk_unlck 0] ∧
    LockProcess.step ⟨[.setlkw_wrlck 96, .setlk_unlck 96, .setlk_unlck 0], [0]⟩ [96] = none ∧
    (∀ o ∈ ([96] : List Int), o ∉ ([0] : List Int)) ∧
    ∃ s', TwoProcesses.Step
      ⟨⟨[.setlk_unlck 96], [96]⟩,
       ⟨[.setlkw_wrlck 96, .setlk_unlck 96, .setlk_unlck 0], [0]⟩⟩ s' :=
  ⟨by decide, by decide, by decide,
   (opposite_transfers_deadlock_free scenario_db scenario_db 100 200 (some 300) (some 50) "t1"
      "t2" "t3" "t4" stack_junk stack_junk stack_junk stack_junk 4
      ⟨⟨[.setlk_unlck 96], [96]⟩,
       ⟨[.setlkw_wrlck 96, .setlk_unlck 96, .setlk_unlck 0], [0]⟩⟩ rfl
      (TwoProcesses.Run.next 3 _ _
        (TwoProcesses.Run.next 2 _ _
          (TwoProcesses.Run.next 1 _ _
            (TwoProcesses.Run.next 0 _ _ TwoProcesses.Run.start
              (TwoProcesses.Step.first _ ⟨[.setlkw_wrlck 96, .setlk_unlck 0, .setlk_unlck 96],
                [0]⟩ (by decide)))
            (TwoProcesses.Step.first _ ⟨[.setlk_unlck 0, .setlk_unlck 96], [96, 0]⟩
              (by decide)))
          (TwoProcesses.Step.first _ ⟨[.setlk_unlck 96], [96]⟩ (by decide)))
        (TwoProcesses.Step.second _
          ⟨[.setlkw_wrlck 96, .setlk_unlck 96, .setlk_unlck 0], [0]⟩ (by decide)))).2.1,
   ((opposite_transfers_deadlock_free scenario_db scenario_db 100 200 (some 300) (some 50) "t1"
      "t2" "t3" "t4" stack_junk stack_junk stack_junk stack_junk 4
      ⟨⟨[.setlk_unlck 96], [96]⟩,
       ⟨[.setlkw_wrlck 96, .setlk_unlck 96, .setlk_unlck 0], [0]⟩⟩ rfl
      (TwoProcesses.Run.next 3 _ _
        (TwoProcesses.Run.next 2 _ _
          (TwoProcesses.Run.next 1 _ _
            (TwoProcesses.Run.next 0 _ _ TwoProcesses.Run.start
              (TwoProcesses.Step.first _ ⟨[.setlkw_wrlck 96, .setlk_unlck 0, .setlk_unlck 96],
                [0]⟩ (by decide)))
            (TwoProcesses.Step.first _ ⟨[.setlk_unlck 0, .setlk_unlck 96], [96, 0]⟩
              (by decide)))
          (TwoProcesses.Step.first _ ⟨[.setlk_unlck 96], [96]⟩ (by decide)))
        (TwoProcesses.Step.second _
          ⟨[.setlkw_wrlck 96, .setlk_unlck 96, .setlk_unlck 0], [0]⟩ (by decide)))).2.2).resolve_left
    (by decide)⟩

/-! ## Loans: locating a record -/

theorem loan_located_at_lt {loans : List LoanApplication} {id : Int} {k : Nat}
    {r : LoanApplication} (h : loan_located_at loans id k r) : k < loans.length := by
  have := h.1
  by_contra hc
  rw [List.getElem?_eq_none (by omega)] at this
  cases this

theorem loan_located_or_absent (loans : List LoanApplication) (id : Int) :
    (∀ x ∈ loans, x.loan_id ≠ id) ∨ ∃ k r, loan_located_at loans id k r := by
  induction loans with
  | nil => left; simp
  | cons x rest ih =>
    by_cases hx : x.loan_id = id
    · right
      exact ⟨0, x, by simp [loan_located_at, hx]⟩
    · rcases ih with h | ⟨k, r, h1, h2, h3⟩
      · left
        intro y hy
        rcases List.mem_cons.1 hy with rfl | hy
        · exact hx
        · exact h y hy
      · right
        refine ⟨k + 1, r, by simpa using h1, h2, ?_⟩
        intro y hy
        simp only [List.take_succ_cons, List.mem_cons] at hy
        rcases hy with rfl | hy
        · exact hx
        · exact h3 y hy

theorem scan_loans_located {id : Int} {loans : List LoanApplication} {k : Nat}
    {r : LoanApplication} (h : loan_located_at loans id k r) (cur : Int) :
    scan_loans id loans cur = cur + sizeof_LoanApplication * k := by
  induction loans generalizing k cur with
  | nil => exact absurd (loan_located_at_lt h) (by simp)
  | cons x rest ih =>
    obtain ⟨h1, h2, h3⟩ := h
    cases k with
    | zero =>
      simp only [List.getElem?_cons_zero, Option.some.injEq] at h1
      subst h1
      simp [scan_loans, h2]
    | succ j =>
      have hx : x.loan_id ≠ id := h3 x (by simp)
      have hj : loan_located_at rest id j r := by
        refine ⟨by simpa using h1, h2, ?_⟩
        intro y hy
        exact h3 y (by simp [hy])
      simp only [scan_loans, hx, if_false]
      rw [ih hj]
      simp only [sizeof_LoanApplication, Nat.cast_add, Nat.cast_one]
      ring

theorem scan_loans_absent {id : Int} {loans : List LoanApplication}
    (h : ∀ x ∈ loans, x.loan_id ≠ id) (cur : Int) : scan_loans id loans cur = -1 := by
  induction loans generalizing cur with
  | nil => rfl
  | cons x rest ih =>
    have hx : x.loan_id ≠ id := h x (by simp)
    simp only [scan_loans, hx, if_false]
    exact ih (fun y hy => h y (by simp [hy])) _

theorem find_loan_located {id : Int} {loans : List LoanApplication} {k : Nat}
    {r : LoanApplication} (h : loan_located_at loans id k r) :
    find_loan_record_offset loans id = sizeof_LoanApplication * k := by
  simp [find_loan_record_offset, scan_loans_located h]

theorem find_loan_absent {id : Int} {loans : List LoanApplication}
    (h : ∀ x ∈ loans, x.loan_id ≠ id) : find_loan_record_offset loans id = -1 :=
  scan_loans_absent h 0

theorem loan_offset_ne_neg_one (k : Nat) : sizeof_LoanApplication * (k : Int) ≠ -1 := by
  simp only [sizeof_LoanApplication]; omega

theorem loan_index_offset (k : Nat) :
    (sizeof_LoanApplication * (k : Int) / sizeof_LoanApplication).toNat = k := by
  simp [sizeof_LoanApplication]

theorem read_loan_at_offset {loans : List LoanApplication} {k : Nat} {r : LoanApplication}
    (h : loans[k]? = some r) (buf : LoanApplication) :
    read_loan_at loans (sizeof_LoanApplication * k) buf = r := by
  simp [read_loan_at, loan_index_offset, h]

theorem write_loan_at_offset {loans : List LoanApplication} {k : Nat} (h : k < loans.length)
    (rec : LoanApplication) :
    write_loan_at loans (sizeof_LoanApplication * k) rec = loans.set k rec := by
  simp [write_loan_at, loan_index_offset, h]

theorem all_status_ne_zero_iff (loans : List LoanApplication) :
    loans.all (fun loan => decide (loan.status ≠ 0)) = true ↔ ∀ x ∈ loans, x.status ≠ 0 := by
  simp [List.all_eq_true]

/-! ## Loans: the handlers on located records -/

theorem handle_assign_loan_located {bank : Bank} {loan_id : Int} {k : Nat}
    {l : LoanApplication} (h : loan_located_at bank.loans loan_id k l)
    (hfound : ∃ x ∈ bank.loans, x.status = 0) (employee_id : Int) (loan₀ : LoanApplication) :
    handle_assign_loan bank (some loan_id) (some employee_id) loan₀
      = if l.status ≠ 0 then
          ⟨bank,
           [⟨"SUCCESS", loan_listing_from "Unassigned Loan Requests (Status 0):\\n" bank.loans⟩,
            ⟨"ERROR", "Loan was already assigned or processed."⟩]⟩
        else
          ⟨{ bank with
              loans := bank.loans.set k
                { l with status := 1, assigned_to_employee_id := employee_id } },
           [⟨"SUCCESS", loan_listing_from "Unassigned Loan Requests (Status 0):\\n" bank.loans⟩,
            ⟨"SUCCESS",
             "Loan #" ++ toString loan_id ++ " assigned to Employee #" ++
               toString employee_id ++ "."⟩]⟩ := by
  have hall : ¬ (bank.loans.all (fun loan => decide (loan.status ≠ 0)) = true) := by
    rw [all_status_ne_zero_iff]
    obtain ⟨x, hx, hx0⟩ := hfound
    exact fun hc => hc x hx hx0
  simp only [handle_assign_loan, hall, Bool.false_eq_true, if_false, find_loan_located h,
    loan_offset_ne_neg_one, read_loan_at_offset h.1, write_loan_at_offset (loan_located_at_lt h)]

theorem handle_process_loan_rejected {bank : Bank} {loan_id : Int} {k : Nat}
    {l : LoanApplication} (h : loan_located_at bank.loans loan_id k l) (employee_id : Int)
    (hbad : l.assigned_to_employee_id ≠ employee_id ∨ l.status ≠ 1)
    (choice_line : Option Int) (now : String) (loan₀ : LoanApplication)
    (account₀ : CustomerAccount) :
    handle_process_loan bank employee_id (some loan_id) choice_line now loan₀ account₀
      = ⟨bank,
         [⟨"ERROR",
           if l.assigned_to_employee_id ≠ employee_id then "This loan is not assigned to you."
           else "This loan is not pending processing."⟩]⟩ := by
  by_cases ha : l.assigned_to_employee_id = employee_id
  · have hs : l.status ≠ 1 := hbad.resolve_left (fun hc => hc ha)
    simp [handle_process_loan, find_loan_located h, loan_offset_ne_neg_one,
      read_loan_at_offset h.1, ha, hs]
  · simp [handle_process_loan, find_loan_located h, loan_offset_ne_neg_one,
      read_loan_at_offset h.1, ha]

theorem handle_process_loan_located {bank : Bank} {loan_id : Int} {k : Nat}
    {l : LoanApplication} (h : loan_located_at bank.loans loan_id k l) {i : Nat}
    {s : CustomerAccount} (hs : located_at bank.db.accounts l.customer_account_id i s)
    (hstatus : l.status = 1) (choice : Int) (now : String) (loan₀ : LoanApplication)
    (account₀ : CustomerAccount) :
    handle_process_loan bank l.assigned_to_employee_id (some loan_id) (some choice) now loan₀
        account₀
      = if choice = 1 then
          ⟨{ bank with
              db := ⟨bank.db.accounts.set i { s with balance := s.balance + l.amount },
                log_transaction bank.db.transactions s.account_id "LOAN_APPROVED" l.amount
                  (s.balance + l.amount) now⟩,
              loans := bank.loans.set k { l with status := 2 } },
           [⟨"SUCCESS", "Loan Approved."⟩]⟩
        else if choice = 2 then
          ⟨{ bank with loans := bank.loans.set k { l with status := 3 } },
           [⟨"SUCCESS", "Loan Rejected."⟩]⟩
        else ⟨bank, [⟨"ERROR", "Invalid choice. No action taken."⟩]⟩ := by
  have hf := find_located ⟨bank.db.accounts, 0⟩ hs
  simp only [handle_process_loan, find_loan_located h, loan_offset_ne_neg_one, if_false,
    read_loan_at_offset h.1, ne_eq, not_true_eq_false, hstatus, hf, offset_ne_neg_one,
    lseek_set_offset, read_account_at hs.1, write_account_at (located_at_lt hs),
    write_loan_at_offset (loan_located_at_lt h)]

/-! ## Loans: what one call can change -/

/-- A loan request changes nothing or appends one requested loan with the
counter's id and advances the counter. -/
theorem handle_loan_request_cases (bank : Bank) (account_id : Int) (amount_line : Option Double) :
    (handle_loan_request bank account_id amount_line).bank = bank ∨
    ∃ amount, ¬ amount ≤ 0 ∧
      (handle_loan_request bank account_id amount_line).bank
        = { bank with
            loans := bank.loans ++ [⟨bank.loan_counter.getD 1, account_id, amount, 0, -1⟩],
            loan_counter := some (int_wrap (bank.loan_counter.getD 1 + 1)) } := by
  cases amount_line with
  | none => left; rfl
  | some amount =>
    by_cases ha : amount ≤ 0
    · left; simp [handle_loan_request, ha]
    · right
      refine ⟨amount, ha, ?_⟩
      have hnext : (match bank.loan_counter with
          | some n => n
          | none => 1) = bank.loan_counter.getD 1 := by
        cases bank.loan_counter <;> rfl
      simp only [handle_loan_request, ha, if_false]
      rcases bank with ⟨db, loans, counter⟩
      cases counter <;> rfl

/-- An assignment changes nothing or moves one requested loan to status 1 with
the given assignee. -/
theorem handle_assign_loan_cases (bank : Bank) (loan_id_line employee_id_line : Option Int)
    (loan₀ : LoanApplication) :
    (handle_assign_loan bank loan_id_line employee_id_line loan₀).bank = bank ∨
    ∃ employee_id k l, employee_id_line = some employee_id ∧ bank.loans[k]? = some l ∧
      l.status = 0 ∧
      (handle_assign_loan bank loan_id_line employee_id_line loan₀).bank
        = { bank with
            loans := bank.loans.set k
              { l with status := 1, assigned_to_employee_id := employee_id } } := by
  by_cases hall : bank.loans.all (fun loan => decide (loan.status ≠ 0)) = true
  · left; simp only [handle_assign_loan, hall, if_true]
  have hfound : ∃ x ∈ bank.loans, x.status = 0 := by
    by_contra hc
    apply hall
    rw [all_status_ne_zero_iff]
    intro x hx h0
    exact hc ⟨x, hx, h0⟩
  cases loan_id_line with
  | none => left; simp only [handle_assign_loan, hall, Bool.false_eq_true, if_false]
  | some loan_id =>
    cases employee_id_line with
    | none => left; simp only [handle_assign_loan, hall, Bool.false_eq_true, if_false]
    | some employee_id =>
      rcases loan_located_or_absent bank.loans loan_id with habs | ⟨k, l, hl⟩
      · left
        simp only [handle_assign_loan, hall, Bool.false_eq_true, if_false, find_loan_absent habs,
          if_true]
      · rw [handle_assign_loan_located hl hfound]
        by_cases h0 : l.status = 0
        · right
          exact ⟨employee_id, k, l, rfl, hl.1, h0, by rw [if_neg (not_not.mpr h0)]⟩
        · left; rw [if_pos h0]

theorem handle_process_loan_absent_loan {bank : Bank} {loan_id : Int}
    (habs : ∀ x ∈ bank.loans, x.loan_id ≠ loan_id) (employee_id : Int)
    (choice_line : Option Int) (now : String) (loan₀ : LoanApplication)
    (account₀ : CustomerAccount) :
    handle_process_loan bank employee_id (some loan_id) choice_line now loan₀ account₀
      = ⟨bank, [⟨"ERROR", "Loan ID not found."⟩]⟩ := by
  simp only [handle_process_loan, find_loan_absent habs, if_true]

theorem handle_process_loan_absent_account {bank : Bank} {loan_id : Int} {k : Nat}
    {l : LoanApplication} (hl : loan_located_at bank.loans loan_id k l) (hstatus : l.status = 1)
    (habs : ∀ x ∈ bank.db.accounts, x.account_id ≠ l.customer_account_id)
    (choice_line : Option Int) (now : String) (loan₀ : LoanApplication)
    (account₀ : CustomerAccount) :
    handle_process_loan bank l.assigned_to_employee_id (some loan_id) choice_line now loan₀
        account₀
      = ⟨bank, [⟨"ERROR", "CRITICAL: Customer account for this loan not found."⟩]⟩ := by
  have hf := find_absent ⟨bank.db.accounts, 0⟩ habs
  simp only [handle_process_loan, find_loan_located hl, loan_offset_ne_neg_one, if_false,
    read_loan_at_offset hl.1, ne_eq, not_true_eq_false, hstatus, hf, if_true]

theorem handle_process_loan_no_choice {bank : Bank} {loan_id : Int} {k : Nat}
    {l : LoanApplication} (hl : loan_located_at bank.loans loan_id k l) (hstatus : l.status = 1)
    {i : Nat} {s : CustomerAccount}
    (hs : located_at bank.db.accounts l.customer_account_id i s) (now : String)
    (loan₀ : LoanApplication) (account₀ : CustomerAccount) :
    handle_process_loan bank l.assigned_to_employee_id (some loan_id) none now loan₀ account₀
      = ⟨bank, []⟩ := by
  have hf := find_located ⟨bank.db.accounts, 0⟩ hs
  simp only [handle_process_loan, find_loan_located hl, loan_offset_ne_neg_one, if_false,
    read_loan_at_offset hl.1, ne_eq, not_true_eq_false, hstatus, hf, offset_ne_neg_one]

/-- Processing changes no loan, or moves one loan in status 1 to status 2 or
3; it never touches the counter. -/
theorem handle_process_loan_cases (bank : Bank) (employee_id : Int)
    (loan_id_line choice_line : Option Int) (now : String) (loan₀ : LoanApplication)
    (account₀ : CustomerAccount) :
    (handle_process_loan bank employee_id loan_id_line choice_line now loan₀
        account₀).bank.loan_counter = bank.loan_counter ∧
    ((handle_process_loan bank employee_id loan_id_line choice_line now loan₀
        account₀).bank.loans = bank.loans ∨
     ∃ k l, bank.loans[k]? = some l ∧ l.status = 1 ∧
      ((handle_process_loan bank employee_id loan_id_line choice_line now loan₀
          account₀).bank.loans = bank.loans.set k { l with status := 2 } ∨
       (handle_process_loan bank employee_id loan_id_line choice_line now loan₀
          account₀).bank.loans = bank.loans.set k { l with status := 3 })) := by
  cases loan_id_line with
  | none => exact ⟨rfl, Or.inl rfl⟩
  | some loan_id =>
    rcases loan_located_or_absent bank.loans loan_id with habs | ⟨k, l, hl⟩
    · rw [handle_process_loan_absent_loan habs]
      exact ⟨rfl, Or.inl rfl⟩
    by_cases hbad : l.assigned_to_employee_id ≠ employee_id ∨ l.status ≠ 1
    · rw [handle_process_loan_rejected hl employee_id hbad]
      exact ⟨rfl, Or.inl rfl⟩
    have hemp : l.assigned_to_employee_id = employee_id := by
      by_contra hc; exact hbad (Or.inl hc)
    have hstatus : l.status = 1 := by
      by_contra hc; exact hbad (Or.inr hc)
    subst hemp
    rcases located_at_or_absent bank.db.accounts l.customer_account_id with habs | ⟨i, s, hs⟩
    · rw [handle_process_loan_absent_account hl hstatus habs]
      exact ⟨rfl, Or.inl rfl⟩
    cases choice_line with
    | none =>
      rw [handle_process_loan_no_choice hl hstatus hs]
      exact ⟨rfl, Or.inl rfl⟩
    | some choice =>
      rw [handle_process_loan_located hl hs hstatus]
      by_cases h1 : choice = 1
      · rw [if_pos h1]
        exact ⟨rfl, Or.inr ⟨k, l, hl.1, hstatus, Or.inl rfl⟩⟩
      by_cases h2 : choice = 2
      · rw [if_neg h1, if_pos h2]
        exact ⟨rfl, Or.inr ⟨k, l, hl.1, hstatus, Or.inr rfl⟩⟩
      · rw [if_neg h1, if_neg h2]
        exact ⟨rfl, Or.inl rfl⟩

/-! ## Claims about the loan workflow -/

/-- C14. Loan creation: for an amount `≤ 0` `handle_loan_request` replies with
an error and leaves all files as they were; for an amount `> 0` it appends
exactly the record (counter's current value, or 1 when the counter file is
absent or empty; the caller's account id; the amount; status 0; assignee -1)
to the loan file, keeps every existing loan record and the account file and
log, and stores the current value plus one in the counter file (the current
value being an `int` below `INT_MAX`). -/
theorem loan_creation_postcondition (bank : Bank) (account_id : Int) (amount : Double)
    (current : Int)
    (hcur : bank.loan_counter = some current ∨ (bank.loan_counter = none ∧ current = 1)) :
    (amount ≤ 0 →
      handle_loan_request bank account_id (some amount)
        = ⟨bank, [⟨"ERROR", "Invalid loan amount."⟩]⟩) ∧
    (0 < amount →
      (handle_loan_request bank account_id (some amount)).bank.loans
        = bank.loans ++ [⟨current, account_id, amount, 0, -1⟩] ∧
      (∀ k, k < bank.loans.length →
        (handle_loan_request bank account_id (some amount)).bank.loans[k]? = bank.loans[k]?) ∧
      (handle_loan_request bank account_id (some amount)).bank.db = bank.db ∧
      (handle_loan_request bank account_id (some amount)).bank.loan_counter
        = some (int_wrap (current + 1)) ∧
      (-2147483648 ≤ current → current < 2147483647 →
        (handle_loan_request bank account_id (some amount)).bank.loan_counter
          = some (current + 1)) ∧
      (handle_loan_request bank account_id (some amount)).responses
        = [⟨"SUCCESS",
            "Loan request #" ++ toString current ++ " for " ++ format_2f amount ++
              " submitted."⟩]) := by
  have hnext : (match bank.loan_counter with
      | some n => n
      | none => 1) = current := by
    rcases hcur with h | ⟨h, rfl⟩ <;> rw [h]
  refine ⟨fun ha => by simp [handle_loan_request, ha], fun ha => ?_⟩
  have hna : ¬ amount ≤ 0 := Double.not_le_of_lt ha
  have heq : handle_loan_request bank account_id (some amount)
      = ⟨{ bank with loans := bank.loans ++ [⟨current, account_id, amount, 0, -1⟩],
                     loan_counter := some (int_wrap (current + 1)) },
         [⟨"SUCCESS",
           "Loan request #" ++ toString current ++ " for " ++ format_2f amount ++
             " submitted."⟩]⟩ := by
    simp only [handle_loan_request, hna, if_false]
    rcases hcur with h | ⟨h, rfl⟩ <;> simp only [h]
  rw [heq]
  refine ⟨rfl, ?_, rfl, rfl, ?_, rfl⟩
  · intro k hk
    exact List.getElem?_append_left hk
  · intro h1 h2
    have : int_wrap (current + 1) = current + 1 := by
      unfold int_wrap; omega
    rw [this]

/-- C14 at the bank without loans and without counter file: the first loan
gets id 1 and the counter becomes 2. -/
theorem loan_creation_postcondition_witness :
    (handle_loan_request fresh_bank 100 (some 500)).bank.loans = [⟨1, 100, 500, 0, -1⟩] ∧
    (handle_loan_request fresh_bank 100 (some 500)).bank.loan_counter = some 2 := by
  have h := (loan_creation_postcondition fresh_bank 100 500 1 (Or.inr ⟨rfl, rfl⟩)).2
    (by decide)
  exact ⟨h.1, h.2.2.2.2.1 (by norm_num) (by norm_num)⟩

/-- C16. Assign guard: for an existing loan (first record `l` with the id, at
index `k`), if `l.status` is 0 then `handle_assign_loan` replaces `l` by `l`
with status 1 and the given staff id as assignee and changes no other field,
record or file; if `l.status` is not 0 and the manager was offered a choice
(some loan has status 0) it replies that the loan was already assigned or
processed and leaves all files as they were. When no loan has status 0 the
handler replies so before it asks for an id, and changes nothing. -/
theorem assign_guard (bank : Bank) (loan_id : Int) (k : Nat) (l : LoanApplication)
    (employee_id : Int) (loan₀ : LoanApplication)
    (hl : loan_located_at bank.loans loan_id k l) :
    (l.status = 0 →
      (handle_assign_loan bank (some loan_id) (some employee_id) loan₀).bank
        = { bank with
            loans := bank.loans.set k
              ⟨l.loan_id, l.customer_account_id, l.amount, 1, employee_id⟩ } ∧
      (handle_assign_loan bank (some loan_id) (some employee_id) loan₀).bank.loans[k]?
        = some ⟨l.loan_id, l.customer_account_id, l.amount, 1, employee_id⟩ ∧
      (∀ j, j ≠ k →
        (handle_assign_loan bank (some loan_id) (some employee_id) loan₀).bank.loans[j]?
          = bank.loans[j]?) ∧
      (handle_assign_loan bank (some loan_id) (some employee_id) loan₀).responses.getLast?
        = some ⟨"SUCCESS",
            "Loan #" ++ toString loan_id ++ " assigned to Employee #" ++
              toString employee_id ++ "."⟩) ∧
    (l.status ≠ 0 → (∃ x ∈ bank.loans, x.status = 0) →
      handle_assign_loan bank (some loan_id) (some employee_id) loan₀
        = ⟨bank,
           [⟨"SUCCESS",
             loan_listing_from "Unassigned Loan Requests (Status 0):\\n" bank.loans⟩,
            ⟨"ERROR", "Loan was already assigned or processed."⟩]⟩) ∧
    ((∀ x ∈ bank.loans, x.status ≠ 0) →
      handle_assign_loan bank (some loan_id) (some employee_id) loan₀
        = ⟨bank, [⟨"SUCCESS", "No unassigned loans found."⟩]⟩) := by
  refine ⟨fun h0 => ?_, fun hne hfound => ?_, fun hall => ?_⟩
  · have hfound : ∃ x ∈ bank.loans, x.status = 0 := ⟨l, List.getElem?_mem hl.1, h0⟩
    rw [handle_assign_loan_located hl hfound, if_neg (not_not.mpr h0)]
    refine ⟨rfl, List.getElem?_set_self (loan_located_at_lt hl), ?_, rfl⟩
    intro j hj
    exact List.getElem?_set_ne (Ne.symm hj)
  · rw [handle_assign_loan_located hl hfound, if_pos hne]
  · have := (all_status_ne_zero_iff bank.loans).2 hall
    simp only [handle_assign_loan, this, if_true]

/-- C16 at the bank with loans 1 and 2 requested: loan 2 is assigned to
employee 7, and a second assignment of loan 2 is refused. -/
theorem assign_guard_witness :
    (handle_assign_loan two_loans_bank (some 2) (some 7) loan_junk).bank = assigned_bank ∧
    (handle_assign_loan assigned_bank (some 2) (some 9) loan_junk).bank = assigned_bank ∧
    (handle_assign_loan assigned_bank (some 2) (some 9) loan_junk).responses.getLast?
      = some ⟨"ERROR", "Loan was already assigned or processed."⟩ := by
  have h1 := ((assign_guard two_loans_bank 2 1 ⟨2, 200, 20, 0, -1⟩ 7 loan_junk
    (by decide)).1 rfl).1
  have h2 := (assign_guard assigned_bank 2 1 ⟨2, 200, 20, 1, 7⟩ 9 loan_junk
    (by decide)).2.1 (by decide) ⟨⟨1, 100, 500, 0, -1⟩, by decide, rfl⟩
  refine ⟨?_, ?_, ?_⟩
  · rw [h1]; rfl
  · rw [h2]
  · rw [h2]; rfl

/-- C17. Process rejects out-of-state loans: for an existing loan (first record
`l` with the id) whose status is not 1 or whose assignee is not the calling
staff id, `handle_process_loan` replies with an error, whatever decision
line follows, and leaves the loan file, the counter, the account file and the
log as they were. The assignee is tested first. -/
theorem process_rejects_out_of_state (bank : Bank) (loan_id : Int) (k : Nat)
    (l : LoanApplication) (employee_id : Int) (choice_line : Option Int) (now : String)
    (loan₀ : LoanApplication) (account₀ : CustomerAccount)
    (hl : loan_located_at bank.loans loan_id k l)
    (hbad : l.status ≠ 1 ∨ l.assigned_to_employee_id ≠ employee_id) :
    handle_process_loan bank employee_id (some loan_id) choice_line now loan₀ account₀
      = ⟨bank,
         [⟨"ERROR",
           if l.assigned_to_employee_id ≠ employee_id then "This loan is not assigned to you."
           else "This loan is not pending processing."⟩]⟩ :=
  handle_process_loan_rejected hl employee_id hbad.symm choice_line now loan₀ account₀

/-- C17 at loan 1, still in status Requested, and at loan 2, assigned to
employee 7 and offered to employee 8. -/
theorem process_rejects_out_of_state_witness :
    handle_process_loan assigned_bank (-1) (some 1) (some 1) "t1" loan_junk stack_junk
      = ⟨assigned_bank, [⟨"ERROR", "This loan is not pending processing."⟩]⟩ ∧
    handle_process_loan assigned_bank 8 (some 2) (some 1) "t1" loan_junk stack_junk
      = ⟨assigned_bank, [⟨"ERROR", "This loan is not assigned to you."⟩]⟩ := by
  have h1 := process_rejects_out_of_state assigned_bank 1 0 ⟨1, 100, 500, 0, -1⟩ (-1) (some 1)
    "t1" loan_junk stack_junk (by decide) (Or.inl (by decide))
  have h2 := process_rejects_out_of_state assigned_bank 2 1 ⟨2, 200, 20, 1, 7⟩ 8 (some 1)
    "t1" loan_junk stack_junk (by decide) (Or.inr (by decide))
  exact ⟨by simpa using h1, by simpa using h2⟩

/-- C18, as stated, fails: approving loan 1, of 1.00 for account 200 with
balance 1e16, leaves the balance of account 200 at 1e16 and not at
1e16 + 1, which is no double; the log entry carries 1e16 too. -/
theorem loan_credit_rounded_counterexample :
    handle_process_loan rounding_bank 7 (some 1) (some 1) "t1" loan_junk stack_junk
      = ⟨⟨⟨[⟨100, "Asha", "1234", 750, 1⟩, ⟨200, "Bram", "4321", 10000000000000000, 1⟩],
            [⟨200, "t1", "LOAN_APPROVED: +1.00", 10000000000000000⟩]⟩,
          [⟨1, 200, 1, 2, 7⟩], some 2⟩,
         [⟨"SUCCESS", "Loan Approved."⟩]⟩ ∧
    (10000000000000000 : Double).toRat + (1 : Double).toRat
      ≠ (10000000000000000 : Double).toRat := by
  have e1 : (1 : Double) = .finite false 1 0 := by decide
  have e3 : (10000000000000000 : Double) = .finite false 152587890625 16 := by decide
  refine ⟨by decide, ?_⟩
  simp only [e1, e3, Double.toRat]
  norm_num

/-- C18, amended. Process effects: for an existing loan `l` in status 1,
processed by its assignee, whose owner's first account record is `s`:
decision 1 (approve) replaces `s` by `s` with the balance
`s.balance + l.amount`, the sum of doubles, rounded to the nearest double and
exact whenever the exact sum is a number of the format,
replaces `l` by `l` with status 2 and appends one `LOAN_APPROVED` log entry
with the new balance; decision 2 (reject) replaces `l` by `l` with status 3
and leaves account file and log as they were; any other decision, or none,
changes nothing. No other field of the loan and no other record changes. -/
theorem process_effects (bank : Bank) (loan_id : Int) (k : Nat) (l : LoanApplication)
    (i : Nat) (s : CustomerAccount) (now : String) (loan₀ : LoanApplication)
    (account₀ : CustomerAccount)
    (hl : loan_located_at bank.loans loan_id k l) (hstatus : l.status = 1)
    (hs : located_at bank.db.accounts l.customer_account_id i s) :
    handle_process_loan bank l.assigned_to_employee_id (some loan_id) (some 1) now loan₀
        account₀
      = ⟨⟨⟨bank.db.accounts.set i
              ⟨s.account_id, s.owner_name, s.access_pin, Double.add s.balance l.amount,
                s.is_active⟩,
            bank.db.transactions ++
              [⟨s.account_id, now, ("LOAN_APPROVED" ++ ": " ++ format_plus_2f l.amount).take 99,
                Double.add s.balance l.amount⟩]⟩,
          bank.loans.set k
            ⟨l.loan_id, l.customer_account_id, l.amount, 2, l.assigned_to_employee_id⟩,
          bank.loan_counter⟩,
         [⟨"SUCCESS", "Loan Approved."⟩]⟩ ∧
    handle_process_loan bank l.assigned_to_employee_id (some loan_id) (some 2) now loan₀
        account₀
      = ⟨⟨bank.db,
          bank.loans.set k
            ⟨l.loan_id, l.customer_account_id, l.amount, 3, l.assigned_to_employee_id⟩,
          bank.loan_counter⟩,
         [⟨"SUCCESS", "Loan Rejected."⟩]⟩ ∧
    (∀ choice : Int, choice ≠ 1 → choice ≠ 2 →
      handle_process_loan bank l.assigned_to_employee_id (some loan_id) (some choice) now loan₀
          account₀
        = ⟨bank, [⟨"ERROR", "Invalid choice. No action taken."⟩]⟩) ∧
    handle_process_loan bank l.assigned_to_employee_id (some loan_id) none now loan₀ account₀
      = ⟨bank, []⟩ ∧
    (∀ (j : Nat) (r : LoanApplication), j ≠ k → (bank.loans.set k r)[j]? = bank.loans[j]?) ∧
    (∀ (j : Nat) (r : CustomerAccount), j ≠ i →
      (bank.db.accounts.set i r)[j]? = bank.db.accounts[j]?) ∧
    (∀ z : Double, s.balance.is_number = true → l.amount.is_number = true →
      z.is_number = true → z.toRat = s.balance.toRat + l.amount.toRat →
      (Double.add s.balance l.amount).is_number = true ∧
      (Double.add s.balance l.amount).toRat = s.balance.toRat + l.amount.toRat) := by
  refine ⟨?_, ?_, ?_, ?_, ?_, ?_, fun z h1 h2 h3 h4 => Double.add_exact _ _ z h1 h2 h3 h4⟩
  · rw [handle_process_loan_located hl hs hstatus]
    simp only [if_true, log_transaction]
    rfl
  · rw [handle_process_loan_located hl hs hstatus]
    simp
  · intro choice h1 h2
    rw [handle_process_loan_located hl hs hstatus]
    simp [h1, h2]
  · exact handle_process_loan_no_choice hl hstatus hs now loan₀ account₀
  · intro j r hj
    exact List.getElem?_set_ne (Ne.symm hj)
  · intro j r hj
    exact List.getElem?_set_ne (Ne.symm hj)

/-- C18, amended, at loan 2 of 20.00 for account 200, assigned to employee 7:
approval credits account 200, whose balance 0.00 becomes the exact sum
20.00, marks the loan approved and logs `LOAN_APPROVED`. -/
theorem process_effects_witness :
    handle_process_loan assigned_bank 7 (some 2) (some 1) "t1" loan_junk stack_junk
      = ⟨⟨⟨[account_100, ⟨200, "Bram", "4321", 20, 1⟩],
            [⟨200, "t1", "LOAN_APPROVED: +20.00", 20⟩]⟩,
          [⟨1, 100, 500, 0, -1⟩, ⟨2, 200, 20, 2, 7⟩], some 3⟩,
         [⟨"SUCCESS", "Loan Approved."⟩]⟩ ∧
    (Double.add 0 20).toRat = (0 : Double).toRat + (20 : Double).toRat := by
  have h := process_effects assigned_bank 2 1 ⟨2, 200, 20, 1, 7⟩ 1 account_200 "t1" loan_junk
    stack_junk (by decide) rfl (by decide)
  have e0 : (0 : Double) = .finite false 0 0 := by decide
  have e1 : (20 : Double) = .finite false 5 2 := by decide
  refine ⟨h.1.trans (by decide), (h.2.2.2.2.2.2 20 (by decide) (by decide) (by decide) ?_).2⟩
  show (20 : Double).toRat = (0 : Double).toRat + (20 : Double).toRat
  simp only [e0, e1, Double.toRat]
  norm_num

/-- What one loan call does to the loan file and the counter. -/
theorem loan_call_apply_cases (bank : Bank) (call : LoanCall) :
    call.apply bank = bank ∨
    (call.is_create = true ∧ ∃ account_id amount,
      call.apply bank
        = { bank with
            loans := bank.loans ++ [⟨bank.loan_counter.getD 1, account_id, amount, 0, -1⟩],
            loan_counter := some (int_wrap (bank.loan_counter.getD 1 + 1)) }) ∨
    (call.is_assign = true ∧ ∃ e k l, (e = -1 → call.assigns_absent = true) ∧
      bank.loans[k]? = some l ∧ l.status = 0 ∧
      call.apply bank
        = { bank with
            loans := bank.loans.set k { l with status := 1, assigned_to_employee_id := e } }) ∨
    (call.is_process = true ∧ (call.apply bank).loan_counter = bank.loan_counter ∧
      ∃ k l, bank.loans[k]? = some l ∧ l.status = 1 ∧
        ((call.apply bank).loans = bank.loans.set k { l with status := 2 } ∨
         (call.apply bank).loans = bank.loans.set k { l with status := 3 })) ∨
    (call.is_process = true ∧ (call.apply bank).loan_counter = bank.loan_counter ∧
      (call.apply bank).loans = bank.loans) := by
  cases call with
  | create account_id amount_line =>
    rcases handle_loan_request_cases bank account_id amount_line with h | ⟨amount, _, h⟩
    · exact Or.inl h
    · exact Or.inr (Or.inl ⟨rfl, account_id, amount, h⟩)
  | assign loan_id_line employee_id_line loan₀ =>
    rcases handle_assign_loan_cases bank loan_id_line employee_id_line loan₀ with
      h | ⟨e, k, l, he, hk, h0, h⟩
    · exact Or.inl h
    · refine Or.inr (Or.inr (Or.inl ⟨rfl, e, k, l, ?_, hk, h0, h⟩))
      intro h1
      simp [LoanCall.assigns_absent, he, h1]
  | process employee_id loan_id_line choice_line now loan₀ account₀ =>
    obtain ⟨hc, h | ⟨k, l, hk, h1, h⟩⟩ :=
      handle_process_loan_cases bank employee_id loan_id_line choice_line now loan₀ account₀
    · exact Or.inr (Or.inr (Or.inr (Or.inr ⟨rfl, hc, h⟩)))
    · exact Or.inr (Or.inr (Or.inr (Or.inl ⟨rfl, hc, k, l, hk, h1, h⟩)))

theorem map_loan_id_set {loans : List LoanApplication} {k : Nat} {l : LoanApplication}
    (h : loans[k]? = some l) (l' : LoanApplication) (hid : l'.loan_id = l.loan_id) :
    (loans.set k l').map (fun x => x.loan_id) = loans.map (fun x => x.loan_id) := by
  induction loans generalizing k with
  | nil => simp
  | cons x rest ih =>
    cases k with
    | zero =>
      simp only [List.getElem?_cons_zero, Option.some.injEq] at h
      subst h
      simp [hid]
    | succ j =>
      have hj : rest[j]? = some l := by simpa using h
      simp only [List.set_cons_succ, List.map_cons, ih hj]

/-- The ids of the loan file are 1 to `n` in this order, and the counter holds
`n + 1` once a loan exists. -/
theorem loan_ids_step (bank : Bank) (call : LoanCall) (n : Nat)
    (hids : bank.loans.map (fun l => l.loan_id) = (List.range n).map (fun (m : Nat) => (m : Int) + 1))
    (hcnt : (n = 0 ∧ bank.loan_counter = none) ∨ bank.loan_counter = some ((n : Int) + 1))
    (hbound : call.is_create = true → n + 1 < 2147483647) :
    ∃ n', (n' = n ∨ (n' = n + 1 ∧ call.is_create = true)) ∧
      (call.apply bank).loans.map (fun l => l.loan_id)
        = (List.range n').map (fun (m : Nat) => (m : Int) + 1) ∧
      ((n' = 0 ∧ (call.apply bank).loan_counter = none) ∨
        (call.apply bank).loan_counter = some ((n' : Int) + 1)) := by
  rcases loan_call_apply_cases bank call with h | ⟨hc, a, amt, h⟩ | ⟨_, e, k, l, _, hk, _, h⟩ |
      ⟨_, hcn, k, l, hk, _, h⟩ | ⟨_, hcn, h⟩
  · exact ⟨n, Or.inl rfl, by rw [h]; exact hids, by rw [h]; exact hcnt⟩
  · have hget : bank.loan_counter.getD 1 = (n : Int) + 1 := by
      rcases hcnt with ⟨h0, hnone⟩ | hsome
      · rw [hnone, h0]; rfl
      · rw [hsome]; rfl
    have hb := hbound hc
    have hwrap : int_wrap ((n : Int) + 1 + 1) = ((n + 1 : Nat) : Int) + 1 := by
      unfold int_wrap; push_cast; omega
    refine ⟨n + 1, Or.inr ⟨rfl, hc⟩, ?_, Or.inr ?_⟩
    · rw [h]
      simp only [List.map_append, hids, hget, List.map_cons, List.map_nil, List.range_succ]
    · rw [h]
      simp only [hget, hwrap]
  · refine ⟨n, Or.inl rfl, ?_, ?_⟩
    · rw [h]
      simp only
      rw [map_loan_id_set hk { l with status := 1, assigned_to_employee_id := e } rfl, hids]
    · rw [h]; exact hcnt
  · refine ⟨n, Or.inl rfl, ?_, by rw [hcn]; exact hcnt⟩
    rcases h with h | h
    · rw [h, map_loan_id_set hk { l with status := 2 } rfl, hids]
    · rw [h, map_loan_id_set hk { l with status := 3 } rfl, hids]
  · exact ⟨n, Or.inl rfl, by rw [h]; exact hids, by rw [hcn]; exact hcnt⟩

theorem loan_ids_run (calls : List LoanCall) (bank : Bank) (n : Nat)
    (hids : bank.loans.map (fun l => l.loan_id) = (List.range n).map (fun (m : Nat) => (m : Int) + 1))
    (hcnt : (n = 0 ∧ bank.loan_counter = none) ∨ bank.loan_counter = some ((n : Int) + 1))
    (hbound : n + (calls.filter (fun c => c.is_create)).length < 2147483647) :
    ∃ n', (run_loan_calls bank calls).loans.map (fun l => l.loan_id)
        = (List.range n').map (fun (m : Nat) => (m : Int) + 1) ∧
      ((n' = 0 ∧ (run_loan_calls bank calls).loan_counter = none) ∨
        (run_loan_calls bank calls).loan_counter = some ((n' : Int) + 1)) := by
  induction calls generalizing bank n with
  | nil => exact ⟨n, hids, hcnt⟩
  | cons call calls ih =>
    have hstep := loan_ids_step bank call n hids hcnt (by
      intro hc
      simp only [List.filter_cons, hc, if_true, List.length_cons] at hbound
      omega)
    obtain ⟨n', hn', hids', hcnt'⟩ := hstep
    simp only [run_loan_calls]
    refine ih (call.apply bank) n' hids' hcnt' ?_
    rcases hn' with rfl | ⟨rfl, hc⟩
    · by_cases hc : call.is_create = true
      · simp only [List.filter_cons, hc, if_true, List.length_cons] at hbound
        omega
      · simp only [List.filter_cons, hc, Bool.false_eq_true, if_false] at hbound
        exact hbound
    · simp only [List.filter_cons, hc, if_true, List.length_cons] at hbound
      omega

/-- C15. Loan ids are monotonic and never reused: after any sequence of loan
Create, Assign and Process calls with fewer than 2^31 - 1 creations, started
with an empty loan file and no counter, the ids in the loan file are 1, 2,
3, ... in the order of creation, so strictly increasing and pairwise
distinct, and every one of them is smaller than the value stored in the
counter file. -/
theorem loan_ids_monotonic (db : Database) (calls : List LoanCall)
    (hbound : (calls.filter (fun c => c.is_create)).length < 2147483647) :
    (run_loan_calls ⟨db, [], none⟩ calls).loans.map (fun l => l.loan_id)
      = (List.range (run_loan_calls ⟨db, [], none⟩ calls).loans.length).map
          (fun (m : Nat) => (m : Int) + 1) ∧
    ((run_loan_calls ⟨db, [], none⟩ calls).loans.map (fun l => l.loan_id)).Pairwise
      (fun a b => a < b) ∧
    ((run_loan_calls ⟨db, [], none⟩ calls).loans.map (fun l => l.loan_id)).Nodup ∧
    (∀ l ∈ (run_loan_calls ⟨db, [], none⟩ calls).loans,
      ∃ c, (run_loan_calls ⟨db, [], none⟩ calls).loan_counter = some c ∧ l.loan_id < c) := by
  obtain ⟨n, hids, hcnt⟩ := loan_ids_run calls ⟨db, [], none⟩ 0 rfl (Or.inl ⟨rfl, rfl⟩)
    (by simpa using hbound)
  have hlen : (run_loan_calls ⟨db, [], none⟩ calls).loans.length = n := by
    have := congrArg List.length hids
    simpa using this
  have hpair : ((List.range n).map (fun (m : Nat) => (m : Int) + 1)).Pairwise
      (fun a b => a < b) := by
    rw [List.pairwise_map]
    exact (List.pairwise_lt_range n).imp (fun h => by omega)
  rw [hlen]
  refine ⟨hids, ?_, ?_, ?_⟩
  · rw [hids]; exact hpair
  · rw [hids]
    exact hpair.imp (fun h => ne_of_lt h)
  · intro l hl
    have hmem : l.loan_id ∈ (List.range n).map (fun (m : Nat) => (m : Int) + 1) := by
      rw [← hids]; exact List.mem_map_of_mem _ hl
    obtain ⟨m, hm, hml⟩ := List.mem_map.1 hmem
    have hmn : m < n := List.mem_range.1 hm
    rcases hcnt with ⟨h0, _⟩ | hsome
    · omega
    · exact ⟨_, hsome, by omega⟩

/-- C15 at three creations mixed with an assignment and a processing: the ids
are 1, 2, 3 and each is below the stored counter value. -/
theorem loan_ids_monotonic_witness :
    (run_loan_calls ⟨scenario_db, [], none⟩
        [.create 100 (some 500), .create 200 (some 20), .assign (some 2) (some 7) loan_junk,
         .process 7 (some 2) (some 1) "t1" loan_junk stack_junk,
         .create 100 (some 5)]).loans.map (fun l => l.loan_id) = [1, 2, 3] ∧
    (∀ l ∈ (run_loan_calls ⟨scenario_db, [], none⟩
        [.create 100 (some 500), .create 200 (some 20), .assign (some 2) (some 7) loan_junk,
         .process 7 (some 2) (some 1) "t1" loan_junk stack_junk, .create 100 (some 5)]).loans,
      ∃ c, (run_loan_calls ⟨scenario_db, [], none⟩
        [.create 100 (some 500), .create 200 (some 20), .assign (some 2) (some 7) loan_junk,
         .process 7 (some 2) (some 1) "t1" loan_junk stack_junk,
         .create 100 (some 5)]).loan_counter = some c ∧ l.loan_id < c) :=
  ⟨by decide,
   (loan_ids_monotonic scenario_db
    [.create 100 (some 500), .create 200 (some 20), .assign (some 2) (some 7) loan_junk,
     .process 7 (some 2) (some 1) "t1" loan_junk stack_junk, .create 100 (some 5)]
    (by decide)).2.2.2⟩

theorem loan_call_step (bank : Bank) (call : LoanCall) (k : Nat) (l : LoanApplication)
    (hk : bank.loans[k]? = some l) :
    ∃ l', (call.apply bank).loans[k]? = some l' ∧ loan_step_allowed call l l' := by
  have hlt : k < bank.loans.length := by
    by_contra hc
    rw [List.getElem?_eq_none (by omega)] at hk
    cases hk
  have hset : ∀ (j : Nat) (x : LoanApplication),
      (bank.loans.set j x)[k]? = some (if j = k then x else l) := by
    intro j x
    by_cases hjk : j = k
    · subst hjk
      rw [List.getElem?_set_self hlt, if_pos rfl]
    · rw [List.getElem?_set_ne hjk, hk, if_neg hjk]
  rcases loan_call_apply_cases bank call with h | ⟨_, a, amt, h⟩ | ⟨ha, e, j, x, _, hj, hx, h⟩ |
      ⟨hp, _, j, x, hj, hx, h⟩ | ⟨_, _, h⟩
  · exact ⟨l, by rw [h]; exact hk, Or.inl rfl⟩
  · exact ⟨l, by rw [h]; simp only; rw [List.getElem?_append_left hlt]; exact hk, Or.inl rfl⟩
  · by_cases hjk : j = k
    · subst hjk
      have hxl : x = l := Option.some.inj (hj.symm.trans hk)
      subst hxl
      exact ⟨_, by rw [h]; simp only; rw [hset, if_pos rfl], Or.inr (Or.inl ⟨ha, hx, e, rfl⟩)⟩
    · exact ⟨l, by rw [h]; simp only; rw [hset, if_neg hjk], Or.inl rfl⟩
  · by_cases hjk : j = k
    · subst hjk
      have hxl : x = l := Option.some.inj (hj.symm.trans hk)
      subst hxl
      rcases h with h | h
      · exact ⟨_, by rw [h, hset, if_pos rfl], Or.inr (Or.inr ⟨hp, hx, Or.inl rfl⟩)⟩
      · exact ⟨_, by rw [h, hset, if_pos rfl], Or.inr (Or.inr ⟨hp, hx, Or.inr rfl⟩)⟩
    · rcases h with h | h
      · exact ⟨l, by rw [h, hset, if_neg hjk], Or.inl rfl⟩
      · exact ⟨l, by rw [h, hset, if_neg hjk], Or.inl rfl⟩
  · exact ⟨l, by rw [h]; exact hk, Or.inl rfl⟩

theorem loan_call_new_record (bank : Bank) (call : LoanCall) (k : Nat) (l' : LoanApplication)
    (hk : bank.loans.length ≤ k) (h' : (call.apply bank).loans[k]? = some l') :
    call.is_create = true ∧ l'.status = 0 ∧ l'.assigned_to_employee_id = -1 := by
  have hnone : ∀ (j : Nat) (x : LoanApplication), (bank.loans.set j x)[k]? = none := by
    intro j x
    exact List.getElem?_eq_none (by simpa using hk)
  rcases loan_call_apply_cases bank call with h | ⟨hc, a, amt, h⟩ | ⟨_, e, j, x, _, _, _, h⟩ |
      ⟨_, _, j, x, _, _, h⟩ | ⟨_, _, h⟩
  · rw [h, List.getElem?_eq_none hk] at h'; cases h'
  · rw [h] at h'
    simp only at h'
    rw [List.getElem?_append_right hk] at h'
    have hm := List.getElem?_mem h'
    rw [List.mem_singleton.1 hm]
    exact ⟨hc, rfl, rfl⟩
  · rw [h] at h'; simp only at h'; rw [hnone] at h'; cases h'
  · rcases h with h | h <;> (rw [h, hnone] at h'; cases h')
  · rw [h, List.getElem?_eq_none hk] at h'; cases h'

theorem loan_status_valid_step (bank : Bank) (call : LoanCall)
    (h : ∀ l ∈ bank.loans, l.status = 0 ∨ l.status = 1 ∨ l.status = 2 ∨ l.status = 3) :
    ∀ l ∈ (call.apply bank).loans, l.status = 0 ∨ l.status = 1 ∨ l.status = 2 ∨ l.status = 3 := by
  intro l' hl'
  obtain ⟨k, hk⟩ := List.mem_iff_getElem?.1 hl'
  by_cases hlt : k < bank.loans.length
  · have hkl : bank.loans[k]? = some bank.loans[k] := List.getElem?_eq_getElem hlt
    obtain ⟨l'', hk'', hallowed⟩ := loan_call_step bank call k _ hkl
    have : l'' = l' := Option.some.inj (hk''.symm.trans hk)
    subst this
    rcases hallowed with rfl | ⟨_, _, e, rfl⟩ | ⟨_, _, rfl | rfl⟩
    · exact h _ (List.getElem_mem hlt)
    · exact Or.inr (Or.inl rfl)
    · exact Or.inr (Or.inr (Or.inl rfl))
    · exact Or.inr (Or.inr (Or.inr rfl))
  · exact Or.inl (loan_call_new_record bank call k l' (not_lt.mp hlt) hk).2.1

theorem loan_status_valid_run (calls : List LoanCall) (bank : Bank)
    (h : ∀ l ∈ bank.loans, l.status = 0 ∨ l.status = 1 ∨ l.status = 2 ∨ l.status = 3) :
    ∀ l ∈ (run_loan_calls bank calls).loans,
      l.status = 0 ∨ l.status = 1 ∨ l.status = 2 ∨ l.status = 3 := by
  induction calls generalizing bank with
  | nil => exact h
  | cons call calls ih => exact ih _ (loan_status_valid_step bank call h)

theorem loan_terminal_step (bank : Bank) (call : LoanCall) (k : Nat) (l : LoanApplication)
    (hk : bank.loans[k]? = some l) (hterm : l.status = 2 ∨ l.status = 3) :
    (call.apply bank).loans[k]? = some l := by
  obtain ⟨l', hk', hallowed⟩ := loan_call_step bank call k l hk
  rcases hallowed with rfl | ⟨_, h0, _⟩ | ⟨_, h1, _⟩
  · exact hk'
  · rcases hterm with h | h <;> omega
  · rcases hterm with h | h <;> omega

theorem loan_terminal_run (calls : List LoanCall) (bank : Bank) (k : Nat) (l : LoanApplication)
    (hk : bank.loans[k]? = some l) (hterm : l.status = 2 ∨ l.status = 3) :
    (run_loan_calls bank calls).loans[k]? = some l := by
  induction calls generalizing bank with
  | nil => exact hk
  | cons call calls ih => exact ih _ (loan_terminal_step bank call k l hk hterm)

/-- C19. Loan state machine: in one call a loan record stays as it is, or goes
from Requested (0) to Assigned (1) in an assignment, or from Assigned (1) to
Approved (2) or Rejected (3) in a processing, with no other field changing
but the assignee on assignment; a record that a call adds is Requested. So
over every sequence of Create, Assign and Process calls the statuses stay in
{0, 1, 2, 3}, and a loan that is Approved or Rejected is never modified
again. -/
theorem loan_state_machine (bank : Bank) :
    (∀ (call : LoanCall) (k : Nat) (l : LoanApplication), bank.loans[k]? = some l →
      ∃ l', (call.apply bank).loans[k]? = some l' ∧ loan_step_allowed call l l') ∧
    (∀ (call : LoanCall) (k : Nat) (l' : LoanApplication), bank.loans.length ≤ k →
      (call.apply bank).loans[k]? = some l' → call.is_create = true ∧ l'.status = 0) ∧
    (∀ calls : List LoanCall,
      (∀ l ∈ bank.loans, l.status = 0 ∨ l.status = 1 ∨ l.status = 2 ∨ l.status = 3) →
      ∀ l ∈ (run_loan_calls bank calls).loans,
        l.status = 0 ∨ l.status = 1 ∨ l.status = 2 ∨ l.status = 3) ∧
    (∀ (calls : List LoanCall) (k : Nat) (l : LoanApplication), bank.loans[k]? = some l →
      l.status = 2 ∨ l.status = 3 → (run_loan_calls bank calls).loans[k]? = some l) :=
  ⟨fun call k l hk => loan_call_step bank call k l hk,
   fun call k l' hk h' =>
     ⟨(loan_call_new_record bank call k l' hk h').1, (loan_call_new_record bank call k l' hk h').2.1⟩,
   fun calls h => loan_status_valid_run calls bank h,
   fun calls k l hk hterm => loan_terminal_run calls bank k l hk hterm⟩

/-- C19 at the bank whose loan 2 was approved: a later assignment and a later
processing of loan 2, and a new request, leave that record as it is. -/
theorem loan_state_machine_witness :
    (run_loan_calls ⟨scenario_db, [⟨1, 100, 500, 0, -1⟩, ⟨2, 200, 20, 2, 7⟩], some 3⟩
        [.assign (some 2) (some 9) loan_junk,
         .process 7 (some 2) (some 2) "t1" loan_junk stack_junk,
         .create 200 (some 40)]).loans[1]? = some ⟨2, 200, 20, 2, 7⟩ :=
  (loan_state_machine ⟨scenario_db, [⟨1, 100, 500, 0, -1⟩, ⟨2, 200, 20, 2, 7⟩], some 3⟩).2.2.2
    [.assign (some 2) (some 9) loan_junk, .process 7 (some 2) (some 2) "t1" loan_junk stack_junk,
     .create 200 (some 40)] 1 ⟨2, 200, 20, 2, 7⟩ rfl (Or.inl rfl)

theorem mem_set_loans {loans : List LoanApplication} {k : Nat} {x l : LoanApplication}
    (h : l ∈ loans.set k x) : l ∈ loans ∨ l = x :=
  List.mem_or_eq_of_mem_set h

theorem assignee_forward_step (bank : Bank) (call : LoanCall)
    (hinv : ∀ l ∈ bank.loans, l.status = 0 → l.assigned_to_employee_id = -1) :
    ∀ l ∈ (call.apply bank).loans, l.status = 0 → l.assigned_to_employee_id = -1 := by
  intro l' hl' h0
  obtain ⟨k, hk⟩ := List.mem_iff_getElem?.1 hl'
  by_cases hlt : k < bank.loans.length
  · have hkl : bank.loans[k]? = some bank.loans[k] := List.getElem?_eq_getElem hlt
    obtain ⟨l'', hk'', hallowed⟩ := loan_call_step bank call k _ hkl
    have : l'' = l' := Option.some.inj (hk''.symm.trans hk)
    subst this
    rcases hallowed with rfl | ⟨_, _, e, rfl⟩ | ⟨_, _, rfl | rfl⟩
    · exact hinv _ (List.getElem_mem hlt) h0
    · simp at h0
    · simp at h0
    · simp at h0
  · exact (loan_call_new_record bank call k l' (not_lt.mp hlt) hk).2.2

theorem assignee_iff_step (bank : Bank) (call : LoanCall)
    (hinv : ∀ l ∈ bank.loans, l.status = 0 ↔ l.assigned_to_employee_id = -1)
    (hcall : call.assigns_absent = false) :
    ∀ l ∈ (call.apply bank).loans, l.status = 0 ↔ l.assigned_to_employee_id = -1 := by
  rcases loan_call_apply_cases bank call with h | ⟨_, a, amt, h⟩ | ⟨_, e, j, x, he, hj, hx, h⟩ |
      ⟨_, _, j, x, hj, hx, h⟩ | ⟨_, _, h⟩
  · rw [h]; exact hinv
  · rw [h]
    intro l hl
    rcases List.mem_append.1 hl with hm | hm
    · exact hinv l hm
    · rw [List.mem_singleton.1 hm]
      exact ⟨fun _ => rfl, fun _ => rfl⟩
  · rw [h]
    intro l hl
    rcases mem_set_loans hl with hm | rfl
    · exact hinv l hm
    · have hne : e ≠ -1 := by
        intro hc
        rw [he hc] at hcall
        cases hcall
      simp [hne]
  · have hxa : x.assigned_to_employee_id ≠ -1 := by
      intro hc
      have := (hinv x (List.getElem?_mem hj)).2 hc
      omega
    intro l hl
    rcases h with h | h
    · rw [h] at hl
      rcases mem_set_loans hl with hm | rfl
      · exact hinv l hm
      · simp [hxa]
    · rw [h] at hl
      rcases mem_set_loans hl with hm | rfl
      · exact hinv l hm
      · simp [hxa]
  · rw [h]; exact hinv

/-- C20, as stated, fails: after a loan request of account 100 and an
assignment of that loan with the staff id -1, the loan is Assigned (1) and
its assignee field is -1. -/
theorem assignee_absent_counterexample :
    (run_loan_calls fresh_bank
        [.create 100 (some 500), .assign (some 1) (some (-1)) loan_junk]).loans
      = [⟨1, 100, 500, 1, -1⟩] ∧
    ¬ (∀ l ∈ (run_loan_calls fresh_bank
          [.create 100 (some 500), .assign (some 1) (some (-1)) loan_junk]).loans,
        l.assigned_to_employee_id = -1 ↔ l.status = 0) := by
  have h : (run_loan_calls fresh_bank
      [.create 100 (some 500), .assign (some 1) (some (-1)) loan_junk]).loans
      = [⟨1, 100, 500, 1, -1⟩] := by decide
  refine ⟨h, ?_⟩
  rw [h]
  intro hc
  have := (hc ⟨1, 100, 500, 1, -1⟩ (by simp)).1 rfl
  simp at this

/-- C20, amended. In every loan file reached by Create, Assign and Process
calls from a file in which the assignee is -1 exactly for the Requested
loans (the empty file, for one), a Requested loan has assignee -1; and if no
assignment was given the staff id -1, a loan's assignee is -1 if and only if
its status is Requested. -/
theorem assignee_absent_iff_requested (bank : Bank) (calls : List LoanCall)
    (h0 : ∀ l ∈ bank.loans, l.status = 0 ↔ l.assigned_to_employee_id = -1) :
    (∀ l ∈ (run_loan_calls bank calls).loans,
      l.status = 0 → l.assigned_to_employee_id = -1) ∧
    ((∀ c ∈ calls, c.assigns_absent = false) →
      ∀ l ∈ (run_loan_calls bank calls).loans,
        l.assigned_to_employee_id = -1 ↔ l.status = 0) := by
  constructor
  · have hf : ∀ l ∈ bank.loans, l.status = 0 → l.assigned_to_employee_id = -1 :=
      fun l hl => (h0 l hl).1
    clear h0
    induction calls generalizing bank with
    | nil => exact hf
    | cons call calls ih => exact ih _ (assignee_forward_step bank call hf)
  · intro hcalls
    have key : ∀ l ∈ (run_loan_calls bank calls).loans,
        l.status = 0 ↔ l.assigned_to_employee_id = -1 := by
      induction calls generalizing bank with
      | nil => exact h0
      | cons call calls ih =>
        exact ih _ (assignee_iff_step bank call h0 (hcalls call (by simp)))
          (fun c hc => hcalls c (by simp [hc]))
    exact fun l hl => (key l hl).symm

/-- C20, amended, at two requests followed by an assignment of loan 1 to
employee 7 and its rejection by employee 7. -/
theorem assignee_absent_iff_requested_witness :
    (run_loan_calls fresh_bank
        [.create 100 (some 500), .create 200 (some 20), .assign (some 1) (some 7) loan_junk,
         .process 7 (some 1) (some 2) "t1" loan_junk stack_junk]).loans
      = [⟨1, 100, 500, 3, 7⟩, ⟨2, 200, 20, 0, -1⟩] ∧
    (∀ l ∈ (run_loan_calls fresh_bank
        [.create 100 (some 500), .create 200 (some 20), .assign (some 1) (some 7) loan_junk,
         .process 7 (some 1) (some 2) "t1" loan_junk stack_junk]).loans,
      l.assigned_to_employee_id = -1 ↔ l.status = 0) :=
  ⟨by decide,
   (assignee_absent_iff_requested fresh_bank
    [.create 100 (some 500), .create 200 (some 20), .assign (some 1) (some 7) loan_junk,
     .process 7 (some 1) (some 2) "t1" loan_junk stack_junk]
    (by intro l hl; cases hl)).2 (by decide)⟩

/-! ## Claims about the session locks -/

theorem lookup_filter_ne (names : List (String × Nat)) (name : String) :
    (names.filter (fun entry => entry.1 ≠ name)).lookup name = none := by
  induction names with
  | nil => rfl
  | cons entry rest ih =>
    by_cases h : entry.1 = name
    · rw [List.filter_cons]
      simp only [ne_eq, h, not_true_eq_false, decide_False, Bool.false_eq_true, if_false]
      exact ih
    · have hne : (name == entry.1) = false := by
        simp only [beq_eq_false_iff_ne, ne_eq]
        exact fun hc => h hc.symm
      simp only [List.filter_cons, ne_eq, h, not_false_eq_true, decide_True, if_true]
      rw [show entry = (entry.1, entry.2) from rfl, List.lookup_cons, hne]
      exact ih

theorem try_acquire_free {sems : Semaphores} {session_id : Int}
    (hfree : sems.names.lookup (session_sem_name session_id) = none) :
    try_acquire sems session_id
      = (true, sems.values.length,
         ⟨sems.values ++ [0], (session_sem_name session_id, sems.values.length) :: sems.names⟩,
         ⟨session_id, some sems.values.length⟩) := by
  simp [try_acquire, create_session_lock, sem_open, hfree, sem_trywait]

theorem try_acquire_held {sems : Semaphores} {session_id : Int} {sem : Nat}
    (hname : sems.names.lookup (session_sem_name session_id) = some sem)
    (hvalue : sems.values[sem]? = some 0) :
    try_acquire sems session_id = (false, sem, sems, ⟨session_id, some sem⟩) := by
  simp [try_acquire, create_session_lock, sem_open, hname, sem_trywait, hvalue]

theorem release_after_acquire (sems : Semaphores) (globals : SessionGlobals)
    {session_id : Int} (hid : 0 < session_id) :
    release_session_lock
        ⟨sems.values ++ [0], (session_sem_name session_id, sems.values.length) :: sems.names⟩
        globals session_id (some sems.values.length)
      = (⟨sems.values ++ [1],
          sems.names.filter (fun entry => entry.1 ≠ session_sem_name session_id)⟩,
         ⟨-1, none⟩) := by
  have hne : session_id ≠ -1 := by omega
  simp [release_session_lock, hne, sem_post, sem_unlink, List.filter_cons]

theorem login_attempt_failed {sems : Semaphores} (globals : SessionGlobals) {session_id : Int}
    (hid : 0 < session_id)
    (hfree : sems.names.lookup (session_sem_name session_id) = none) :
    login_attempt sems globals session_id false
      = (.invalid_credentials,
         ⟨sems.values ++ [1],
          sems.names.filter (fun entry => entry.1 ≠ session_sem_name session_id)⟩,
         ⟨-1, none⟩) := by
  have hnle : ¬ session_id ≤ 0 := not_le.mpr hid
  simp only [login_attempt, hnle, if_false, try_acquire_free hfree, Bool.true_eq_false,
    Bool.false_eq_true, release_after_acquire sems _ hid]

/-- C13. Session lock acquire and release: when no semaphore is named for the
identity `i`, a TryAcquire for `i` (`create_session_lock`, then
`sem_trywait`) takes the lock; a second TryAcquire for `i` while it is held
gets `EAGAIN` and leaves the semaphores as they are; and after
`release_session_lock` by the holder, be it at logout or right after a
failed credential check, no semaphore is named for `i` and a TryAcquire for
`i` takes the lock again. -/
theorem session_lock_acquire_release (sems : Semaphores) (globals : SessionGlobals) (i : Int)
    (hid : 0 < i) (hfree : sems.names.lookup (session_sem_name i) = none) :
    (try_acquire sems i).1 = true ∧
    (try_acquire (try_acquire sems i).2.2.1 i).1 = false ∧
    (try_acquire (try_acquire sems i).2.2.1 i).2.2.1 = (try_acquire sems i).2.2.1 ∧
    login_attempt (try_acquire sems i).2.2.1 globals i true
      = (.already_logged_in, (try_acquire sems i).2.2.1, ⟨i, some (try_acquire sems i).2.1⟩) ∧
    ((release_session_lock (try_acquire sems i).2.2.1 globals i
        (some (try_acquire sems i).2.1)).1.names.lookup (session_sem_name i) = none ∧
      (try_acquire
        (release_session_lock (try_acquire sems i).2.2.1 globals i
          (some (try_acquire sems i).2.1)).1 i).1 = true) ∧
    ((login_attempt sems globals i false).1 = .invalid_credentials ∧
      (login_attempt sems globals i false).2.1.names.lookup (session_sem_name i) = none ∧
      (try_acquire (login_attempt sems globals i false).2.1 i).1 = true) := by
  have h1 := try_acquire_free hfree
  have hname : (⟨sems.values ++ [0], (session_sem_name i, sems.values.length) :: sems.names⟩ :
      Semaphores).names.lookup (session_sem_name i) = some sems.values.length := by
    simp [List.lookup_cons]
  have hvalue : (⟨sems.values ++ [0], (session_sem_name i, sems.values.length) :: sems.names⟩ :
      Semaphores).values[sems.values.length]? = some 0 := by
    simp
  have h2 := try_acquire_held hname hvalue
  have h3 := release_after_acquire sems globals hid
  have hfree' : (⟨sems.values ++ [1],
      sems.names.filter (fun entry => entry.1 ≠ session_sem_name i)⟩ :
      Semaphores).names.lookup (session_sem_name i) = none := lookup_filter_ne _ _
  have h4 := try_acquire_free hfree'
  have hnle : ¬ i ≤ 0 := not_le.mpr hid
  refine ⟨by rw [h1], by rw [h1]; simp only; rw [h2], by rw [h1]; simp only; rw [h2], ?_, ?_, ?_⟩
  · rw [h1]
    simp only [login_attempt, hnle, if_false, h2, if_true]
  · rw [h1]
    simp only
    rw [h3]
    exact ⟨hfree', by rw [h4]⟩
  · rw [login_attempt_failed globals hid hfree]
    exact ⟨rfl, hfree', by rw [h4]⟩

/-- C13 with no semaphore at all and identity 5: the first login succeeds, a
second one is refused, and after a failed credential check the identity can
be taken again. -/
theorem session_lock_acquire_release_witness :
    (try_acquire ⟨[], []⟩ 5).1 = true ∧
    login_attempt (try_acquire ⟨[], []⟩ 5).2.2.1 ⟨-1, none⟩ 5 true
      = (.already_logged_in, (try_acquire ⟨[], []⟩ 5).2.2.1,
         ⟨5, some (try_acquire ⟨[], []⟩ 5).2.1⟩) ∧
    (try_acquire (login_attempt ⟨[], []⟩ ⟨-1, none⟩ 5 false).2.1 5).1 = true :=
  ⟨(session_lock_acquire_release ⟨[], []⟩ ⟨-1, none⟩ 5 (by decide) rfl).1,
   (session_lock_acquire_release ⟨[], []⟩ ⟨-1, none⟩ 5 (by decide) rfl).2.2.2.1,
   (session_lock_acquire_release ⟨[], []⟩ ⟨-1, none⟩ 5 (by decide) rfl).2.2.2.2.2.2.2⟩

/-- C12 fails on the code: in the interleaving `double_login_events` of three
login attempts for identity 5, every step of which is a call the login loop
makes, processes 1 and 2 end up holding an active session for identity 5 at
the same time. Process 1 holds the semaphore whose name process 0 unlinked;
process 2 holds the one created afterwards under the same name. -/
theorem session_exclusivity_violated :
    (three_idle_processes.run double_login_events).active_sessions 5 = [1, 2] ∧
    (three_idle_processes.run double_login_events).procs
      = [⟨.idle, ⟨-1, none⟩, []⟩, ⟨.active 5 0, ⟨5, some 0⟩, [0]⟩,
         ⟨.active 5 1, ⟨5, some 1⟩, [1]⟩] := by
  decide
/-! ## Concurrent callers on one account -/

theorem map_set_same {α β : Type} (f : α → β) {l : List α} {i : Nat} {x : α}
    (h : l[i]? = some x) (y : α) (hf : f y = f x) : (l.set i y).map f = l.map f := by
  induction l generalizing i with
  | nil => simp
  | cons a rest ih =>
    cases i with
    | zero =>
      simp only [List.getElem?_cons_zero, Option.some.injEq] at h
      subst h
      simp [hf]
    | succ j =>
      have hj : rest[j]? = some x := by simpa using h
      simp only [List.set_cons_succ, List.map_cons, ih hj]

theorem sum_map_set {α : Type} (f : α → Nat) {l : List α} {i : Nat} {x : α}
    (h : l[i]? = some x) (y : α) :
    ((l.set i y).map f).sum + f x = (l.map f).sum + f y := by
  induction l generalizing i with
  | nil => simp at h
  | cons a rest ih =>
    cases i with
    | zero =>
      simp only [List.getElem?_cons_zero, Option.some.injEq] at h
      subst h
      simp only [List.set_cons_zero, List.map_cons, List.sum_cons]
      omega
    | succ j =>
      have hj : rest[j]? = some x := by simpa using h
      have := ih hj
      simp only [List.set_cons_succ, List.map_cons, List.sum_cons]
      omega

theorem getElem?_lt_length {α : Type} {l : List α} {i : Nat} {x : α} (h : l[i]? = some x) :
    i < l.length := by
  by_contra hc
  rw [List.getElem?_eq_none (by omega)] at h
  cases h

theorem set_same {α : Type} {l : List α} {i : Nat} {x : α} (h : l[i]? = some x) :
    l.set i x = l := by
  induction l generalizing i with
  | nil => rfl
  | cons a rest ih =>
    cases i with
    | zero =>
      simp only [List.getElem?_cons_zero, Option.some.injEq] at h
      subst h
      rfl
    | succ j =>
      have hj : rest[j]? = some x := by simpa using h
      simp only [List.set_cons_succ, ih hj]

/-- The invariant survives when caller `i` moves from `t` to `t'`, the lock
being held by `i` exactly while it is between lock and unlock. -/
theorem teller_inv_update {account₀ : CustomerAccount} {ops : List TellerOp}
    {s : TellerSystem} (hinv : TellerInv account₀ ops s) {i : Nat} {t : Teller}
    (ht : s.tellers[i]? = some t) (t' : Teller) (account' : CustomerAccount)
    (updates' : List Nat)
    (hop : t'.op = t.op)
    (hholder : s.holder = if t.pc.in_critical = true then some i else none)
    (hacc : account'
      = (updates'.filterMap (fun i => ops[i]?)).foldl (fun account op => op.result account)
          account₀)
    (hloaded : ∀ account, t'.pc = .loaded account → account = account')
    (hnodup : updates'.Nodup)
    (hmem_self : i ∈ updates' ↔ t'.pc.updated = true)
    (hmem_other : ∀ j, j ≠ i → (j ∈ updates' ↔ j ∈ s.updates)) :
    TellerInv account₀ ops
      ⟨account', if t'.pc.in_critical = true then some i else none, s.tellers.set i t',
        updates'⟩ := by
  have hi := getElem?_lt_length ht
  have hother : ∀ j u, j ≠ i → s.tellers[j]? = some u → u.pc.in_critical = false := by
    intro j u hji hu
    by_contra hc
    have hcrit : u.pc.in_critical = true := by
      cases h : u.pc.in_critical
      · exact absurd h hc
      · rfl
    have := hinv.holder_of_critical j u hu hcrit
    rw [hholder] at this
    split at this
    · exact hji (Option.some.inj this).symm
    · cases this
  constructor
  · show (s.tellers.set i t').map (fun t => t.op) = ops
    rw [map_set_same (fun t => t.op) ht t' hop]
    exact hinv.ops_eq
  · exact hacc
  · intro j u hu hcrit
    show (if t'.pc.in_critical = true then some i else none) = some j
    by_cases hji : j = i
    · subst hji
      rw [List.getElem?_set_self hi] at hu
      have : t' = u := Option.some.inj hu
      subst this
      rw [if_pos hcrit]
    · rw [List.getElem?_set_ne (Ne.symm hji)] at hu
      rw [hother j u hji hu] at hcrit
      cases hcrit
  · intro j hj
    have hj' : (if t'.pc.in_critical = true then some i else none) = some j := hj
    split at hj'
    · rename_i hcrit
      have : i = j := Option.some.inj hj'
      subst this
      exact ⟨t', List.getElem?_set_self hi, hcrit⟩
    · cases hj'
  · intro j u account hu hpc
    show account = account'
    by_cases hji : j = i
    · subst hji
      rw [List.getElem?_set_self hi] at hu
      have : t' = u := Option.some.inj hu
      subst this
      exact hloaded account hpc
    · rw [List.getElem?_set_ne (Ne.symm hji)] at hu
      have := hother j u hji hu
      rw [hpc] at this
      cases this
  · exact hnodup
  · intro j
    show j ∈ updates' ↔ ∃ u : Teller, (s.tellers.set i t')[j]? = some u ∧ u.pc.updated = true
    by_cases hji : j = i
    · subst hji
      rw [hmem_self, List.getElem?_set_self hi]
      constructor
      · intro h; exact ⟨t', rfl, h⟩
      · rintro ⟨u, hu, h⟩
        rw [Option.some.inj hu]; exact h
    · rw [hmem_other j hji, List.getElem?_set_ne (Ne.symm hji)]
      exact hinv.mem_updates j

theorem teller_inv_initial (account₀ : CustomerAccount) (ops : List TellerOp) :
    TellerInv account₀ ops (TellerSystem.initial account₀ ops) := by
  have hpc : ∀ t ∈ (TellerSystem.initial account₀ ops).tellers, t.pc = .start := by
    intro t ht
    simp only [TellerSystem.initial, List.mem_map] at ht
    obtain ⟨op, _, rfl⟩ := ht
    rfl
  constructor
  · simp [TellerSystem.initial, Function.comp_def]
  · rfl
  · intro i t ht hcrit
    rw [hpc t (List.getElem?_mem ht)] at hcrit
    cases hcrit
  · intro i hi
    cases hi
  · intro i t account ht hload
    rw [hpc t (List.getElem?_mem ht)] at hload
    cases hload
  · exact List.nodup_nil
  · intro i
    constructor
    · intro h; cases h
    · rintro ⟨t, ht, h⟩
      rw [hpc t (List.getElem?_mem ht)] at h
      cases h

theorem teller_op_at {account₀ : CustomerAccount} {ops : List TellerOp} {s : TellerSystem}
    (hinv : TellerInv account₀ ops s) {i : Nat} {t : Teller} (ht : s.tellers[i]? = some t) :
    ops[i]? = some t.op := by
  rw [← hinv.ops_eq, List.getElem?_map, ht]
  rfl

theorem teller_not_updated {account₀ : CustomerAccount} {ops : List TellerOp} {s : TellerSystem}
    (hinv : TellerInv account₀ ops s) {i : Nat} {t : Teller} (ht : s.tellers[i]? = some t)
    (h : t.pc.updated = false) : i ∉ s.updates := by
  intro hm
  obtain ⟨u, hu, hupd⟩ := (hinv.mem_updates i).1 hm
  rw [ht] at hu
  rw [← Option.some.inj hu, h] at hupd
  cases hupd

theorem teller_account_append {account₀ : CustomerAccount} {ops : List TellerOp}
    {s : TellerSystem} (hinv : TellerInv account₀ ops s) {i : Nat} {t : Teller}
    (ht : s.tellers[i]? = some t) :
    t.op.result s.account
      = ((s.updates ++ [i]).filterMap (fun i => ops[i]?)).foldl
          (fun account op => op.result account) account₀ := by
  rw [List.filterMap_append, List.foldl_append, ← hinv.account_eq]
  simp [List.filterMap_cons, teller_op_at hinv ht]

/-- Every move of a caller keeps the invariant. -/
theorem teller_inv_step {account₀ : CustomerAccount} {ops : List TellerOp}
    {s s' : TellerSystem} (hinv : TellerInv account₀ ops s) {i : Nat}
    (hstep : s.step i = some s') : TellerInv account₀ ops s' := by
  unfold TellerSystem.step at hstep
  cases ht : s.tellers[i]? with
  | none => rw [ht] at hstep; cases hstep
  | some t =>
    rw [ht] at hstep
    simp only at hstep
    have hsame : ∀ (pc' : TellerPc), pc'.updated = t.pc.updated →
        (i ∈ s.updates ↔ pc'.updated = true) := by
      intro pc' h
      rw [h]
      constructor
      · intro hm
        obtain ⟨u, hu, hupd⟩ := (hinv.mem_updates i).1 hm
        rw [ht] at hu
        rw [Option.some.inj hu]; exact hupd
      · intro h'; exact (hinv.mem_updates i).2 ⟨t, ht, h'⟩
    have happ : ∀ j, j ≠ i → (j ∈ s.updates ++ [i] ↔ j ∈ s.updates) := by
      intro j hji
      simp [hji]
    obtain ⟨op, pc⟩ := t
    cases pc with
    | start =>
      simp only at hstep
      split_ifs at hstep with hfree
      have e : s' = ⟨s.account,
          if (⟨op, .locked⟩ : Teller).pc.in_critical = true then some i else none,
          s.tellers.set i ⟨op, .locked⟩, s.updates⟩ := by
        rw [← Option.some.inj hstep]; rfl
      rw [e]
      refine teller_inv_update hinv ht ⟨op, .locked⟩ s.account s.updates rfl ?_ hinv.account_eq
        ?_ hinv.updates_nodup (hsame _ rfl) (fun j _ => Iff.rfl)
      · simpa [TellerPc.in_critical] using hfree
      · intro account h; cases h
    | locked =>
      simp only at hstep
      have hh := hinv.holder_of_critical i _ ht rfl
      have e : s' = ⟨s.account,
          if (⟨op, .loaded s.account⟩ : Teller).pc.in_critical = true then some i else none,
          s.tellers.set i ⟨op, .loaded s.account⟩, s.updates⟩ := by
        rw [← Option.some.inj hstep]
        simp [TellerPc.in_critical, hh]
      rw [e]
      refine teller_inv_update hinv ht ⟨op, .loaded s.account⟩ s.account s.updates rfl ?_
        hinv.account_eq ?_ hinv.updates_nodup (hsame _ rfl) (fun j _ => Iff.rfl)
      · simpa [TellerPc.in_critical] using hh
      · intro account h
        exact (TellerPc.loaded.inj h).symm
    | loaded account =>
      have hh := hinv.holder_of_critical i _ ht rfl
      have hacc : account = s.account := hinv.loaded_current i _ account ht rfl
      subst hacc
      have hnot : i ∉ s.updates := teller_not_updated hinv ht rfl
      have hnodup : (s.updates ++ [i]).Nodup := by
        rw [List.nodup_append]
        refine ⟨hinv.updates_nodup, List.nodup_singleton i, ?_⟩
        intro a ha hb
        rw [List.mem_singleton] at hb
        subst hb
        exact hnot ha
      have hself : ∀ ok, (i ∈ s.updates ++ [i] ↔ (TellerPc.stored ok).updated = true) := by
        intro ok
        simp [TellerPc.updated]
      have hres := teller_account_append hinv ht
      cases op with
      | deposit amount =>
        simp only at hstep
        have e : s' = ⟨{ s.account with balance := s.account.balance + amount },
            if (⟨.deposit amount, .stored true⟩ : Teller).pc.in_critical = true then some i
            else none,
            s.tellers.set i ⟨.deposit amount, .stored true⟩, s.updates ++ [i]⟩ := by
          rw [← Option.some.inj hstep]
          simp [TellerPc.in_critical, hh]
        rw [e]
        refine teller_inv_update hinv ht ⟨.deposit amount, .stored true⟩ _ _ rfl ?_ ?_ ?_ hnodup
          (hself true) happ
        · simpa [TellerPc.in_critical] using hh
        · rw [← hres]; rfl
        · intro account h; cases h
      | withdrawal amount =>
        simp only at hstep
        split_ifs at hstep with hfunds
        · have e : s' = ⟨s.account,
              if (⟨.withdrawal amount, .stored false⟩ : Teller).pc.in_critical = true then some i
              else none,
              s.tellers.set i ⟨.withdrawal amount, .stored false⟩, s.updates ++ [i]⟩ := by
            rw [← Option.some.inj hstep]
            simp [TellerPc.in_critical, hh]
          rw [e]
          refine teller_inv_update hinv ht ⟨.withdrawal amount, .stored false⟩ _ _ rfl ?_ ?_ ?_
            hnodup (hself false) happ
          · simpa [TellerPc.in_critical] using hh
          · rw [← hres]
            simp [TellerOp.result, hfunds]
          · intro account h; cases h
        · have e : s' = ⟨{ s.account with balance := s.account.balance - amount },
              if (⟨.withdrawal amount, .stored true⟩ : Teller).pc.in_critical = true then some i
              else none,
              s.tellers.set i ⟨.withdrawal amount, .stored true⟩, s.updates ++ [i]⟩ := by
            rw [← Option.some.inj hstep]
            simp [TellerPc.in_critical, hh]
          rw [e]
          refine teller_inv_update hinv ht ⟨.withdrawal amount, .stored true⟩ _ _ rfl ?_ ?_ ?_
            hnodup (hself true) happ
          · simpa [TellerPc.in_critical] using hh
          · rw [← hres]
            simp [TellerOp.result, hfunds]
          · intro account h; cases h
    | stored ok =>
      simp only at hstep
      have hh := hinv.holder_of_critical i _ ht rfl
      have e : s' = ⟨s.account,
          if (⟨op, .done ok⟩ : Teller).pc.in_critical = true then some i else none,
          s.tellers.set i ⟨op, .done ok⟩, s.updates⟩ := by
        rw [← Option.some.inj hstep]
        simp [TellerPc.in_critical]
      rw [e]
      refine teller_inv_update hinv ht ⟨op, .done ok⟩ s.account s.updates rfl ?_
        hinv.account_eq ?_ hinv.updates_nodup (hsame _ rfl) (fun j _ => Iff.rfl)
      · simpa [TellerPc.in_critical] using hh
      · intro account h; cases h
    | done ok => simp only at hstep; cases hstep

theorem teller_inv_reachable {account₀ : CustomerAccount} {ops : List TellerOp} {n : Nat}
    {s : TellerSystem} (h : TellerSystem.ReachableIn (TellerSystem.initial account₀ ops) n s) :
    TellerInv account₀ ops s := by
  induction h with
  | start => exact teller_inv_initial account₀ ops
  | next n s s' i _ hstep ih => exact teller_inv_step ih hstep
/-- A move of a caller takes one from the moves that remain. -/
theorem teller_remaining_step {s s' : TellerSystem} {i : Nat} (hstep : s.step i = some s') :
    s'.remaining + 1 = s.remaining := by
  unfold TellerSystem.step at hstep
  cases ht : s.tellers[i]? with
  | none => rw [ht] at hstep; cases hstep
  | some t =>
    rw [ht] at hstep
    simp only at hstep
    have hset : ∀ t' : Teller, t'.pc.remaining + 1 = t.pc.remaining →
        ((s.tellers.set i t').map (fun t => t.pc.remaining)).sum + 1
          = (s.tellers.map (fun t => t.pc.remaining)).sum := by
      intro t' h
      have := sum_map_set (fun t : Teller => t.pc.remaining) ht t'
      simp only at this
      omega
    obtain ⟨op, pc⟩ := t
    cases pc with
    | start =>
      simp only at hstep
      split_ifs at hstep with hfree
      rw [← Option.some.inj hstep]
      exact hset ⟨op, .locked⟩ rfl
    | locked =>
      simp only at hstep
      rw [← Option.some.inj hstep]
      exact hset ⟨op, .loaded s.account⟩ rfl
    | loaded account =>
      cases op with
      | deposit amount =>
        simp only at hstep
        rw [← Option.some.inj hstep]
        exact hset ⟨.deposit amount, .stored true⟩ rfl
      | withdrawal amount =>
        simp only at hstep
        split_ifs at hstep with hfunds
        · rw [← Option.some.inj hstep]
          exact hset ⟨.withdrawal amount, .stored false⟩ rfl
        · rw [← Option.some.inj hstep]
          exact hset ⟨.withdrawal amount, .stored true⟩ rfl
    | stored ok =>
      simp only at hstep
      rw [← Option.some.inj hstep]
      exact hset ⟨op, .done ok⟩ rfl
    | done ok => simp only at hstep; cases hstep

theorem teller_remaining_initial (account₀ : CustomerAccount) (ops : List TellerOp) :
    (TellerSystem.initial account₀ ops).remaining = 4 * ops.length := by
  show ((ops.map (fun op => (⟨op, .start⟩ : Teller))).map (fun t => t.pc.remaining)).sum
    = 4 * ops.length
  induction ops with
  | nil => rfl
  | cons op rest ih =>
    show 4 + ((rest.map (fun op => (⟨op, .start⟩ : Teller))).map (fun t => t.pc.remaining)).sum
      = 4 * (rest.length + 1)
    rw [ih]
    omega

/-- After `n` moves, `4 N - n` moves remain. -/
theorem teller_remaining_reachable {account₀ : CustomerAccount} {ops : List TellerOp} {n : Nat}
    {s : TellerSystem} (h : TellerSystem.ReachableIn (TellerSystem.initial account₀ ops) n s) :
    n + s.remaining = 4 * ops.length := by
  induction h with
  | start => rw [teller_remaining_initial]; omega
  | next n s s' i _ hstep ih =>
    have := teller_remaining_step hstep
    omega

theorem teller_remaining_zero_iff (tellers : List Teller) :
    (tellers.map (fun t => t.pc.remaining)).sum = 0 ↔ ∀ t ∈ tellers, ∃ ok, t.pc = .done ok := by
  induction tellers with
  | nil => simp
  | cons t rest ih =>
    simp only [List.map_cons, List.sum_cons, List.mem_cons, forall_eq_or_imp, ← ih]
    constructor
    · intro h
      have h1 : t.pc.remaining = 0 := by omega
      refine ⟨?_, by omega⟩
      cases hpc : t.pc with
      | done ok => exact ⟨ok, rfl⟩
      | start => rw [hpc] at h1; cases h1
      | locked => rw [hpc] at h1; cases h1
      | loaded account => rw [hpc] at h1; cases h1
      | stored ok => rw [hpc] at h1; cases h1
    · rintro ⟨⟨ok, hok⟩, h⟩
      rw [hok, h]
      rfl

/-- A caller that holds the lock can always make its next move. -/
theorem teller_step_critical {s : TellerSystem} {i : Nat} {t : Teller}
    (ht : s.tellers[i]? = some t) (hcrit : t.pc.in_critical = true) :
    ∃ s', s.step i = some s' := by
  obtain ⟨op, pc⟩ := t
  unfold TellerSystem.step
  rw [ht]
  cases pc with
  | start => cases hcrit
  | locked => exact ⟨_, rfl⟩
  | loaded account =>
    cases op with
    | deposit amount => exact ⟨_, rfl⟩
    | withdrawal amount =>
      simp only
      split_ifs <;> exact ⟨_, rfl⟩
  | stored ok => exact ⟨_, rfl⟩
  | done ok => cases hcrit

/-- No deadlock among the callers: all are done or one of them can move. -/
theorem teller_progress {account₀ : CustomerAccount} {ops : List TellerOp} {s : TellerSystem}
    (hinv : TellerInv account₀ ops s) :
    (∀ t ∈ s.tellers, ∃ ok, t.pc = .done ok) ∨ ∃ i s', s.step i = some s' := by
  cases hh : s.holder with
  | some i =>
    obtain ⟨t, ht, hcrit⟩ := hinv.critical_of_holder i hh
    exact Or.inr ⟨i, teller_step_critical ht hcrit⟩
  | none =>
    by_cases hall : ∀ t ∈ s.tellers, ∃ ok, t.pc = .done ok
    · exact Or.inl hall
    · right
      simp only [not_forall] at hall
      obtain ⟨t, hmem, hnd⟩ := hall
      obtain ⟨j, hj⟩ := List.mem_iff_getElem?.1 hmem
      have hstart : t.pc = .start := by
        cases hpc : t.pc with
        | start => rfl
        | done ok => exact absurd ⟨ok, hpc⟩ hnd
        | locked =>
          have := hinv.holder_of_critical j t hj (by rw [hpc]; rfl)
          rw [hh] at this; cases this
        | loaded account =>
          have := hinv.holder_of_critical j t hj (by rw [hpc]; rfl)
          rw [hh] at this; cases this
        | stored ok =>
          have := hinv.holder_of_critical j t hj (by rw [hpc]; rfl)
          rw [hh] at this; cases this
      refine ⟨j, ?_⟩
      unfold TellerSystem.step
      rw [hj]
      simp only [hstart, hh, if_true]
      exact ⟨_, rfl⟩

theorem teller_reachable_run {init s : TellerSystem} {n : Nat}
    (h : TellerSystem.ReachableIn init n s) (schedule : List Nat) :
    TellerSystem.ReachableIn init (n + s.moves schedule) (s.run schedule) := by
  induction schedule generalizing s n with
  | nil => exact h
  | cons i schedule ih =>
    unfold TellerSystem.run TellerSystem.moves
    cases hstep : s.step i with
    | none => exact ih h
    | some s' =>
      have := ih (TellerSystem.ReachableIn.next n s s' i h hstep)
      simp only
      rw [show n + (s'.moves schedule + 1) = n + 1 + s'.moves schedule by omega]
      exact this

/-! ## The handlers one after the other -/

theorem located_at_set {accounts : List CustomerAccount} {id : Int} {k : Nat}
    {r : CustomerAccount} (h : located_at accounts id k r) (r' : CustomerAccount)
    (hid : r'.account_id = id) : located_at (accounts.set k r') id k r' := by
  refine ⟨List.getElem?_set_self (located_at_lt h), hid, ?_⟩
  rw [List.set_take, List.set_eq_of_length_le (by simp)]
  exact h.2.2

theorem teller_result_id (op : TellerOp) (account : CustomerAccount) :
    (op.result account).account_id = account.account_id := by
  cases op with
  | deposit amount => rfl
  | withdrawal amount =>
    unfold TellerOp.result
    simp only
    split_ifs <;> rfl

/-- The handler of an operation whose amount passes the check replaces the
record by the caller's result on it. -/
theorem teller_handler_located {db : Database} {account_id : Int} {k : Nat}
    {r : CustomerAccount} (h : located_at db.accounts account_id k r) (op : TellerOp)
    (hop : ¬ op.amount ≤ 0) (now : String) (account₀ : CustomerAccount) :
    (op.handler db account_id now account₀).db.accounts = db.accounts.set k (op.result r) := by
  cases op with
  | deposit amount =>
    have ha : ¬ amount ≤ 0 := hop
    show (handle_deposit db account_id (some amount) now account₀).db.accounts = _
    rw [handle_deposit_located h ha]
    rfl
  | withdrawal amount =>
    have ha : ¬ amount ≤ 0 := hop
    show (handle_withdrawal db account_id (some amount) now account₀).db.accounts = _
    rw [handle_withdrawal_located h ha]
    unfold TellerOp.result
    simp only
    split_ifs
    · exact (set_same h.1).symm
    · rfl

theorem run_handlers_located {db : Database} {account_id : Int} {k : Nat}
    {r : CustomerAccount} (h : located_at db.accounts account_id k r) (ops : List TellerOp)
    (hops : ∀ op ∈ ops, ¬ op.amount ≤ 0) (now : String) (account₀ : CustomerAccount) :
    (run_handlers db account_id now account₀ ops).accounts
      = db.accounts.set k (ops.foldl (fun account op => op.result account) r) := by
  induction ops generalizing db r with
  | nil => exact (set_same h.1).symm
  | cons op rest ih =>
    have hop := hops op (by simp)
    have hacc := teller_handler_located h op hop now account₀
    have hloc : located_at (op.handler db account_id now account₀).db.accounts account_id k
        (op.result r) := by
      rw [hacc]
      exact located_at_set h _ ((teller_result_id op r).trans h.2.1)
    rw [run_handlers, ih hloc (fun o ho => hops o (by simp [ho])), hacc, List.set_set]
    rfl

theorem filterMap_getElem?_length {α : Type} (ops : List α) (l : List Nat)
    (h : ∀ i ∈ l, i < ops.length) : (l.filterMap (fun i => ops[i]?)).length = l.length := by
  induction l with
  | nil => rfl
  | cons i rest ih =>
    have hlt : i < ops.length := h i (by simp)
    have hi : ops[i]? = some ops[i] := List.getElem?_eq_getElem hlt
    rw [List.filterMap_cons_some hi, List.length_cons, List.length_cons,
      ih (fun j hj => h j (by simp [hj]))]

/-- Deposits of one amount, one after the other, add up exactly while every
partial sum is a number of the format. -/
theorem deposits_fold_exact (a : Double) (ha : a.is_number = true) :
    ∀ (l : List TellerOp) (acc : CustomerAccount), (∀ op ∈ l, op = .deposit a) →
      acc.balance.is_number = true →
      (∀ j : Nat, j ≤ l.length →
        ∃ z : Double, z.is_number = true ∧ z.toRat = acc.balance.toRat + j * a.toRat) →
      (l.foldl (fun account op => op.result account) acc).balance.toRat
        = acc.balance.toRat + l.length * a.toRat := by
  intro l
  induction l with
  | nil => intro acc _ _ _; simp
  | cons op rest ih =>
    intro acc hops hacc hz
    have hop : op = .deposit a := hops op (by simp)
    subst hop
    obtain ⟨z, hzn, hzv⟩ := hz 1 (by simp)
    have hzv' : z.toRat = acc.balance.toRat + a.toRat := by
      rw [hzv]; push_cast; ring
    obtain ⟨hnum, hval⟩ := Double.add_exact acc.balance a z hacc ha hzn hzv'
    have hres : (TellerOp.deposit a).result acc
        = { acc with balance := Double.add acc.balance a } := rfl
    rw [List.foldl_cons, hres, ih _ (fun o ho => hops o (by simp [ho])) hnum]
    · simp only [hval, List.length_cons]
      push_cast
      ring
    · intro j hj
      obtain ⟨w, hwn, hwv⟩ := hz (j + 1) (by simp only [List.length_cons]; omega)
      refine ⟨w, hwn, ?_⟩
      simp only [hval]
      rw [hwv]
      push_cast
      ring
/-- C11, as stated, fails: two callers that each deposit 1.00 on an account
with the balance 2^53 = 9007199254740992 both succeed, and the final balance
is 2^53, not 2^53 + 2 × 1, which is itself a double: each sum 2^53 + 1 lies
halfway between two doubles and is rounded back to 2^53. The handlers run one
after the other leave the same balance. -/
theorem concurrent_deposits_rounded_counterexample :
    (TellerSystem.initial account_2_53 [.deposit 1, .deposit 1]).run [0, 1, 0, 0, 0, 1, 1, 1, 1]
      = ⟨⟨100, "Asha", "1234", 9007199254740992, 1⟩, none,
         [⟨.deposit 1, .done true⟩, ⟨.deposit 1, .done true⟩], [0, 1]⟩ ∧
    (run_handlers ⟨[account_2_53], []⟩ 100 "t" account_2_53 [.deposit 1, .deposit 1]).accounts
      = [⟨100, "Asha", "1234", 9007199254740992, 1⟩] ∧
    (9007199254740992 : Double).toRat + 2 * (1 : Double).toRat
      = (9007199254740994 : Double).toRat ∧
    (9007199254740994 : Double) ≠ 9007199254740992 := by
  have e1 : (1 : Double) = .finite false 1 0 := by decide
  have e2 : (9007199254740992 : Double) = .finite false 1 53 := by decide
  have e3 : (9007199254740994 : Double) = .finite false 4503599627370497 1 := by decide
  refine ⟨by decide, by decide, ?_, by decide⟩
  simp only [e1, e2, e3, Double.toRat]
  norm_num

/-- C11, amended. No lost updates, in the double arithmetic of the code: let
`N` callers run deposits and withdrawals whose amounts pass the handlers'
check `amount <= 0` on the account whose first record is `account₀`. Every
interleaving of their moves ends: after `n` moves `4 N - n` moves remain,
each move takes one from them, while `n < 4 N` some caller can move, and
after `4 N` moves every caller is done, the lock is free and the callers that
have updated the record are all `N`, each once. In every state reached the
record in the file is the one that `handle_deposit` and `handle_withdrawal`
leave when they are run one after the other, from start to return, for the
callers that have passed their update, in the order in which they passed it:
each sum or difference is rounded to the nearest double, and no update is
lost. The record a caller has read is the record in the file until it
writes, and the caller between lock and unlock holds the lock. When all
callers deposit one amount and the initial balance plus `j` times the amount
is a number of the format for every `j <= N`, the final balance is the
initial balance plus `N` times the amount. -/
theorem no_lost_updates (db : Database) (account_id : Int) (k : Nat) (account₀ : CustomerAccount)
    (ops : List TellerOp) (now : String) (junk : CustomerAccount)
    (hloc : located_at db.accounts account_id k account₀)
    (hvalid : ∀ op ∈ ops, ¬ op.amount ≤ 0)
    (n : Nat) (s : TellerSystem)
    (hreach : TellerSystem.ReachableIn (TellerSystem.initial account₀ ops) n s) :
    n + s.remaining = 4 * ops.length ∧
    (n < 4 * ops.length → ∃ i s', s.step i = some s') ∧
    (∀ i s', s.step i = some s' → s'.remaining + 1 = s.remaining) ∧
    (run_handlers db account_id now junk (s.updates.filterMap (fun i => ops[i]?))).accounts
      = db.accounts.set k s.account ∧
    s.updates.Nodup ∧
    (∀ i : Nat, i ∈ s.updates ↔ ∃ t : Teller, s.tellers[i]? = some t ∧ t.pc.updated = true) ∧
    (∀ (i : Nat) (t : Teller) (account : CustomerAccount),
      s.tellers[i]? = some t → t.pc = .loaded account → account = s.account) ∧
    (∀ (i : Nat) (t : Teller), s.tellers[i]? = some t → t.pc.in_critical = true →
      s.holder = some i) ∧
    s.tellers.map (fun t => t.op) = ops ∧
    (n = 4 * ops.length →
      (∀ t ∈ s.tellers, ∃ ok, t.pc = .done ok) ∧ s.holder = none ∧
      s.updates.Perm (List.range ops.length)) ∧
    (n = 4 * ops.length →
      ∀ a : Double, (∀ op ∈ ops, op = .deposit a) → account₀.balance.is_number = true →
        a.is_number = true →
        (∀ j : Nat, j ≤ ops.length →
          ∃ z : Double, z.is_number = true ∧ z.toRat = account₀.balance.toRat + j * a.toRat) →
        s.account.balance.toRat = account₀.balance.toRat + ops.length * a.toRat) := by
  have hinv := teller_inv_reachable hreach
  have hrem := teller_remaining_reachable hreach
  have hdone : s.remaining = 0 → ∀ t ∈ s.tellers, ∃ ok, t.pc = .done ok :=
    (teller_remaining_zero_iff s.tellers).1
  have hperm : n = 4 * ops.length → s.updates.Perm (List.range ops.length) := by
    intro hn
    have hall := hdone (by omega)
    have hlen : s.tellers.length = ops.length := by
      rw [← hinv.ops_eq, List.length_map]
    rw [List.perm_ext_iff_of_nodup hinv.updates_nodup (List.nodup_range _)]
    intro i
    rw [hinv.mem_updates i, List.mem_range, ← hlen]
    constructor
    · rintro ⟨t, ht, _⟩
      exact getElem?_lt_length ht
    · intro hi
      refine ⟨s.tellers[i], List.getElem?_eq_getElem hi, ?_⟩
      obtain ⟨ok, hok⟩ := hall s.tellers[i] (List.getElem_mem hi)
      rw [hok]
      rfl
  refine ⟨hrem, fun hn => ?_, fun i s' h => teller_remaining_step h, ?_, hinv.updates_nodup,
    hinv.mem_updates, hinv.loaded_current, hinv.holder_of_critical, hinv.ops_eq, fun hn => ?_,
    fun hn a hops hb ha hz => ?_⟩
  · rcases teller_progress hinv with hall | hstep
    · have := (teller_remaining_zero_iff s.tellers).2 hall
      have h0 : s.remaining = 0 := this
      omega
    · exact hstep
  · rw [run_handlers_located hloc _ _ now junk, ← hinv.account_eq]
    intro op hop
    obtain ⟨i, _, hi⟩ := List.mem_filterMap.1 hop
    exact hvalid op (List.getElem?_mem hi)
  · have hall := hdone (by omega)
    refine ⟨hall, ?_, hperm hn⟩
    cases hh : s.holder with
    | none => rfl
    | some i =>
      obtain ⟨t, ht, hcrit⟩ := hinv.critical_of_holder i hh
      obtain ⟨ok, hok⟩ := hall t (List.getElem?_mem ht)
      rw [hok] at hcrit
      cases hcrit
  · have hp := hperm hn
    have hlen : (s.updates.filterMap (fun i => ops[i]?)).length = ops.length := by
      rw [filterMap_getElem?_length ops s.updates
        (fun i hi => List.mem_range.1 ((hp.mem_iff).1 hi)), hp.length_eq, List.length_range]
    have hfold := deposits_fold_exact a ha (s.updates.filterMap (fun i => ops[i]?)) account₀
      (fun op hop => by
        obtain ⟨i, _, hi⟩ := List.mem_filterMap.1 hop
        exact hops op (List.getElem?_mem hi))
      hb (by rw [hlen]; exact hz)
    rw [hlen, ← hinv.account_eq] at hfold
    exact hfold

/-- C11, amended, at three callers on account 100 (750.00), two that deposit
10.00 and one that asks for 1000.00, interleaved so that the second and the
third ask for the lock while it is held: after the twelve moves all are
done, and the record, with 770.00, is the one the handlers leave when run in
the order first, third, second. With three deposits of 10.00 the final
balance is 750 + 3 × 10. -/
theorem no_lost_updates_witness :
    located_at scenario_db.accounts 100 0 account_100 ∧
    (TellerSystem.initial account_100 [.deposit 10, .withdrawal 1000, .deposit 10]).run
        [0, 1, 0, 2, 0, 0, 2, 1, 2, 2, 1, 2, 1, 1, 1, 1]
      = ⟨⟨100, "Asha", "1234", 770, 1⟩, none,
         [⟨.deposit 10, .done true⟩, ⟨.withdrawal 1000, .done false⟩, ⟨.deposit 10, .done true⟩],
         [0, 2, 1]⟩ ∧
    (run_handlers scenario_db 100 "t" account_200
        [.deposit 10, .deposit 10, .withdrawal 1000]).accounts
      = [⟨100, "Asha", "1234", 770, 1⟩, account_200] ∧
    [0, 2, 1].Perm (List.range 3) ∧
    ((TellerSystem.initial account_100 [.deposit 10, .deposit 10, .deposit 10]).run
        [0, 1, 0, 2, 0, 0, 2, 1, 2, 2, 1, 2, 1, 1, 1, 1]).account.balance.toRat
      = (750 : Double).toRat + 3 * (10 : Double).toRat := by
  have e : (TellerSystem.initial account_100 [.deposit 10, .withdrawal 1000, .deposit 10]).run
        [0, 1, 0, 2, 0, 0, 2, 1, 2, 2, 1, 2, 1, 1, 1, 1]
      = ⟨⟨100, "Asha", "1234", 770, 1⟩, none,
         [⟨.deposit 10, .done true⟩, ⟨.withdrawal 1000, .done false⟩, ⟨.deposit 10, .done true⟩],
         [0, 2, 1]⟩ := by decide
  have h := no_lost_updates scenario_db 100 0 account_100
    [.deposit 10, .withdrawal 1000, .deposit 10] "t" account_200 (by decide) (by decide) _ _
    (teller_reachable_run TellerSystem.ReachableIn.start
      [0, 1, 0, 2, 0, 0, 2, 1, 2, 2, 1, 2, 1, 1, 1, 1])
  rw [e] at h
  have h' := no_lost_updates scenario_db 100 0 account_100
    [.deposit 10, .deposit 10, .deposit 10] "t" account_200 (by decide) (by decide) _ _
    (teller_reachable_run TellerSystem.ReachableIn.start
      [0, 1, 0, 2, 0, 0, 2, 1, 2, 2, 1, 2, 1, 1, 1, 1])
  have hb : account_100.balance = .finite false 375 1 := by decide
  have e10 : (10 : Double) = .finite false 5 1 := by decide
  have e750 : (750 : Double) = .finite false 375 1 := by decide
  refine ⟨by decide, e, h.2.2.2.1, (h.2.2.2.2.2.2.2.2.2.1 (by decide)).2.2, ?_⟩
  have hx := h'.2.2.2.2.2.2.2.2.2.2 (by decide) 10 (by decide) (by decide) (by decide) ?_
  · rw [hx, hb, e750]
    norm_num
  · intro j hj
    rw [hb, e10]
    have hj3 : j ≤ 3 := hj
    interval_cases j
    · exact ⟨.finite false 375 1, by decide, by simp only [Double.toRat]; norm_num⟩
    · exact ⟨.finite false 95 3, by decide, by simp only [Double.toRat]; norm_num⟩
    · exact ⟨.finite false 385 1, by decide, by simp only [Double.toRat]; norm_num⟩
    · exact ⟨.finite false 195 2, by decide, by simp only [Double.toRat]; norm_num⟩

/-! ## Recent transactions -/

theorem scan_log_eq_foldl (account_id : Int) (log : List Transaction)
    (state : List Transaction × Int) :
    scan_log account_id log state
      = (log.filter (fun e => decide (e.account_id = account_id))).foldl ring_insert state := by
  induction log generalizing state with
  | nil => rfl
  | cons e rest ih =>
    by_cases h : e.account_id = account_id
    · simp only [scan_log, h, if_true, List.filter_cons, decide_True, List.foldl_cons, ih]
    · simp only [scan_log, h, if_false, List.filter_cons, decide_False, Bool.false_eq_true, ih]

theorem tmod_ten_toNat (a : Nat) : (Int.tmod (a : Int) 10).toNat = a % 10 := by
  rw [show Int.tmod (a : Int) 10 = ((a % 10 : Nat) : Int) from (Int.ofNat_tmod a 10).symm]
  exact Int.toNat_ofNat _

theorem int_wrap_succ (n : Nat) (h : n + 1 < 2147483648) :
    int_wrap ((n : Int) + 1) = ((n + 1 : Nat) : Int) := by
  unfold int_wrap
  push_cast
  omega

/-- After the matching entries `m` have gone through the ring, the count is
their number and slot `k % 10` holds the `k`-th of them for the last ten
`k`. -/
theorem ring_invariant (user_logs₀ : List Transaction) (hslots : user_logs₀.length = 10)
    (m : List Transaction) (hcount : m.length < 2147483648) :
    (m.foldl ring_insert (user_logs₀, 0)).2 = (m.length : Int) ∧
    (m.foldl ring_insert (user_logs₀, 0)).1.length = 10 ∧
    ∀ k, k < m.length → m.length ≤ k + 10 →
      (m.foldl ring_insert (user_logs₀, 0)).1[k % 10]? = m[k]? := by
  induction m using List.reverseRecOn with
  | nil => exact ⟨rfl, hslots, fun k hk => absurd hk (by simp)⟩
  | append_singleton m e ih =>
    have hlen : (m ++ [e]).length = m.length + 1 := by simp
    rw [hlen] at hcount ⊢
    obtain ⟨h2, h1, h3⟩ := ih (by omega)
    rw [List.foldl_append, List.foldl_cons, List.foldl_nil]
    refine ⟨?_, ?_, ?_⟩
    · simp only [ring_insert, h2]
      exact int_wrap_succ m.length hcount
    · simp only [ring_insert, List.length_set, h1]
    · intro k hk hk'
      simp only [ring_insert, h2, tmod_ten_toNat]
      by_cases hkm : k = m.length
      · subst hkm
        rw [List.getElem?_set_self (by rw [h1]; omega), List.getElem?_append_right (le_refl _)]
        simp
      · have hlt : k < m.length := by omega
        have hne : m.length % 10 ≠ k % 10 := by omega
        rw [List.getElem?_set_ne hne, h3 k hlt (by omega), List.getElem?_append_left hlt]

theorem filterMap_range_getElem? (m : List Transaction) (d num : Nat) :
    (List.range num).filterMap (fun (i : Nat) => m[d + i]?) = (m.drop d).take num := by
  induction num with
  | zero => simp
  | succ num ih =>
    rw [List.range_succ, List.filterMap_append, ih, List.take_succ, List.getElem?_drop]
    congr 1

theorem entries_to_print_ring (user_logs : List Transaction) (m : List Transaction)
    (hring : ∀ k, k < m.length → m.length ≤ k + 10 → user_logs[k % 10]? = m[k]?) :
    entries_to_print user_logs (m.length : Int) = m.drop (m.length - min 10 m.length) := by
  have hmain : ∀ (start : Nat) (num d : Nat), d + num = m.length → num ≤ 10 →
      start % 10 = d % 10 →
      (List.range num).filterMap
          (fun (i : Nat) => user_logs[(Int.tmod ((start : Int) + (i : Int)) 10).toNat]?)
        = m.drop d := by
    intro start num d hd hnum hstart
    have hcongr : (List.range num).filterMap
          (fun (i : Nat) => user_logs[(Int.tmod ((start : Int) + (i : Int)) 10).toNat]?)
        = (List.range num).filterMap (fun (i : Nat) => m[d + i]?) := by
      apply List.filterMap_congr
      intro i hi
      rw [List.mem_range] at hi
      rw [show (start : Int) + (i : Int) = ((start + i : Nat) : Int) by push_cast; rfl,
        tmod_ten_toNat]
      have hk : (start + i) % 10 = (d + i) % 10 := by omega
      rw [hk]
      exact hring (d + i) (by omega) (by omega)
    rw [hcongr, filterMap_range_getElem?]
    exact List.take_of_length_le (by rw [List.length_drop]; omega)
  unfold entries_to_print
  by_cases hlt : m.length < 10
  · have hlt' : (m.length : Int) < 10 := by omega
    simp only [hlt', if_true, Int.toNat_ofNat]
    have := hmain 0 m.length 0 (by omega) (by omega) rfl
    rw [show m.length - min 10 m.length = 0 by omega]
    simpa using this
  · have hlt' : ¬ (m.length : Int) < 10 := by omega
    simp only [hlt', if_false]
    rw [show Int.tmod (m.length : Int) 10 = ((m.length % 10 : Nat) : Int) from
      (Int.ofNat_tmod m.length 10).symm]
    have := hmain (m.length % 10) 10 (m.length - 10) (by omega) (le_refl _) (by omega)
    rw [show m.length - min 10 m.length = m.length - 10 by omega]
    exact this

/-- C21. Recent history via ring buffer: when fewer than `2^31` entries of the
log have the account id, the count `handle_view_transactions` reaches is
their number `n` and the entries its print loop goes through are the last
`min(10, n)` of them, in the order of the log, oldest first; the reply is "No
transactions found." when there is none and otherwise the heading followed
by the lines of these entries as far as they fit into the buffer. -/
theorem recent_history_ring_buffer (log : List Transaction) (account_id : Int)
    (user_logs₀ : List Transaction) (hslots : user_logs₀.length = 10)
    (hcount : (log.filter (fun e => decide (e.account_id = account_id))).length < 2147483648) :
    (scan_log account_id log (user_logs₀, 0)).2
      = ((log.filter (fun e => decide (e.account_id = account_id))).length : Int) ∧
    entries_to_print (scan_log account_id log (user_logs₀, 0)).1
        (scan_log account_id log (user_logs₀, 0)).2
      = (log.filter (fun e => decide (e.account_id = account_id))).drop
          ((log.filter (fun e => decide (e.account_id = account_id))).length
            - min 10 (log.filter (fun e => decide (e.account_id = account_id))).length) ∧
    (entries_to_print (scan_log account_id log (user_logs₀, 0)).1
        (scan_log account_id log (user_logs₀, 0)).2).length
      = min 10 (log.filter (fun e => decide (e.account_id = account_id))).length ∧
    handle_view_transactions log account_id user_logs₀
      = (if (log.filter (fun e => decide (e.account_id = account_id))).length = 0 then
          ⟨"SUCCESS", "No transactions found."⟩
        else
          ⟨"SUCCESS",
           append_log_lines "Last Transactions:\\n"
            ((log.filter (fun e => decide (e.account_id = account_id))).drop
              ((log.filter (fun e => decide (e.account_id = account_id))).length
                - min 10
                    (log.filter (fun e => decide (e.account_id = account_id))).length))⟩) := by
  obtain ⟨h2, _, h3⟩ := ring_invariant user_logs₀ hslots _ hcount
  have hprint := entries_to_print_ring _ _ h3
  rw [← scan_log_eq_foldl] at h2 hprint
  rw [← h2] at hprint
  refine ⟨h2, hprint, ?_, ?_⟩
  · rw [hprint, List.length_drop]
    omega
  · unfold handle_view_transactions
    simp only [hprint]
    rw [h2]
    simp only [Int.natCast_eq_zero]

/-- C21 on a log with fifteen entries of account 100 and two of account 200:
the entries printed for account 100 are its 6th to 15th, in order, and the
reply for account 200 lists its two entries. -/
theorem recent_history_ring_buffer_witness :
    entries_to_print
        (scan_log 100 fifteen_entries_log (List.replicate 10 log_junk, 0)).1
        (scan_log 100 fifteen_entries_log (List.replicate 10 log_junk, 0)).2
      = [⟨100, "t6", "DEPOSIT: +1.00", 6⟩, ⟨100, "t7", "DEPOSIT: +1.00", 7⟩,
         ⟨100, "t8", "DEPOSIT: +1.00", 8⟩, ⟨100, "t9", "DEPOSIT: +1.00", 9⟩,
         ⟨100, "t10", "DEPOSIT: +1.00", 10⟩, ⟨100, "t11", "DEPOSIT: +1.00", 11⟩,
         ⟨100, "t12", "DEPOSIT: +1.00", 12⟩, ⟨100, "t13", "DEPOSIT: +1.00", 13⟩,
         ⟨100, "t14", "DEPOSIT: +1.00", 14⟩, ⟨100, "t15", "DEPOSIT: +1.00", 15⟩] ∧
    handle_view_transactions fifteen_entries_log 200 (List.replicate 10 log_junk)
      = ⟨"SUCCESS",
         "Last Transactions:\\n[u3] DEPOSIT: +5.00 | Balance: 15.00\\n" ++
           "[u12] DEPOSIT: +5.00 | Balance: 60.00\\n"⟩ :=
  ⟨(recent_history_ring_buffer fifteen_entries_log 100 (List.replicate 10 log_junk) rfl
      (by decide)).2.1.trans (by rfl),
   (recent_history_ring_buffer fifteen_entries_log 200 (List.replicate 10 log_junk) rfl
      (by decide)).2.2.2.trans (by decide)⟩

/-! ## The log entry of a deposit and of a withdrawal -/

/-- C22 fails on the code: `log_transaction` writes the description with
`"%s: %+.2f"`, a colon after the type, where the comment on the field in
`bank_storage.h` gives "DEPOSIT +500.00". On the store with account 100
(750.00) and an empty log, a deposit of 250.00 appends the one entry with
account 100, the new balance 1000.00 and the description "DEPOSIT: +250.00",
not "DEPOSIT +250.00"; a withdrawal of 100.00 appends the one entry with the
new balance 650.00 and the description "WITHDRAWAL: -100.00", not
"WITHDRAWAL -100.00". -/
theorem deposit_description_counterexample :
    (handle_deposit scenario_db 100 (some 250) "t1" stack_junk).db.transactions
      = scenario_db.transactions ++ [⟨100, "t1", "DEPOSIT: +250.00", 1000⟩] ∧
    (handle_withdrawal scenario_db 100 (some 100) "t1" stack_junk).db.transactions
      = scenario_db.transactions ++ [⟨100, "t1", "WITHDRAWAL: -100.00", 650⟩] ∧
    (handle_deposit scenario_db 100 (some 250) "t1" stack_junk).response
      = some ⟨"SUCCESS", "Deposit successful. New balance: 1000.00"⟩ ∧
    (handle_withdrawal scenario_db 100 (some 100) "t1" stack_junk).response
      = some ⟨"SUCCESS", "Withdrawal successful. New balance: 650.00"⟩ ∧
    "DEPOSIT: +250.00" ≠ "DEPOSIT +250.00" ∧
    "WITHDRAWAL: -100.00" ≠ "WITHDRAWAL -100.00" := by
  decide

/-! ## Creating a customer account -/

theorem duplicate_scan_iff (account_id : Int) (accounts : List CustomerAccount) :
    duplicate_scan account_id accounts = true
      ↔ account_id ∈ accounts.map (fun r => r.account_id) := by
  induction accounts with
  | nil => simp [duplicate_scan]
  | cons x rest ih =>
    by_cases hx : x.account_id = account_id
    · simp [duplicate_scan, hx]
    · have hx' : ¬ account_id = x.account_id := fun h => hx h.symm
      simp only [duplicate_scan, hx, if_false, ih, List.map_cons, List.mem_cons, hx', false_or]

theorem handle_create_customer_duplicate {db : Database} {account_id : Int}
    (h : account_id ∈ db.accounts.map (fun r => r.account_id)) (name pin : String)
    (opening : Double) (now name_tail pin_tail : String) :
    handle_create_customer db (some account_id) (some name) (some pin) (some opening) now
        name_tail pin_tail
      = (db, some ⟨"ERROR", "Account ID already exists."⟩) := by
  simp only [handle_create_customer, (duplicate_scan_iff account_id db.accounts).2 h, if_true]

theorem handle_create_customer_fresh {db : Database} {account_id : Int}
    (h : account_id ∉ db.accounts.map (fun r => r.account_id)) (name pin : String)
    (opening : Double) (now name_tail pin_tail : String) :
    handle_create_customer db (some account_id) (some name) (some pin) (some opening) now
        name_tail pin_tail
      = (⟨db.accounts ++
            [⟨account_id, strncpy_unterminated name 49 name_tail,
              strncpy_unterminated pin 19 pin_tail, if opening < 0 then 0 else opening, 1⟩],
          log_transaction db.transactions account_id "OPENING_BALANCE"
            (if opening < 0 then 0 else opening) (if opening < 0 then 0 else opening) now⟩,
         some ⟨"SUCCESS", "Customer account created successfully."⟩) := by
  have hd : duplicate_scan account_id db.accounts = false := by
    rw [← Bool.not_eq_true, duplicate_scan_iff]
    exact h
  simp only [handle_create_customer, hd, Bool.false_eq_true, if_false]

/-- Whatever the four lines are, `handle_create_customer` leaves the store as
it is or appends one record with the id that was read, which no record had. -/
theorem handle_create_customer_cases (db : Database) (id_line : Option Int)
    (name_line pin_line : Option String) (balance_line : Option Double)
    (now name_tail pin_tail : String) :
    (handle_create_customer db id_line name_line pin_line balance_line now name_tail
        pin_tail).1 = db ∨
    ∃ r : CustomerAccount, r.account_id ∉ db.accounts.map (fun r => r.account_id) ∧
      id_line = some r.account_id ∧
      (handle_create_customer db id_line name_line pin_line balance_line now name_tail
        pin_tail).1.accounts = db.accounts ++ [r] := by
  cases id_line with
  | none => exact Or.inl rfl
  | some account_id =>
    cases name_line with
    | none => exact Or.inl rfl
    | some name =>
      cases pin_line with
      | none => exact Or.inl rfl
      | some pin =>
        cases balance_line with
        | none => exact Or.inl rfl
        | some opening =>
          by_cases h : account_id ∈ db.accounts.map (fun r => r.account_id)
          · left
            rw [handle_create_customer_duplicate h]
          · right
            rw [handle_create_customer_fresh h]
            exact ⟨_, h, rfl, rfl⟩

/-- C23. Account ids stay unique: pairwise distinct account ids are pairwise
distinct after `handle_create_customer`, whatever the four lines are; a
creation whose id occurs in the store is answered with "Account ID already
exists." and leaves the account file and the log as they were; a creation
with an id that does not occur appends one record with that id after the
existing records, which stay as they are, and one entry to the log. -/
theorem account_ids_stay_unique (db : Database) (now name_tail pin_tail : String) :
    (∀ (id_line : Option Int) (name_line pin_line : Option String) (balance_line : Option Double),
      (db.accounts.map (fun r => r.account_id)).Nodup →
      ((handle_create_customer db id_line name_line pin_line balance_line now name_tail
          pin_tail).1.accounts.map (fun r => r.account_id)).Nodup) ∧
    (∀ (account_id : Int) (name pin : String) (opening : Double),
      account_id ∈ db.accounts.map (fun r => r.account_id) →
      handle_create_customer db (some account_id) (some name) (some pin) (some opening) now
          name_tail pin_tail
        = (db, some ⟨"ERROR", "Account ID already exists."⟩)) ∧
    (∀ (account_id : Int) (name pin : String) (opening : Double),
      account_id ∉ db.accounts.map (fun r => r.account_id) →
      ∃ r : CustomerAccount, r.account_id = account_id ∧
        handle_create_customer db (some account_id) (some name) (some pin) (some opening) now
            name_tail pin_tail
          = (⟨db.accounts ++ [r],
              db.transactions ++
                [⟨account_id, now, ("OPENING_BALANCE" ++ ": " ++ format_plus_2f r.balance).take 99,
                  r.balance⟩]⟩,
             some ⟨"SUCCESS", "Customer account created successfully."⟩)) := by
  refine ⟨?_, ?_, ?_⟩
  · intro id_line name_line pin_line balance_line hnodup
    rcases handle_create_customer_cases db id_line name_line pin_line balance_line now
      name_tail pin_tail with h | ⟨r, hr, _, h⟩
    · rw [h]; exact hnodup
    · rw [h, List.map_append, List.map_singleton]
      refine List.Nodup.append hnodup (List.nodup_singleton _) ?_
      intro x hx hx'
      rw [List.mem_singleton] at hx'
      exact hr (hx' ▸ hx)
  · intro account_id name pin opening h
    exact handle_create_customer_duplicate h name pin opening now name_tail pin_tail
  · intro account_id name pin opening h
    rw [handle_create_customer_fresh h]
    exact ⟨_, rfl, rfl⟩

/-- C23 on the store with accounts 100 and 200: creating account 100 again is
refused and changes nothing, and creating account 300 appends its record. -/
theorem account_ids_stay_unique_witness :
    handle_create_customer scenario_db (some 100) (some "Cleo") (some "9999") (some 5) "t1"
        "" ""
      = (scenario_db, some ⟨"ERROR", "Account ID already exists."⟩) ∧
    ((handle_create_customer scenario_db (some 300) (some "Cleo") (some "9999") (some 5) "t1"
        "" "").1.accounts.map (fun r => r.account_id)).Nodup :=
  ⟨(account_ids_stay_unique scenario_db "t1" "" "").2.1 100 "Cleo" "9999" 5 (by decide),
   (account_ids_stay_unique scenario_db "t1" "" "").1 (some 300) (some "Cleo") (some "9999")
      (some 5) (by decide)⟩

/-- C24 fails on the code: `handle_create_customer` does not test the sign of
the id. On the store with accounts 100 and 200 a creation with the id 0, and
one with the id -5, is answered with SUCCESS and appends a record with that
id and its log entry. -/
theorem create_customer_accepts_nonpositive_id :
    handle_create_customer scenario_db (some 0) (some "Zed") (some "0000") (some 10) "t1"
        "" ""
      = (⟨[account_100, account_200, ⟨0, "Zed", "0000", 10, 1⟩],
          [⟨0, "t1", "OPENING_BALANCE: +10.00", 10⟩]⟩,
         some ⟨"SUCCESS", "Customer account created successfully."⟩) ∧
    handle_create_customer scenario_db (some (-5)) (some "Zed") (some "0000") (some 10) "t1"
        "" ""
      = (⟨[account_100, account_200, ⟨-5, "Zed", "0000", 10, 1⟩],
          [⟨-5, "t1", "OPENING_BALANCE: +10.00", 10⟩]⟩,
         some ⟨"SUCCESS", "Customer account created successfully."⟩) := by
  have e : ("OPENING_BALANCE" ++ ": " ++ format_plus_2f 10).take 99
      = "OPENING_BALANCE: +10.00" := by decide
  have hz : ¬ ((10 : Double) < 0) := by decide
  have n1 : strncpy_unterminated "Zed" 49 "" = "Zed" := by decide
  have n2 : strncpy_unterminated "0000" 19 "" = "0000" := by decide
  constructor
  · rw [handle_create_customer_fresh (by decide)]
    simp only [hz, if_false, log_transaction, e, n1, n2]
    rfl
  · rw [handle_create_customer_fresh (by decide)]
    simp only [hz, if_false, log_transaction, e, n1, n2]
    rfl

/-! ## Reading a line and changing a secret -/

theorem read_line_empty (rest : List Char) (max_len : Nat) (h : 1 < max_len) :
    read_line ('\n' :: rest) max_len = (0, [], rest) := by
  have : 0 < max_len - 1 := by omega
  simp [read_line, read_line_loop, this]

/-- C25 fails on the code: when the client answers the prompt for the new PIN
or the new password with the empty line, `read_line` returns 0, which the
handlers take for a lost connection: they return without any reply, so the
error "PIN cannot be empty." or "Password cannot be empty." is not sent. No
file is opened and the stores stay as they are. The error is sent for a
line that starts with a NUL byte. -/
theorem empty_secret_gets_no_reply (accounts : List CustomerAccount)
    (staff : List EmployeeRecord) (id : Int) (rest : List Char) (account₀ : CustomerAccount)
    (staff₀ : EmployeeRecord) :
    read_line ('\n' :: rest) 50 = (0, [], rest) ∧
    handle_customer_password_change accounts id ('\n' :: rest) account₀
      = ⟨accounts, none, false, rest⟩ ∧
    handle_staff_password_change staff id ('\n' :: rest) staff₀ = ⟨staff, none, false, rest⟩ ∧
    handle_customer_password_change accounts id (Char.ofNat 0 :: '\n' :: rest) account₀
      = ⟨accounts, some ⟨"ERROR", "PIN cannot be empty."⟩, false, rest⟩ ∧
    handle_staff_password_change staff id (Char.ofNat 0 :: '\n' :: rest) staff₀
      = ⟨staff, some ⟨"ERROR", "Password cannot be empty."⟩, false, rest⟩ := by
  have h0 := read_line_empty rest 50 (by decide)
  have h1 : read_line (Char.ofNat 0 :: '\n' :: rest) 50 = (1, [Char.ofNat 0], rest) := by
    have hne : ¬ (Char.ofNat 0 = '\n') := by decide
    simp [read_line, read_line_loop, hne]
  have hc : c_string [Char.ofNat 0] = [] := by decide
  refine ⟨h0, ?_, ?_, ?_, ?_⟩
  · simp only [handle_customer_password_change, h0, le_refl, if_true]
  · simp only [handle_staff_password_change, h0, le_refl, if_true]
  · simp [handle_customer_password_change, h1, hc]
  · simp [handle_staff_password_change, h1, hc]

/-! ## Locating records -/

theorem staff_located_at_lt {staff : List EmployeeRecord} {id : Int} {k : Nat}
    {r : EmployeeRecord} (h : staff_located_at staff id k r) : k < staff.length := by
  have := h.1
  by_contra hc
  rw [List.getElem?_eq_none (by omega)] at this
  cases this

theorem staff_located_or_absent (staff : List EmployeeRecord) (id : Int) :
    (∀ x ∈ staff, x.employee_id ≠ id) ∨ ∃ k r, staff_located_at staff id k r := by
  induction staff with
  | nil => left; simp
  | cons x rest ih =>
    by_cases hx : x.employee_id = id
    · right
      exact ⟨0, x, by simp [staff_located_at, hx]⟩
    · rcases ih with h | ⟨k, r, h1, h2, h3⟩
      · left
        intro y hy
        rcases List.mem_cons.1 hy with rfl | hy
        · exact hx
        · exact h y hy
      · right
        refine ⟨k + 1, r, by simpa using h1, h2, ?_⟩
        intro y hy
        simp only [List.take_succ_cons, List.mem_cons] at hy
        rcases hy with rfl | hy
        · exact hx
        · exact h3 y hy

theorem scan_staff_located {id : Int} {staff : List EmployeeRecord} {k : Nat}
    {r : EmployeeRecord} (h : staff_located_at staff id k r) (cur : Int) :
    scan_staff id staff cur = cur + sizeof_EmployeeRecord * k := by
  induction staff generalizing k cur with
  | nil => exact absurd (staff_located_at_lt h) (by simp)
  | cons x rest ih =>
    obtain ⟨h1, h2, h3⟩ := h
    cases k with
    | zero =>
      simp only [List.getElem?_cons_zero, Option.some.injEq] at h1
      subst h1
      simp [scan_staff, h2]
    | succ k =>
      have hx : x.employee_id ≠ id := h3 x (by simp)
      have hrest : staff_located_at rest id k r := by
        refine ⟨by simpa using h1, h2, ?_⟩
        intro y hy
        exact h3 y (by simp [hy])
      simp only [scan_staff, hx, if_false]
      rw [ih hrest]
      push_cast
      ring

theorem scan_staff_absent {id : Int} {staff : List EmployeeRecord}
    (h : ∀ x ∈ staff, x.employee_id ≠ id) (cur : Int) : scan_staff id staff cur = -1 := by
  induction staff generalizing cur with
  | nil => rfl
  | cons x rest ih =>
    have hx : x.employee_id ≠ id := h x (by simp)
    simp only [scan_staff, hx, if_false]
    exact ih (fun y hy => h y (by simp [hy])) _

theorem find_staff_located {id : Int} {staff : List EmployeeRecord} {k : Nat}
    {r : EmployeeRecord} (h : staff_located_at staff id k r) :
    find_staff_record_offset staff id = sizeof_EmployeeRecord * k := by
  simp [find_staff_record_offset, scan_staff_located h]

theorem find_staff_absent {id : Int} {staff : List EmployeeRecord}
    (h : ∀ x ∈ staff, x.employee_id ≠ id) : find_staff_record_offset staff id = -1 :=
  scan_staff_absent h 0

theorem staff_offset_ne_neg_one (k : Nat) : sizeof_EmployeeRecord * (k : Int) ≠ -1 := by
  simp only [sizeof_EmployeeRecord]; omega

/-- C26. Locate by linear scan: on a file of whole records,
`find_customer_record_offset`, `find_staff_record_offset` and
`find_loan_record_offset` return `i * sizeof(record)` for the least index `i`
of a record whose key is the id (the record at `i` has the key and no record
before it has), whatever the file position was before; such an index exists
as soon as some record has the key; and they return `-1` exactly when no
record has the key. -/
theorem locate_by_linear_scan (id : Int) :
    (∀ (accounts : List CustomerAccount) (pos : Int),
      (∀ i r, located_at accounts id i r →
        (find_customer_record_offset ⟨accounts, pos⟩ id).1 = sizeof_CustomerAccount * i) ∧
      ((∃ x ∈ accounts, x.account_id = id) → ∃ i r, located_at accounts id i r) ∧
      ((find_customer_record_offset ⟨accounts, pos⟩ id).1 = -1
        ↔ ∀ x ∈ accounts, x.account_id ≠ id)) ∧
    (∀ staff : List EmployeeRecord,
      (∀ k r, staff_located_at staff id k r →
        find_staff_record_offset staff id = sizeof_EmployeeRecord * k) ∧
      ((∃ x ∈ staff, x.employee_id = id) → ∃ k r, staff_located_at staff id k r) ∧
      (find_staff_record_offset staff id = -1 ↔ ∀ x ∈ staff, x.employee_id ≠ id)) ∧
    (∀ loans : List LoanApplication,
      (∀ k r, loan_located_at loans id k r →
        find_loan_record_offset loans id = sizeof_LoanApplication * k) ∧
      ((∃ x ∈ loans, x.loan_id = id) → ∃ k r, loan_located_at loans id k r) ∧
      (find_loan_record_offset loans id = -1 ↔ ∀ x ∈ loans, x.loan_id ≠ id)) := by
  refine ⟨fun accounts pos => ⟨?_, ?_, ?_⟩, fun staff => ⟨?_, ?_, ?_⟩,
    fun loans => ⟨?_, ?_, ?_⟩⟩
  · intro i r h
    rw [find_located ⟨accounts, pos⟩ h]
  · rintro ⟨x, hx, hxid⟩
    rcases located_at_or_absent accounts id with hn | hs
    · exact absurd hxid (hn x hx)
    · exact hs
  · constructor
    · intro hfind
      rcases located_at_or_absent accounts id with hn | ⟨i, r, h⟩
      · exact hn
      · rw [find_located ⟨accounts, pos⟩ h] at hfind
        exact absurd hfind (offset_ne_neg_one i)
    · intro hn
      rw [find_absent ⟨accounts, pos⟩ hn]
  · intro k r h
    exact find_staff_located h
  · rintro ⟨x, hx, hxid⟩
    rcases staff_located_or_absent staff id with hn | hs
    · exact absurd hxid (hn x hx)
    · exact hs
  · constructor
    · intro hfind
      rcases staff_located_or_absent staff id with hn | ⟨k, r, h⟩
      · exact hn
      · rw [find_staff_located h] at hfind
        exact absurd hfind (staff_offset_ne_neg_one k)
    · exact find_staff_absent
  · intro k r h
    exact find_loan_located h
  · rintro ⟨x, hx, hxid⟩
    rcases loan_located_or_absent loans id with hn | hs
    · exact absurd hxid (hn x hx)
    · exact hs
  · constructor
    · intro hfind
      rcases loan_located_or_absent loans id with hn | ⟨k, r, h⟩
      · exact hn
      · rw [find_loan_located h] at hfind
        exact absurd hfind (loan_offset_ne_neg_one k)
    · exact find_loan_absent

/-- C26 on the store with accounts 100 and 200, a staff file with employees 7
and 9, and a loan file with loans 1 and 2: the second record of each is found
at one record size, and the account id 300, which does not occur, gives
`-1`. -/
theorem locate_by_linear_scan_witness :
    (find_customer_record_offset ⟨scenario_db.accounts, 0⟩ 200).1
      = sizeof_CustomerAccount * ((1 : Nat) : Int) ∧
    find_staff_record_offset [⟨7, "Ada", "Low", "pw7", 1⟩, ⟨9, "Bo", "Rey", "pw9", 0⟩] 9
      = sizeof_EmployeeRecord * ((1 : Nat) : Int) ∧
    find_loan_record_offset two_loans_bank.loans 2 = sizeof_LoanApplication * ((1 : Nat) : Int) ∧
    (find_customer_record_offset ⟨scenario_db.accounts, 0⟩ 300).1 = -1 :=
  ⟨((locate_by_linear_scan 200).1 scenario_db.accounts 0).1 1 account_200 (by decide),
   ((locate_by_linear_scan 9).2.1 [⟨7, "Ada", "Low", "pw7", 1⟩, ⟨9, "Bo", "Rey", "pw9", 0⟩]).1 1
      ⟨9, "Bo", "Rey", "pw9", 0⟩ (by decide),
   ((locate_by_linear_scan 2).2.2 two_loans_bank.loans).1 1 ⟨2, 200, 20, 0, -1⟩ (by decide),
   ((locate_by_linear_scan 300).1 scenario_db.accounts 0).2.2.2 (by decide)⟩

theorem read_line_loop_line (max_len : Nat) (l : List Char) (hnl : '\n' ∉ l) :
    ∀ (buffer rest : List Char), buffer.length + l.length ≤ max_len - 1 →
      read_line_loop max_len buffer (l ++ '\n' :: rest)
        = (((buffer ++ l).length : Int), buffer ++ l,
           if buffer.length + l.length < max_len - 1 then rest else '\n' :: rest) := by
  induction l with
  | nil =>
    intro buffer rest _
    by_cases h : buffer.length < max_len - 1
    · simp [read_line_loop, h]
    · simp [read_line_loop, h]
  | cons c l ih =>
    intro buffer rest hfit
    have hc : c ≠ '\n' := fun h => hnl (by simp [h])
    have hl : '\n' ∉ l := fun h => hnl (by simp [h])
    have hlt : buffer.length < max_len - 1 := by
      simp only [List.length_cons] at hfit; omega
    have hfit' : (buffer ++ [c]).length + l.length ≤ max_len - 1 := by
      simp only [List.length_append, List.length_cons, List.length_nil] at hfit ⊢; omega
    have := ih hl (buffer ++ [c]) rest hfit'
    have e1 : buffer ++ [c] ++ l = buffer ++ c :: l := by simp
    have e2 : (buffer ++ [c]).length + l.length = buffer.length + (c :: l).length := by
      simp only [List.length_append, List.length_cons, List.length_nil]; omega
    rw [e1, e2] at this
    rw [List.cons_append, read_line_loop]
    simp only [hlt, if_true, hc, if_false]
    exact this

theorem c_string_of_no_nul {l : List Char} (h : Char.ofNat 0 ∉ l) : c_string l = l := by
  unfold c_string
  rw [List.takeWhile_eq_self_iff]
  intro a ha
  simp only [ne_eq, decide_eq_true_eq]
  rintro rfl
  exact h ha

theorem located_at_set_pin {accounts : List CustomerAccount} {account_id : Int} {i : Nat}
    {s : CustomerAccount} (h : located_at accounts account_id i s) (pin : String) :
    located_at (accounts.set i { s with access_pin := pin }) account_id i
      { s with access_pin := pin } := by
  obtain ⟨h1, h2, h3⟩ := h
  have hlt : i < accounts.length := located_at_lt ⟨h1, h2, h3⟩
  refine ⟨?_, h2, ?_⟩
  · rw [List.getElem?_set_self hlt]
  · rw [List.set_take, List.set_eq_of_length_le (by simp)]
    exact h3

theorem handle_customer_password_change_located {accounts : List CustomerAccount}
    {account_id : Int} {i : Nat} {s : CustomerAccount}
    (h : located_at accounts account_id i s) {p : List Char} (hne : p ≠ [])
    (hlen : p.length ≤ 49) (hnul : Char.ofNat 0 ∉ p) (hnl : '\n' ∉ p) (rest : List Char)
    (account₀ : CustomerAccount) :
    handle_customer_password_change accounts account_id (p ++ '\n' :: rest) account₀
      = ⟨accounts.set i { s with access_pin := ⟨p.take 19⟩ },
         some ⟨"SUCCESS", "PIN changed successfully. You will be logged out."⟩, true,
         if p.length < 49 then rest else '\n' :: rest⟩ := by
  have hline := read_line_loop_line 50 p hnl [] rest (by simpa using hlen)
  simp only [List.nil_append, List.length_nil, Nat.zero_add] at hline
  have hpos : 0 < p.length := List.length_pos.2 hne
  have hnle : ¬ ((p.length : Int) ≤ 0) := by omega
  have hlen0 : ¬ (p.length = 0) := by omega
  have hf := find_located ⟨accounts, 0⟩ h
  simp only [handle_customer_password_change, read_line, hline, hnle, if_false,
    c_string_of_no_nul hnul, hlen0, hf, offset_ne_neg_one, lseek_set_offset,
    read_account_at h.1, write_account_at (located_at_lt h)]

/-- C27. PIN change round trip: when the account has a first record `s` and
the client sends as new PIN a non-empty line `p` of at most 49 bytes without
NUL, `handle_customer_password_change` rewrites that record with the first
`min(|p|, 19)` bytes of `p` as PIN and nothing else changed, leaves all other
records as they were and reports success; if the account is active,
`login_customer` with `p` succeeds on the new store exactly when
`|p| <= 19`. -/
theorem pin_change_round_trip (accounts : List CustomerAccount) (account_id : Int) (i : Nat)
    (s : CustomerAccount) (p : String) (rest : List Char) (account₀ login₀ : CustomerAccount)
    (hs : located_at accounts account_id i s) (hne : p ≠ "") (hlen : p.length ≤ 49)
    (hnul : Char.ofNat 0 ∉ p.data) (hnl : '\n' ∉ p.data) :
    (handle_customer_password_change accounts account_id (p.data ++ '\n' :: rest)
        account₀).records
      = accounts.set i ⟨s.account_id, s.owner_name, ⟨p.data.take 19⟩, s.balance, s.is_active⟩ ∧
    (⟨p.data.take 19⟩ : String).length = min p.length 19 ∧
    (∀ k, k ≠ i →
      (handle_customer_password_change accounts account_id (p.data ++ '\n' :: rest)
        account₀).records[k]? = accounts[k]?) ∧
    (handle_customer_password_change accounts account_id (p.data ++ '\n' :: rest)
        account₀).response
      = some ⟨"SUCCESS", "PIN changed successfully. You will be logged out."⟩ ∧
    (s.is_active ≠ 0 →
      (login_customer
          (handle_customer_password_change accounts account_id (p.data ++ '\n' :: rest)
            account₀).records account_id p login₀ = true
        ↔ p.length ≤ 19)) := by
  have hne' : p.data ≠ [] := by
    intro h
    apply hne
    cases p
    simp only at h
    rw [h]
  have hlen' : p.data.length ≤ 49 := hlen
  rw [handle_customer_password_change_located hs hne' hlen' hnul hnl rest account₀]
  refine ⟨rfl, ?_, ?_, rfl, ?_⟩
  · show (p.data.take 19).length = min p.data.length 19
    rw [List.length_take, Nat.min_comm]
  · intro k hk
    exact List.getElem?_set_ne (fun h => hk h.symm)
  · intro hactive
    simp only
    rw [login_customer_located (located_at_set_pin hs _)]
    simp only [hactive, ne_eq, not_false_eq_true, decide_True, Bool.and_true,
      decide_eq_true_eq]
    constructor
    · intro heq
      have hd : p.data.take 19 = p.data := congrArg String.data heq
      have := List.take_eq_self_iff p.data |>.1 hd
      exact this
    · intro hle
      have hd : p.data.take 19 = p.data := List.take_of_length_le hle
      cases p
      simp only at hd
      rw [hd]

/-- C27 for account 100 of the store with accounts 100 and 200: the new PIN
"2468" is stored whole and logs in, and of a new PIN of 20 bytes the first 19
are stored, so that it does not log in. -/
theorem pin_change_round_trip_witness :
    (handle_customer_password_change scenario_db.accounts 100 ("2468".data ++ '\n' :: [])
        stack_junk).records
      = scenario_db.accounts.set 0 ⟨100, "Asha", ⟨"2468".data.take 19⟩, 750, 1⟩ ∧
    login_customer
        (handle_customer_password_change scenario_db.accounts 100 ("2468".data ++ '\n' :: [])
          stack_junk).records 100 "2468" stack_junk = true ∧
    ¬ login_customer
        (handle_customer_password_change scenario_db.accounts 100
          ("12345678901234567890".data ++ '\n' :: []) stack_junk).records 100
        "12345678901234567890" stack_junk = true :=
  ⟨(pin_change_round_trip scenario_db.accounts 100 0 account_100 "2468" [] stack_junk stack_junk
      (by decide) (by decide) (by decide) (by decide) (by decide)).1,
   ((pin_change_round_trip scenario_db.accounts 100 0 account_100 "2468" [] stack_junk stack_junk
      (by decide) (by decide) (by decide) (by decide) (by decide)).2.2.2.2 (by decide)).2
      (by decide),
   fun h => absurd
    (((pin_change_round_trip scenario_db.accounts 100 0 account_100 "12345678901234567890" []
      stack_junk stack_junk (by decide) (by decide) (by decide) (by decide)
      (by decide)).2.2.2.2 (by decide)).1 h) (by decide)⟩

/-! ## Customer login -/

theorem login_customer_absent {accounts : List CustomerAccount} {account_id : Int}
    (h : ∀ x ∈ accounts, x.account_id ≠ account_id) (pin : String)
    (account₀ : CustomerAccount) : login_customer accounts account_id pin account₀ = false := by
  have hf := find_absent ⟨accounts, 0⟩ h
  simp only [login_customer, hf, if_true]

/-- C28. Customer login decision: `login_customer` returns true exactly when
the store has a first record with the id, the PIN stored there equals the
supplied PIN and its active flag is not 0; so the first record's active flag
being 0 makes it return false whatever the PIN. It leaves an existing file
as it is, and creates an empty file when there is none. -/
theorem customer_login_decision (accounts : List CustomerAccount) (account_id : Int)
    (pin : String) (account₀ : CustomerAccount) :
    (login_customer accounts account_id pin account₀ = true
      ↔ ∃ i r, located_at accounts account_id i r ∧ r.access_pin = pin ∧ r.is_active ≠ 0) ∧
    (∀ i r, located_at accounts account_id i r → r.is_active = 0 →
      login_customer accounts account_id pin account₀ = false) ∧
    login_customer_file (some accounts) account_id pin account₀
      = (login_customer accounts account_id pin account₀, some accounts) ∧
    login_customer_file none account_id pin account₀ = (false, some []) := by
  refine ⟨?_, ?_, rfl, rfl⟩
  · constructor
    · intro hlogin
      rcases located_at_or_absent accounts account_id with hn | ⟨i, r, h⟩
      · rw [login_customer_absent hn] at hlogin
        cases hlogin
      · rw [login_customer_located h] at hlogin
        simp only [Bool.and_eq_true, decide_eq_true_eq] at hlogin
        exact ⟨i, r, h, hlogin.1, hlogin.2⟩
    · rintro ⟨i, r, h, hpin, hactive⟩
      rw [login_customer_located h]
      simp [hpin, hactive]
  · intro i r h hzero
    rw [login_customer_located h]
    simp [hzero]

/-- C28 on concrete stores: account 100 logs in with its PIN "1234" and not
with "1235", and the inactive account 100 does not log in with its PIN. -/
theorem customer_login_decision_witness :
    login_customer scenario_db.accounts 100 "1234" stack_junk = true ∧
    login_customer inactive_db.accounts 100 "1234" stack_junk = false :=
  ⟨(customer_login_decision scenario_db.accounts 100 "1234" stack_junk).1.2
      ⟨0, account_100, by decide, by decide, by decide⟩,
   (customer_login_decision inactive_db.accounts 100 "1234" stack_junk).2.1 0
      ⟨100, "Asha", "1234", 500, 0⟩ (by decide) (by decide)⟩

/-! ## Session locks are keyed by the number -/

theorem digitChar_spec (d : Nat) (h : d < 10) :
    (Nat.digitChar d).toNat - 48 = d ∧ Nat.digitChar d ≠ '-' := by
  interval_cases d <;> exact ⟨rfl, by decide⟩

theorem digits_value_append (l : List Char) (c : Char) :
    digits_value (l ++ [c]) = 10 * digits_value l + (c.toNat - 48) := by
  simp [digits_value, List.foldl_append]

theorem toDigitsCore_spec (fuel : Nat) :
    ∀ (n : Nat) (ds : List Char), n < fuel →
      ∃ l, Nat.toDigitsCore 10 fuel n ds = l ++ ds ∧ digits_value l = n ∧
        (∀ c ∈ l, c ≠ '-') ∧ l ≠ [] := by
  induction fuel with
  | zero => intro n ds h; omega
  | succ fuel ih =>
    intro n ds h
    obtain ⟨hv, hc⟩ := digitChar_spec (n % 10) (Nat.mod_lt _ (by decide))
    rw [Nat.toDigitsCore]
    by_cases h0 : n / 10 = 0
    · rw [if_pos h0]
      refine ⟨[Nat.digitChar (n % 10)], rfl, ?_, ?_, by simp⟩
      · have := digits_value_append [] (Nat.digitChar (n % 10))
        simp only [List.nil_append] at this
        rw [this, hv]
        simp only [digits_value, List.foldl_nil]
        omega
      · intro c hcm
        rw [List.mem_singleton] at hcm
        rw [hcm]
        exact hc
    · rw [if_neg h0]
      obtain ⟨l, hl, hval, hchars, _⟩ := ih (n / 10) (Nat.digitChar (n % 10) :: ds) (by omega)
      refine ⟨l ++ [Nat.digitChar (n % 10)], by rw [hl]; simp, ?_, ?_, by simp⟩
      · rw [digits_value_append, hval, hv]
        omega
      · intro c hcm
        rcases List.mem_append.1 hcm with hm | hm
        · exact hchars c hm
        · rw [List.mem_singleton] at hm
          rw [hm]
          exact hc

theorem nat_repr_spec (n : Nat) :
    digits_value (Nat.repr n).data = n ∧ (∀ c ∈ (Nat.repr n).data, c ≠ '-') ∧
      (Nat.repr n).data ≠ [] := by
  obtain ⟨l, hl, hval, hchars, hne⟩ := toDigitsCore_spec (n + 1) n [] (by omega)
  have hdata : (Nat.repr n).data = l := by
    show Nat.toDigits 10 n = l
    rw [Nat.toDigits, hl, List.append_nil]
  rw [hdata]
  exact ⟨hval, hchars, hne⟩

theorem nat_repr_injective {a b : Nat} (h : Nat.repr a = Nat.repr b) : a = b := by
  rw [← (nat_repr_spec a).1, ← (nat_repr_spec b).1, h]

theorem int_toString_injective {a b : Int} (h : toString a = toString b) : a = b := by
  cases a with
  | ofNat m =>
    cases b with
    | ofNat k =>
      have h' : Nat.repr m = Nat.repr k := h
      rw [nat_repr_injective h']
    | negSucc k =>
      have h' : Nat.repr m = "-" ++ Nat.repr (k + 1) := h
      have hd : (Nat.repr m).data = '-' :: (Nat.repr (k + 1)).data := by
        rw [h', String.data_append]
        rfl
      exact absurd rfl ((nat_repr_spec m).2.1 '-' (by rw [hd]; simp))
  | negSucc m =>
    cases b with
    | ofNat k =>
      have h' : "-" ++ Nat.repr (m + 1) = Nat.repr k := h
      have hd : (Nat.repr k).data = '-' :: (Nat.repr (m + 1)).data := by
        rw [← h', String.data_append]
        rfl
      exact absurd rfl ((nat_repr_spec k).2.1 '-' (by rw [hd]; simp))
    | negSucc k =>
      have h' : "-" ++ Nat.repr (m + 1) = "-" ++ Nat.repr (k + 1) := h
      have hd : (Nat.repr (m + 1)).data = (Nat.repr (k + 1)).data := by
        have := congrArg String.data h'
        simp only [String.data_append] at this
        exact List.append_cancel_left this
      have hs : Nat.repr (m + 1) = Nat.repr (k + 1) := String.ext hd
      have := nat_repr_injective hs
      rw [show m = k by omega]

theorem session_sem_name_injective {a b : Int} (h : session_sem_name a = session_sem_name b) :
    a = b := by
  unfold session_sem_name at h
  have := congrArg String.data h
  simp only [String.data_append] at this
  exact int_toString_injective (String.ext (List.append_cancel_left this))

/-- C29. Session locks are keyed by the bare number: `create_session_lock`
opens the semaphore named "/bms_sem_" followed by the decimal digits of the
id ("/bms_sem_5" for 5, "/bms_sem_100" for 100), whatever the role; two ids
get the same name exactly when they are equal. So when the number `n` is
free and a session of any role `holder` logs in with `n`, which creates the
semaphore "/bms_sem_n" with the value 0 after the `sem_trywait`, a login
pass of any role `visitor` with the same `n`, right or wrong password, is
answered with that role's "already logged in elsewhere" message and leaves
the semaphores as they are. -/
theorem session_lock_keyed_by_number :
    (∀ n : Int, session_sem_name n = "/bms_sem_" ++ toString n) ∧
    (∀ n : Nat, (session_sem_name (n : Int)).data = "/bms_sem_".data ++ (Nat.repr n).data ∧
      digits_value (Nat.repr n).data = n ∧ (Nat.repr n).data ≠ []) ∧
    session_sem_name 5 = "/bms_sem_5" ∧
    session_sem_name 100 = "/bms_sem_100" ∧
    (∀ a b : Int, session_sem_name a = session_sem_name b ↔ a = b) ∧
    (∀ (sems : Semaphores) (n : Int),
      create_session_lock sems n
        = ((sem_open sems ("/bms_sem_" ++ toString n)).1,
           (sem_open sems ("/bms_sem_" ++ toString n)).2,
           ⟨n, some (sem_open sems ("/bms_sem_" ++ toString n)).1⟩)) ∧
    (∀ (holder visitor : SessionRole) (sems : Semaphores) (globals globals' : SessionGlobals)
        (n : Int) (login_ok : Bool),
      0 < n → sems.names.lookup ("/bms_sem_" ++ toString n) = none →
      session_login_pass holder sems globals n true
        = (some ⟨"SUCCESS", "Login successful."⟩, .logged_in sems.values.length,
           ⟨sems.values ++ [0], ("/bms_sem_" ++ toString n, sems.values.length) :: sems.names⟩,
           ⟨n, some sems.values.length⟩) ∧
      session_login_pass visitor (session_login_pass holder sems globals n true).2.2.1 globals'
          n login_ok
        = (some ⟨"ERROR", already_logged_in_message visitor⟩, .already_logged_in,
           (session_login_pass holder sems globals n true).2.2.1,
           ⟨n, some sems.values.length⟩)) := by
  refine ⟨fun n => rfl, fun n => ⟨?_, (nat_repr_spec n).1, (nat_repr_spec n).2.2⟩, by decide,
    by decide, fun a b => ⟨session_sem_name_injective, fun h => by rw [h]⟩, fun sems n => rfl, ?_⟩
  · show ("/bms_sem_" ++ Nat.repr n).data = _
    rw [String.data_append]
  intro holder visitor sems globals globals' n login_ok hn hfree
  have hname0 : "/bms_sem_" ++ toString n = session_sem_name n := rfl
  rw [hname0] at hfree ⊢
  have hnle : ¬ n ≤ 0 := not_le.mpr hn
  have h1 : login_attempt sems globals n true
      = (.logged_in sems.values.length,
         ⟨sems.values ++ [0], (session_sem_name n, sems.values.length) :: sems.names⟩,
         ⟨n, some sems.values.length⟩) := by
    simp only [login_attempt, hnle, if_false, try_acquire_free hfree, Bool.true_eq_false,
      if_true]
  have hname : (⟨sems.values ++ [0], (session_sem_name n, sems.values.length) :: sems.names⟩ :
      Semaphores).names.lookup (session_sem_name n) = some sems.values.length := by
    simp [List.lookup_cons]
  have hvalue : (⟨sems.values ++ [0], (session_sem_name n, sems.values.length) :: sems.names⟩ :
      Semaphores).values[sems.values.length]? = some 0 := by
    simp
  have h2 : login_attempt
      ⟨sems.values ++ [0], (session_sem_name n, sems.values.length) :: sems.names⟩ globals' n
      login_ok
      = (.already_logged_in,
         ⟨sems.values ++ [0], (session_sem_name n, sems.values.length) :: sems.names⟩,
         ⟨n, some sems.values.length⟩) := by
    simp only [login_attempt, hnle, if_false, try_acquire_held hname hvalue, if_true]
  constructor
  · simp only [session_login_pass, h1, login_reply]
  · simp only [session_login_pass, h1, h2, login_reply]

/-- C29 for the number 5 and no semaphore: a customer's login as account 5
creates the semaphore "/bms_sem_5"; after it an employee's and a manager's
login with staff id 5 is refused, and after an employee has logged in with
staff id 5 a customer's login as account 5 is refused. -/
theorem session_lock_keyed_by_number_witness :
    session_login_pass .customer ⟨[], []⟩ ⟨-1, none⟩ 5 true
      = (some ⟨"SUCCESS", "Login successful."⟩, .logged_in 0, ⟨[0], [("/bms_sem_5", 0)]⟩,
         ⟨5, some 0⟩) ∧
    session_login_pass .employee ⟨[0], [("/bms_sem_5", 0)]⟩ ⟨-1, none⟩ 5 true
      = (some ⟨"ERROR", "This ID is already logged in elsewhere."⟩, .already_logged_in,
         ⟨[0], [("/bms_sem_5", 0)]⟩, ⟨5, some 0⟩) ∧
    session_login_pass .manager ⟨[0], [("/bms_sem_5", 0)]⟩ ⟨-1, none⟩ 5 false
      = (some ⟨"ERROR", "This ID is already logged in elsewhere."⟩, .already_logged_in,
         ⟨[0], [("/bms_sem_5", 0)]⟩, ⟨5, some 0⟩) ∧
    session_login_pass .customer (session_login_pass .employee ⟨[], []⟩ ⟨-1, none⟩ 5 true).2.2.1
        ⟨-1, none⟩ 5 true
      = (some ⟨"ERROR", "This account is already logged in elsewhere."⟩, .already_logged_in,
         ⟨[0], [("/bms_sem_5", 0)]⟩, ⟨5, some 0⟩) :=
  ⟨(session_lock_keyed_by_number.2.2.2.2.2.2 .customer .employee ⟨[], []⟩ ⟨-1, none⟩ ⟨-1, none⟩
      5 true (by decide) rfl).1.trans (by decide),
   (session_lock_keyed_by_number.2.2.2.2.2.2 .customer .employee ⟨[], []⟩ ⟨-1, none⟩ ⟨-1, none⟩
      5 true (by decide) rfl).2.trans (by decide),
   (session_lock_keyed_by_number.2.2.2.2.2.2 .customer .manager ⟨[], []⟩ ⟨-1, none⟩ ⟨-1, none⟩
      5 false (by decide) rfl).2.trans (by decide),
   (session_lock_keyed_by_number.2.2.2.2.2.2 .employee .customer ⟨[], []⟩ ⟨-1, none⟩ ⟨-1, none⟩
      5 true (by decide) rfl).2.trans (by decide)⟩

/-! ## The disconnect handler -/

/-- C30 fails on the code. A process that has logged in as identity 3 and
logged out, which leaves `handle_unexpected_disconnect` installed, starts a
login as identity 7, which another process holds. After
`create_session_lock`, and before its `sem_trywait`, its globals name
identity 7 and the open semaphore "/bms_sem_7", though it holds no lock. A
signal at this point makes `handle_unexpected_disconnect` post the semaphore
of identity 7 and unlink its name, after which a login as identity 7 takes
the lock although the other process still has its session. -/
theorem disconnect_handler_releases_foreign_lock :
    (Connection.run identity_7_held fresh_connection relogin_events)
      = (⟨[0, 1], [("/bms_sem_7", 0)]⟩, ⟨.opened 7 0 true, ⟨7, some 0⟩, [0], true, false⟩) ∧
    (Connection.run identity_7_held fresh_connection relogin_events).2.holds = none ∧
    handle_unexpected_disconnect ⟨[0, 1], [("/bms_sem_7", 0)]⟩ ⟨7, some 0⟩ [0]
      = some ⟨[1, 1], []⟩ ∧
    (Connection.run identity_7_held fresh_connection (relogin_events ++ [.signal]))
      = (⟨[1, 1], []⟩, ⟨.opened 7 0 true, ⟨7, some 0⟩, [0], true, true⟩) ∧
    (try_acquire ⟨[1, 1], []⟩ 7).1 = true := by
  decide

end BankingSystem
